import Mathlib

/-!
The OpenAPI client generator of `cmd/code.go` (ottcli).

A shallow embedding of the generator (`main`, `goGen`, `pyGen`, `jsGen`,
`getSchemaExample`, `getRequiredFirstKeys`, `toType`, `toName`, `toSnakeCase`)
and the properties of it that are established against the code.

Conventions of the embedding:

* a Go `string` is a Lean `String`; the strings of a document come out of a JSON
  decoder and are valid UTF-8, for which Go's byte-wise comparison is the
  lexicographic comparison of code points (`strLess`);
* a Go `map[string]V` is an association list with pairwise distinct keys; the
  order of the list is the (unspecified) enumeration order of `range`;
* a pointer is an `Option`; dereferencing `nil` is `Panic.nilDeref`;
* a function that may panic returns `Except Panic _`;
* library functions whose tables are not part of the repository
  (`unicode.ToLower`, the `cases.Title` casers, `format.Source`) are parameters,
  collected in `Env`.
-/

namespace Ottcli

/-! ## Strings -/

/-- Lexicographic comparison of two rune sequences by code point. -/
def runesLess : List Char → List Char → Bool
  | _, [] => false
  | [], _ :: _ => true
  | a :: as, b :: bs => a.toNat < b.toNat || (a.toNat == b.toNat && runesLess as bs)

/-- Go's `a < b` on strings. -/
def strLess (a b : String) : Bool := runesLess a.data b.data

/-- Go's `a <= b` on strings, as the negation of `b < a`. -/
def strLe (a b : String) : Prop := strLess b a = false

instance : DecidableRel strLe := fun a b => inferInstanceAs (Decidable (strLess b a = false))

/-- `sort.Strings`: the ascending rearrangement of a list of strings. -/
def sortStrings (l : List String) : List String := l.insertionSort strLe

/-- `strings.HasPrefix`. -/
def hasPrefix (s pre : String) : Bool := pre.data.isPrefixOf s.data

/-- `strings.TrimPrefix`. -/
def trimPrefix (s pre : String) : String :=
  if hasPrefix s pre then String.mk (s.data.drop pre.data.length) else s

/-! ## Maps -/

/-- A Go `map[string]V`: the entries in enumeration order, keys pairwise distinct. -/
abbrev GoMap (V : Type) := List (String × V)

/-- The keys of a map, in enumeration order (`for k := range m`). -/
def GoMap.keys {V : Type} (m : GoMap V) : List String := m.map Prod.fst

/-- The index expression `m[k]` with the comma-ok result folded into an `Option`. -/
def GoMap.get {V : Type} (m : GoMap V) (k : String) : Option V := List.lookup k m

/-- The assignment `m[k] = v`. -/
def GoMap.set {V : Type} : GoMap V → String → V → GoMap V
  | [], k, v => [(k, v)]
  | (k0, v0) :: rest, k, v => if k0 = k then (k, v) :: rest else (k0, v0) :: GoMap.set rest k v

/-- The index expression `m[k]` on a `map[string]bool`: `false` for an absent key. -/
def GoMap.test (m : GoMap Bool) (k : String) : Bool := (GoMap.get m k).getD false

/-- The loop `for _, v := range l \x7b m[v] = true \x7d` starting from the map `m`. -/
def markAll (m : GoMap Bool) (l : List String) : GoMap Bool :=
  l.foldl (fun acc v => GoMap.set acc v true) m

/-! ## The document (`openapi3.T`) -/

/-- What makes the program panic. -/
inductive Panic where
  | nilDeref
  | unknownType (msg : String)
  | sliceBounds
  | formatError
  deriving DecidableEq, Repr

instance {ε α : Type} [DecidableEq ε] [DecidableEq α] : DecidableEq (Except ε α) := fun a b =>
  match a, b with
  | .ok x, .ok y => if h : x = y then isTrue (by rw [h]) else isFalse (fun e => h (by cases e; rfl))
  | .error x, .error y =>
    if h : x = y then isTrue (by rw [h]) else isFalse (fun e => h (by cases e; rfl))
  | .ok _, .error _ => isFalse (fun e => by cases e)
  | .error _, .ok _ => isFalse (fun e => by cases e)

mutual
/-- The type `openapi3.SchemaRef`: a reference string and the (resolved) value. -/
inductive SchemaRef where
  | mk (Ref : String) (Value : Option Schema)
/-- The fields of `openapi3.Schema` the generator reads; `AdditionalProperties`
is the field `AdditionalProperties.Schema`. -/
inductive Schema where
  | mk (Type_ Title : String) (Properties : List (String × SchemaRef)) (Required : List String)
       (Items : Option SchemaRef) (AdditionalProperties : Option SchemaRef)
end

def SchemaRef.Ref : SchemaRef → String
  | .mk r _ => r

def SchemaRef.Value : SchemaRef → Option Schema
  | .mk _ v => v

def Schema.Type_ : Schema → String
  | .mk t _ _ _ _ _ => t

def Schema.Title : Schema → String
  | .mk _ t _ _ _ _ => t

def Schema.Properties : Schema → GoMap SchemaRef
  | .mk _ _ p _ _ _ => p

def Schema.Required : Schema → List String
  | .mk _ _ _ r _ _ => r

def Schema.Items : Schema → Option SchemaRef
  | .mk _ _ _ _ i _ => i

def Schema.AdditionalProperties : Schema → Option SchemaRef
  | .mk _ _ _ _ _ a => a

/-- An `openapi3.Operation`. -/
structure Operation where
  OperationID : String
  Summary : String
  deriving DecidableEq, Repr

/-- An `openapi3.PathItem`: only the POST operation is read. -/
structure PathItem where
  Post : Option Operation
  deriving DecidableEq, Repr

/-- The type `openapi3.Components`. -/
structure Components where
  Schemas : GoMap SchemaRef

/-- The type `openapi3.T`, the loaded document. `Components` is a pointer: it is nil for
a document without a `components` section. -/
structure T where
  Paths : GoMap PathItem
  Components : Option Components

/-- The expression `doc.Components.Schemas[key]`: a nil dereference when the document has
no components, and the schema of the key, or nil, otherwise. -/
def T.schema (doc : T) (key : String) : Except Panic (Option SchemaRef) :=
  match doc.Components with
  | none => .error .nilDeref
  | some comps => .ok (GoMap.get comps.Schemas key)

/-! ## `toType` -/

/-- The map literal `typeMap` of `toType`. -/
def typeMap (arrayType mapType : String) : GoMap String :=
  [ ("go-string", "string"),
    ("go-boolean", "bool"),
    ("go-number", "float64"),
    ("go-integer", "int64"),
    ("go-array", "[]" ++ arrayType),
    ("go-object", "map[string]" ++ mapType),
    ("py-string", "str"),
    ("py-boolean", "bool"),
    ("py-number", "float"),
    ("py-integer", "int"),
    ("py-array", "List[" ++ arrayType ++ "]"),
    ("py-object", "Dict[str, " ++ mapType ++ "]"),
    ("js-string", "string"),
    ("js-boolean", "boolean"),
    ("js-number", "float"),
    ("js-integer", "int"),
    ("js-array", "array[" ++ arrayType ++ "]"),
    ("js-object", "map[string, " ++ mapType ++ "]") ]

/-- The function `toType` on a non-nil `*SchemaRef`. A panic of a recursive call
ends the call. -/
def toType : SchemaRef → String → Except Panic String
  | .mk Ref Value, lang =>
    if Ref ≠ "" then
      let name := trimPrefix Ref "#/components/schemas/"
      if lang = "go" then .ok ("*" ++ name) else .ok name
    else
      match Value with
      | none => .error .nilDeref
      | some (.mk ty _ _ _ items ap) =>
        let mapType : Except Panic String :=
          if ty = "object" then
            match ap with
            | some s => toType s lang
            | none => .ok ""
          else .ok ""
        let arrayType : Except Panic String :=
          if ty = "array" then
            match items with
            | some it => toType it lang
            | none => .error .nilDeref
          else .ok ""
        match mapType with
        | .error e => .error e
        | .ok mapType =>
          match arrayType with
          | .error e => .error e
          | .ok arrayType =>
            match GoMap.get (typeMap arrayType mapType) (lang ++ "-" ++ ty) with
            | some v => .ok v
            | none => .error (.unknownType ("unknown type:" ++ lang ++ "-" ++ ty))

/-- The function `toType` on a `*SchemaRef` that may be nil. -/
def toTypePtr (t : Option SchemaRef) (lang : String) : Except Panic String :=
  match t with
  | none => .error .nilDeref
  | some r => toType r lang

/-! ## `getRequiredFirstKeys` -/

/-- The function `getRequiredFirstKeys` on a non-nil `*SchemaRef`. -/
def getRequiredFirstKeys (sm : SchemaRef) : Except Panic (List String × GoMap Bool) :=
  match sm.Value with
  | none => .error .nilDeref
  | some s =>
    let sortKeys := s.Properties.keys
    let requiredKeys := markAll [] s.Required
    let sortKeys := sortStrings sortKeys
    let requiredFirstKeys : List String := []
    let requiredFirstKeys := sortKeys.foldl
      (fun acc v => if !GoMap.test requiredKeys v then acc else acc ++ [v]) requiredFirstKeys
    let requiredFirstKeys := sortKeys.foldl
      (fun acc v => if GoMap.test requiredKeys v then acc else acc ++ [v]) requiredFirstKeys
    .ok (requiredFirstKeys, requiredKeys)

/-- The function `getRequiredFirstKeys` on a `*SchemaRef` that may be nil. -/
def getRequiredFirstKeysPtr (sm : Option SchemaRef) : Except Panic (List String × GoMap Bool) :=
  match sm with
  | none => .error .nilDeref
  | some r => getRequiredFirstKeys r

/-! ## Library functions that are parameters -/

/-- The library functions whose tables are outside the repository.
`unicodeLower` is `unicode.ToLower` on the runes outside ASCII, `title` is
`cases.Title(language.English).String`, `titleNoLower` is
`cases.Title(language.English, cases.NoLower).String`, and `formatSource` is
`format.Source` (`none` when it returns an error). -/
structure Env where
  unicodeLower : Char → Char
  title : String → String
  titleNoLower : String → String
  formatSource : String → Option String

/-! ## `toSnakeCase` and `toName` -/

/-- The class `[A-Z]`. -/
def isUpperAZ (c : Char) : Bool := decide (65 ≤ c.toNat) && decide (c.toNat ≤ 90)

/-- The class `[a-z]`. -/
def isLowerAZ (c : Char) : Bool := decide (97 ≤ c.toNat) && decide (c.toNat ≤ 122)

/-- The class `[0-9]`. -/
def isDigit09 (c : Char) : Bool := decide (48 ≤ c.toNat) && decide (c.toNat ≤ 57)

/-- The class `.` (no `s` flag): every rune but the line feed. -/
def isDot (c : Char) : Bool := decide (c.toNat ≠ 10)

/-- A match of `matchFirstCap`, `(.)([A-Z][a-z]+)`, that starts at the head of the
input: the expansion of `$\x7b1\x7d_$\x7b2\x7d` for it, and the input after the match. The
`+` is greedy, so the match takes the whole run of `[a-z]`. -/
def matchFirstCapAt : List Char → Option (List Char × List Char)
  | c :: u :: l :: tl =>
    if isDot c && isUpperAZ u && isLowerAZ l then
      some (c :: '_' :: u :: l :: tl.takeWhile isLowerAZ, tl.dropWhile isLowerAZ)
    else none
  | _ => none

/-- A match of `matchAllCap`, `([a-z0-9])([A-Z])`, that starts at the head of the
input: the expansion of the template for it, and the input after the match. -/
def matchAllCapAt : List Char → Option (List Char × List Char)
  | c :: u :: tl =>
    if (isLowerAZ c || isDigit09 c) && isUpperAZ u then some ([c, '_', u], tl) else none
  | _ => none

/-- The scan of `Regexp.ReplaceAllString` for a pattern that has no empty match: the
leftmost match is replaced and the scan goes on after it; a rune at which no match
starts is copied. Every step consumes a rune, so the length of the input is enough
fuel. -/
def replaceAll (matchAt : List Char → Option (List Char × List Char)) :
    Nat → List Char → List Char
  | 0, s => s
  | _ + 1, [] => []
  | fuel + 1, c :: rest =>
    match matchAt (c :: rest) with
    | some (rep, suffix) => rep ++ replaceAll matchAt fuel suffix
    | none => c :: replaceAll matchAt fuel rest

/-- The call `re.ReplaceAllString(s, "$\x7b1\x7d_$\x7b2\x7d")` for the pattern of `matchAt`. -/
def replaceAllString (matchAt : List Char → Option (List Char × List Char)) (s : String) :
    String :=
  String.mk (replaceAll matchAt s.data.length s.data)

/-- Lower-casing of one rune: `strings.ToLower` maps `A`..`Z` to `a`..`z`, leaves the
other ASCII runes alone and maps a rune outside ASCII with `unicode.ToLower`. -/
def toLowerRune (env : Env) (c : Char) : Char :=
  if c.toNat < 128 then (if isUpperAZ c then Char.ofNat (c.toNat + 32) else c)
  else env.unicodeLower c

/-- `strings.ToLower`. -/
def toLower (env : Env) (s : String) : String := String.mk (s.data.map (toLowerRune env))

/-- The function `toSnakeCase`. -/
def toSnakeCase (env : Env) (str : String) : String :=
  let snake := replaceAllString matchFirstCapAt str
  let snake := replaceAllString matchAllCapAt snake
  toLower env snake

/-- The function `toName`. -/
def toName (env : Env) (name lang : String) : String :=
  if lang = "py" then toSnakeCase env name
  else if lang = "go" then env.titleNoLower name
  else name

/-! ## `getSchemaExample` -/

/-- The title suffix of an entry of `getSchemaExample`: a blank and the title when the
property has a value with a title, nothing otherwise. -/
def exampleTitle (p : Option SchemaRef) : String :=
  match p with
  | some (.mk _ (some v)) => if v.Title ≠ "" then " " ++ v.Title else ""
  | _ => ""

/-- The loop `for i, key := range allKeys` of `getSchemaExample`, from index `i` on,
with `ret` the buffer and `n` the value of `len(allKeys)`. -/
def exampleLoop (props : GoMap SchemaRef) (reqiuredKeys : GoMap Bool) (lang : String) (n : Nat) :
    Nat → List String → String → Except Panic String
  | _, [], ret => .ok ret
  | i, key :: rest, ret => do
    let tf ← toTypePtr (GoMap.get props key) lang
    let title := exampleTitle (GoMap.get props key)
    let ret :=
      if GoMap.test reqiuredKeys key then
        ret ++ "\"" ++ key ++ "\": \"type " ++ tf ++ "(required)." ++ title ++ "\""
      else
        ret ++ "\"" ++ key ++ "\": \"type " ++ tf ++ "." ++ title ++ "\""
    let ret := if i + 1 ≠ n then ret ++ ", " else ret
    exampleLoop props reqiuredKeys lang n (i + 1) rest ret

/-- The function `getSchemaExample`. -/
def getSchemaExample (ref : Option SchemaRef) (lang : String) : Except Panic String :=
  match ref with
  | none => .error .nilDeref
  | some r =>
    if r.Ref ≠ "" then .ok "\x7bimposible value\x7d"
    else
      match r.Value with
      | none => .error .nilDeref
      | some s => do
        let (allKeys, reqiuredKeys) ← getRequiredFirstKeys r
        let ret ← exampleLoop s.Properties reqiuredKeys lang allKeys.length 0 allKeys "\x7b"
        .ok (ret ++ "\x7d")

/-! ## The emitters -/

/-- What a run leaves behind: the files written, in order, the lines printed, and the
panic that ended it, if any. `ioutil.WriteFile` is taken to succeed. -/
structure Run where
  files : List (String × String)
  stdout : List String
  panic : Option Panic
  deriving DecidableEq, Repr

/-- The loop over `sortedPath` that the three emitters share (`goGen`, `pyGen`,
`jsGen`): a path without POST operation is skipped, and so is an operation outside a
non-empty `opMap`; otherwise the emitter's text for the operation, `unit path post`,
goes to the buffer `out`. -/
def clientLoop (unit : String → Operation → Except Panic String) (doc : T) (opMap : GoMap Bool) :
    List String → String → Except Panic String
  | [], out => .ok out
  | path :: rest, out =>
    match GoMap.get doc.Paths path with
    | none => .error .nilDeref
    | some pp =>
      match pp.Post with
      | none => clientLoop unit doc opMap rest out
      | some post =>
        let op := post.OperationID
        if decide (opMap.length > 0) && !GoMap.test opMap op then
          clientLoop unit doc opMap rest out
        else
          match unit path post with
          | .error e => .error e
          | .ok text => clientLoop unit doc opMap rest (out ++ text)

/-- The header of `goGen`. -/
def goHeader (openapiURL module : String) : String :=
  "// This file was generated from " ++ openapiURL ++ "\npackage " ++ module ++ "\n\n"

/-- The inner loop of the model part of `goGen`, over `requiredFirstKeys`. -/
def goFields (env : Env) (props : GoMap SchemaRef) (requiredKeys : GoMap Bool) :
    List String → String → Except Panic String
  | [], out => .ok out
  | pr :: rest, out =>
    match GoMap.get props pr with
    | none => .error .nilDeref
    | some va =>
      let isRequired := if GoMap.test requiredKeys pr then "Required. " else ""
      match va.Value with
      | none => .error .nilDeref
      | some v =>
        let out :=
          if v.Title ≠ "" ∨ isRequired ≠ "" then out ++ "// " ++ isRequired ++ v.Title ++ "\n"
          else out
        match toType va "go" with
        | .error e => .error e
        | .ok ty => goFields env props requiredKeys rest (out ++ toName env pr "go" ++ " " ++ ty ++ "\n")

/-- The model part of `goGen`: the loop over `sortedSchemas`. -/
def goGenModel (env : Env) (doc : T) : List String → String → Except Panic String
  | [], out => .ok out
  | key :: rest, out =>
    match doc.schema key with
    | .error e => .error e
    | .ok sm =>
      let out := out ++ "type " ++ key ++ " struct\x7b\n"
      match getRequiredFirstKeysPtr sm with
      | .error e => .error e
      | .ok (requiredFirstKeys, requiredKeys) =>
        let props := match sm with
          | some (.mk _ (some s)) => s.Properties
          | _ => []
        match goFields env props requiredKeys requiredFirstKeys out with
        | .error e => .error e
        | .ok out => goGenModel env doc rest (out ++ "\x7d\n\n")

/-- The text that `goGen` writes after the header of the client file. -/
def goClientPreamble : String :=
  "import \"context\"\n\tvar client apiClient\n\ttype apiClient interface \x7b\n" ++
  "\tInvoke(context.Context, string, interface\x7b\x7d, interface\x7b\x7d) error \n\t\x7d\n" ++
  "\tfunc SetApiClient(c apiClient)\x7b\n\tclient = c\n\t\x7d\n\t\n\t"

/-- The text of `goGen` for one operation. -/
def goClientText (path : String) (post : Operation) : String :=
  let op := post.OperationID
  let out := if post.Summary ≠ "" then "// " ++ post.Summary ++ "\n" else ""
  let out := out ++ "func " ++ op ++ "(ctx context.Context, req *" ++ op ++ "Request) (*" ++ op ++
    "Response, error)\x7b\n"
  let out := out ++ "rsp := &" ++ op ++ "Response\x7b\x7d\n"
  let out := out ++ "err := client.Invoke(ctx, \"" ++ path ++ "\", req, rsp)\n"
  let out := out ++ "return rsp, err\n"
  out ++ "\x7d\n\n"

/-- The body of the loop of `goGen` over `sortedPath`: it cannot panic. -/
def goClientUnit (path : String) (post : Operation) : Except Panic String :=
  .ok (goClientText path post)

/-- The client text of `goGen`, as handed to `format.Source`. -/
def goGenClient (openapiURL module : String) (sortedPath : List String) (doc : T)
    (opMap : GoMap Bool) : Except Panic String :=
  clientLoop goClientUnit doc opMap sortedPath (goHeader openapiURL module ++ goClientPreamble)

/-- The function `goGen`. -/
def goGen (env : Env) (openapiURL module : String) (sortedPath sortedSchemas : List String)
    (doc : T) (opMap : GoMap Bool) : Run :=
  match goGenModel env doc sortedSchemas (goHeader openapiURL module) with
  | .error e => Run.mk [] [] (some e)
  | .ok out =>
    match env.formatSource out with
    | none => Run.mk [] [] (some .formatError)
    | some content =>
      let files := [(module ++ ".model.gen.go", content)]
      match goGenClient openapiURL module sortedPath doc opMap with
      | .error e => Run.mk files [] (some e)
      | .ok out =>
        match env.formatSource out with
        | none => Run.mk files [] (some .formatError)
        | some content => Run.mk (files ++ [(module ++ ".client.gen.go", content)]) [] none

/-- The header of `pyGen`. -/
def pyHeader (openapiURL : String) : String :=
  "# This file was generated from " ++ openapiURL ++ "\n"

/-- The call `getSchemaExample(doc.Components.Schemas[key], lang)`. -/
def schemaExample (doc : T) (key lang : String) : Except Panic String :=
  match doc.schema key with
  | .error e => .error e
  | .ok sm => getSchemaExample sm lang

/-- The model part of `pyGen` and `jsGen`: one comment line per schema, opened by
`mark` (the comment sign of the language). -/
def commentModel (mark lang : String) (doc : T) : List String → String → Except Panic String
  | [], out => .ok out
  | key :: rest, out =>
    match schemaExample doc key lang with
    | .error e => .error e
    | .ok ex => commentModel mark lang doc rest (out ++ mark ++ " " ++ key ++ ": " ++ ex ++ "\n")

/-- The text that `pyGen` writes after the header of the client file. -/
def pyClientPreamble : String :=
  "from abc import ABCMeta, abstractmethod\n\n\nclass InvokeClass(metaclass=ABCMeta):\n" ++
  "    @abstractmethod\n    def invoke(self, path: str, req):\n        pass\n\n\n" ++
  "client: InvokeClass\n\n\ndef set_api_client(c: InvokeClass):\n    global client\n" ++
  "    client = c\n\n\n"

/-- The text of `pyGen` for one operation. -/
def pyClientUnit (env : Env) (doc : T) (path : String) (post : Operation) : Except Panic String :=
  let op := post.OperationID
  let out := if post.Summary ≠ "" then "# " ++ post.Summary ++ "\n" else ""
  let out := out ++ "def " ++ toName env op "py" ++ "(req):\n"
  match schemaExample doc (op ++ "Request") "py" with
  | .error e => .error e
  | .ok req =>
    let out := out ++ "    # req: " ++ req ++ "\n"
    match schemaExample doc (op ++ "Response") "py" with
    | .error e => .error e
    | .ok rsp =>
      let out := out ++ "    # rsp: " ++ rsp ++ "\n"
      let out := out ++ "    return client.invoke(\"" ++ path ++ "\", req)\n"
      .ok (out ++ "\n\n")

/-- The client text of `pyGen`. -/
def pyGenClient (env : Env) (openapiURL : String) (sortedPath : List String) (doc : T)
    (opMap : GoMap Bool) : Except Panic String :=
  clientLoop (pyClientUnit env doc) doc opMap sortedPath (pyHeader openapiURL ++ pyClientPreamble)

/-- The function `pyGen`. -/
def pyGen (env : Env) (openapiURL module : String) (sortedPath sortedSchemas : List String)
    (doc : T) (opMap : GoMap Bool) : Run :=
  match commentModel "#" "py" doc sortedSchemas (pyHeader openapiURL ++ "\n") with
  | .error e => Run.mk [] [] (some e)
  | .ok out =>
    let files := [(module ++ "_model.py", out)]
    match pyGenClient env openapiURL sortedPath doc opMap with
    | .error e => Run.mk files [] (some e)
    | .ok out => Run.mk (files ++ [(module ++ "_client.py", out)]) [] none

/-- The header of `jsGen`. -/
def jsHeader (openapiURL : String) : String :=
  "// This file was generated from " ++ openapiURL ++ "\n"

/-- The expression `strings.ToLower(op[:1]) + op[1:]` of `jsGen`. The slice panics on
the empty string. It cuts after the first byte: for a leading rune outside ASCII that
byte alone is no rune, `strings.ToLower` turns it into U+FFFD and the other bytes of the
rune stay behind, a text that is no valid UTF-8; the embedding writes U+FFFD for the
whole rune. -/
def lowerFirst (env : Env) (op : String) : Except Panic String :=
  match op.data with
  | [] => .error .sliceBounds
  | c :: rest =>
    if c.toNat < 128 then .ok (String.mk (toLowerRune env c :: rest))
    else .ok (String.mk (Char.ofNat 65533 :: rest))

/-- The class name of `jsGen`. -/
def jsClassName (env : Env) (module : String) : String := env.title module ++ "API"

/-- The text that `jsGen` writes after the header of the client file. -/
def jsClientPreamble (env : Env) (module : String) : String :=
  "import " ++ module ++ "_client_service from \x27@/service/" ++ module ++ "_client\x27\n\nclass " ++
  jsClassName env module ++ " \x7b\n"

/-- The text of `jsGen` for one operation. -/
def jsClientUnit (env : Env) (module : String) (doc : T) (path : String) (post : Operation) :
    Except Panic String :=
  let op := post.OperationID
  let out := if post.Summary ≠ "" then "  // " ++ post.Summary ++ "\n" else ""
  match schemaExample doc (op ++ "Request") "js" with
  | .error e => .error e
  | .ok req =>
    let out := out ++ "  // req: " ++ req ++ "\n"
    match schemaExample doc (op ++ "Response") "js" with
    | .error e => .error e
    | .ok rsp =>
      let out := out ++ "  // rsp: " ++ rsp ++ "\n"
      match lowerFirst env op with
      | .error e => .error e
      | .ok name =>
        .ok (out ++ "  " ++ name ++ " = (data) => \x7b\n    return " ++ module ++
          "_client_service(\x7b\n      url: \x27" ++ path ++
          "\x27,\n      method: \x27post\x27,\n      data: data,\n    \x7d)\n  \x7d\n")

/-- The footer of the client file of `jsGen`. -/
def jsFooter (env : Env) (module : String) : String :=
  "\n\x7d\n\nexport default new " ++ jsClassName env module ++ "()\n"

/-- The client text of `jsGen`. -/
def jsGenClient (env : Env) (openapiURL module : String) (sortedPath : List String) (doc : T)
    (opMap : GoMap Bool) : Except Panic String :=
  match clientLoop (jsClientUnit env module doc) doc opMap sortedPath
      (jsHeader openapiURL ++ jsClientPreamble env module) with
  | .error e => .error e
  | .ok out => .ok (out ++ jsFooter env module)

/-- The function `jsGen`. -/
def jsGen (env : Env) (openapiURL module : String) (sortedPath sortedSchemas : List String)
    (doc : T) (opMap : GoMap Bool) : Run :=
  match commentModel "//" "js" doc sortedSchemas (jsHeader openapiURL ++ "\n") with
  | .error e => Run.mk [] [] (some e)
  | .ok out =>
    let files := [(module ++ "_model.js", out)]
    match jsGenClient env openapiURL module sortedPath doc opMap with
    | .error e => Run.mk files [] (some e)
    | .ok out => Run.mk (files ++ [(module ++ "_client.js", out)]) [] none

/-! ## `main` -/

/-- The loop of `main` over `doc.Paths`: the paths that have a POST operation, in
enumeration order, and the set `opIds` of their operation ids. -/
def collectPost : GoMap PathItem → List String × GoMap Bool → List String × GoMap Bool
  | [], acc => acc
  | (p, pp) :: rest, (sortedPath, opIds) =>
    match pp.Post with
    | none => collectPost rest (sortedPath, opIds)
    | some post => collectPost rest (sortedPath ++ [p], GoMap.set opIds post.OperationID true)

/-- The function `main`, from the loaded document on: `operations`, `module` and `lang`
are the values of the flags, `openapiURL` is the argument and `doc` is what
`LoadFromURI` returned. After the check of the filter, `range doc.Components.Schemas`
dereferences `doc.Components`: a document without components ends the run there. -/
def main (env : Env) (operations : List String) (module lang openapiURL : String) (doc : T) :
    Run :=
  let opMap := markAll [] operations
  let (sortedPath, opIds) := collectPost doc.Paths ([], [])
  match opMap.keys.find? (fun op => !GoMap.test opIds op) with
  | some op => Run.mk [] ["missing operation " ++ op ++ "\n"] none
  | none =>
    match doc.Components with
    | none => Run.mk [] [] (some .nilDeref)
    | some comps =>
      let sortedSchemas := GoMap.keys comps.Schemas
      let sortedPath := sortStrings sortedPath
      let sortedSchemas := sortStrings sortedSchemas
      if lang = "go" then goGen env openapiURL module sortedPath sortedSchemas doc opMap
      else if lang = "js" then jsGen env openapiURL module sortedPath sortedSchemas doc opMap
      else if lang = "py" then pyGen env openapiURL module sortedPath sortedSchemas doc opMap
      else Run.mk [] ["Unsupported lang " ++ lang ++ "\n"] none

/-- An environment for evaluating the definitions: ASCII case tables and a formatter
that returns its input. -/
def asciiEnv : Env :=
  Env.mk (fun c => if isUpperAZ c then Char.ofNat (c.toNat + 32) else c)
    (fun s => String.mk (match s.data with
      | [] => []
      | c :: rest => (if isLowerAZ c then Char.ofNat (c.toNat - 32) else c) :: rest))
    (fun s => String.mk (match s.data with
      | [] => []
      | c :: rest => (if isLowerAZ c then Char.ofNat (c.toNat - 32) else c) :: rest))
    some

/-! ## Notions used to state the properties -/

/-- The POST operations of a document with their paths, in enumeration order. -/
def postOperations (paths : GoMap PathItem) : List (String × Operation) :=
  paths.filterMap (fun kv => kv.2.Post.map (fun post => (kv.1, post)))

/-- The texts of a list of operations put one after the other, or the first panic. -/
def renderUnits (unit : String → Operation → Except Panic String) :
    List (String × Operation) → Except Panic String
  | [] => .ok ""
  | (p, post) :: rest =>
    match unit p post with
    | .error e => .error e
    | .ok t =>
      match renderUnits unit rest with
      | .error e => .error e
      | .ok ts => .ok (t ++ ts)

/-- The operation to render for the path `p`, if any: the POST operation of `p`, when
the filter `operations` is empty or holds its operation id. -/
def selectOperation (doc : T) (operations : List String) (p : String) :
    Option (String × Operation) :=
  match GoMap.get doc.Paths p with
  | none => none
  | some pp =>
    match pp.Post with
    | none => none
    | some post =>
      if operations = [] ∨ post.OperationID ∈ operations then some (p, post) else none

/-- The operations to render: the paths with a POST operation in ascending order,
restricted to the filter. -/
def renderedOperations (doc : T) (operations : List String) : List (String × Operation) :=
  (sortStrings ((postOperations doc.Paths).map Prod.fst)).filterMap (selectOperation doc operations)

/-- The strings of a list joined by the separator `sep`, none after the last. -/
def joinSep (sep : String) : List String → String
  | [] => ""
  | [a] => a
  | a :: b :: rest => a ++ sep ++ joinSep sep (b :: rest)

/-- The title of a property: the title of its value, empty when it has no value. -/
def fieldTitle (p : Option SchemaRef) : String :=
  match p with
  | some (.mk _ (some v)) => v.Title
  | _ => ""

/-- The entry of `getSchemaExample` for the field `f` with mapped type `ty`: the title
follows the period after a blank, and a field without title has neither. -/
def exampleEntry (f ty : String) (required : Bool) (title : String) : String :=
  "\"" ++ f ++ "\": \"type " ++ ty ++ (if required then "(required)." else ".") ++
    (if title = "" then "" else " " ++ title) ++ "\""

/-- The entry of a field as the specification words it, `"f": "type T(required). t"` and
`"f": "type T. t"`: the blank after the period is there for every field. -/
def specExampleEntry (f ty : String) (required : Bool) (title : String) : String :=
  "\"" ++ f ++ "\": \"type " ++ ty ++ (if required then "(required). " else ". ") ++ title ++ "\""

/-- The schema `Widget` of the first scenario: the properties `name` (string), `count`
(integer) and `note` (string), of which `name` and `count` are required. -/
def widgetSchema : SchemaRef :=
  .mk "" (some (.mk "object" ""
    [("name", .mk "" (some (.mk "string" "" [] [] none none))),
     ("count", .mk "" (some (.mk "integer" "" [] [] none none))),
     ("note", .mk "" (some (.mk "string" "" [] [] none none)))]
    ["name", "count"] none none))

/-- The document without paths whose components hold no schema. -/
def emptyDoc : T := T.mk [] (some (Components.mk []))

/-- An ASCII letter or digit. -/
def isAlnum (c : Char) : Bool := isUpperAZ c || isLowerAZ c || isDigit09 c

/-- A document with the one POST operation `ListExample` at `/list` and the two
schemas `ListExampleRequest` and `ListExampleResponse`, both without properties. -/
def listDoc : T :=
  T.mk [("/list", PathItem.mk (some (Operation.mk "ListExample" "")))]
    (some (Components.mk
      [("ListExampleRequest", .mk "" (some (.mk "object" "" [] [] none none))),
       ("ListExampleResponse", .mk "" (some (.mk "object" "" [] [] none none)))]))

/-- A document with the one POST operation `ListExample` at `/list` and no schema. -/
def listDocNoSchemas : T :=
  T.mk [("/list", PathItem.mk (some (Operation.mk "ListExample" "")))]
    (some (Components.mk []))

/-- A document with the POST operation `ListExample` at `/list`, its two schemas, and
a schema `Bad` whose property `x` has the type `unsupported`. -/
def badDoc : T :=
  T.mk [("/list", PathItem.mk (some (Operation.mk "ListExample" "")))]
    (some (Components.mk
      [("ListExampleRequest", .mk "" (some (.mk "object" "" [] [] none none))),
       ("ListExampleResponse", .mk "" (some (.mk "object" "" [] [] none none))),
       ("Bad", .mk "" (some (.mk "object" ""
          [("x", .mk "" (some (.mk "unsupported" "" [] [] none none)))] [] none none)))]))

/-- No two underscores stand side by side in the list. -/
def noDoubleUnderscore : List Char → Bool
  | a :: b :: rest => !(a == '_' && b == '_') && noDoubleUnderscore (b :: rest)
  | _ => true

/-- The components of `twoOpsDoc`: the request and response schemas of `A` and `B`, all
without properties. -/
def twoOpsComponents : Components :=
  Components.mk
    [("BRequest", .mk "" (some (.mk "object" "" [] [] none none))),
     ("BResponse", .mk "" (some (.mk "object" "" [] [] none none))),
     ("ARequest", .mk "" (some (.mk "object" "" [] [] none none))),
     ("AResponse", .mk "" (some (.mk "object" "" [] [] none none)))]

/-- A document with the POST operations `B` at `/b` and `A` at `/a` (with the summary
`List`), a path `/c` without POST operation, and the request and response schemas of
the two operations, all without properties. -/
def twoOpsDoc : T :=
  T.mk [("/b", PathItem.mk (some (Operation.mk "B" ""))),
        ("/a", PathItem.mk (some (Operation.mk "A" "List"))),
        ("/c", PathItem.mk none)]
    (some twoOpsComponents)

/-- The lines of a text: the runs of runes between line feeds. -/
def splitLines : List Char → List (List Char)
  | [] => [[]]
  | c :: rest =>
    if c = '\n' then [] :: splitLines rest
    else
      match splitLines rest with
      | [] => [[c]]
      | l :: ls => (c :: l) :: ls

/-- The line begins with `pre`. -/
def startsWith (pre : String) (l : List Char) : Bool := pre.data.isPrefixOf l

/-- The line ends with `suf`. -/
def endsWith (suf : String) (l : List Char) : Bool := suf.data.reverse.isPrefixOf l.reverse

/-- The line without its leading blanks and tabs. -/
def trimLeft (l : List Char) : List Char := l.dropWhile (fun c => c == ' ' || c == '\t')

/-- The line opens a definition: under `go` it begins with `func ` and under `py` with
`def ` (after blanks and tabs); under `js` it is no comment and ends with `=> \x7b`. -/
def isUnitLine (lang : String) (l : List Char) : Bool :=
  if lang = "go" then startsWith "func " (trimLeft l)
  else if lang = "py" then startsWith "def " (trimLeft l)
  else !startsWith "//" (trimLeft l) && endsWith "=> \x7b" l

/-- The definitions of a client text: its lines that open a definition, in order. -/
def unitLines (lang : String) (text : String) : List String :=
  ((splitLines text.data).filter (isUnitLine lang)).map String.mk

/-- No line feed among the runes. -/
def cleanChars (l : List Char) : Bool := l.all (fun c => c != '\n')

/-- The string holds no line feed. -/
def noLineBreak (s : String) : Bool := cleanChars s.data

/-- A document with one POST operation `A` at `/a` whose summary has three lines, and the
request and response schemas of `A`, without properties. -/
def multiLineDoc : T :=
  T.mk [("/a", PathItem.mk (some (Operation.mk "A" "x\ndef y(req):\n    pass")))]
    (some (Components.mk
      [("ARequest", .mk "" (some (.mk "object" "" [] [] none none))),
       ("AResponse", .mk "" (some (.mk "object" "" [] [] none none)))]))

/-! # Properties -/

/-! ## The order on strings and `sort.Strings` -/

theorem runesLess_irrefl (a : List Char) : runesLess a a = false := by
  induction a with
  | nil => rfl
  | cons x xs ih => simp [runesLess, ih]

theorem runesLess_trans {a b c : List Char} (hab : runesLess a b = true)
    (hbc : runesLess b c = true) : runesLess a c = true := by
  induction a generalizing b c with
  | nil =>
    cases b with
    | nil => simp [runesLess] at hab
    | cons y ys =>
      cases c with
      | nil => simp [runesLess] at hbc
      | cons z zs => simp [runesLess]
  | cons x xs ih =>
    cases b with
    | nil => simp [runesLess] at hab
    | cons y ys =>
      cases c with
      | nil => simp [runesLess] at hbc
      | cons z zs =>
        simp only [runesLess, Bool.or_eq_true, Bool.and_eq_true, decide_eq_true_eq,
          beq_iff_eq] at hab hbc ⊢
        rcases hab with h1 | ⟨h1, h1r⟩
        · rcases hbc with h2 | ⟨h2, _⟩
          · left; omega
          · left; omega
        · rcases hbc with h2 | ⟨h2, h2r⟩
          · left; omega
          · right; exact ⟨by omega, ih h1r h2r⟩

theorem runesLess_connex {a b : List Char} (hab : runesLess a b = false)
    (hba : runesLess b a = false) : a = b := by
  induction a generalizing b with
  | nil =>
    cases b with
    | nil => rfl
    | cons y ys => simp [runesLess] at hab
  | cons x xs ih =>
    cases b with
    | nil => simp [runesLess] at hba
    | cons y ys =>
      simp only [runesLess, Bool.or_eq_false_iff, Bool.and_eq_false_imp, decide_eq_false_iff_not,
        beq_iff_eq] at hab hba
      have hxy : x.toNat = y.toNat := by omega
      have hc : x = y := by
        rw [← Char.ofNat_toNat x, ← Char.ofNat_toNat y, hxy]
      rw [hc, ih (hab.2 hxy) (hba.2 hxy.symm)]

theorem runesLess_asymm {a b : List Char} (hab : runesLess a b = true) :
    runesLess b a = false := by
  cases h : runesLess b a with
  | false => rfl
  | true =>
    have := runesLess_trans hab h
    rw [runesLess_irrefl] at this
    exact absurd this (by decide)

theorem runesLess_negTrans {a b c : List Char} (hba : runesLess b a = false)
    (hcb : runesLess c b = false) : runesLess c a = false := by
  cases h : runesLess c a with
  | false => rfl
  | true =>
    cases h2 : runesLess a b with
    | true =>
      have := runesLess_trans h h2
      rw [hcb] at this
      exact absurd this (by decide)
    | false =>
      have hab : a = b := runesLess_connex h2 hba
      subst hab
      rw [hcb] at h
      exact absurd h (by decide)

instance : IsTotal String strLe where
  total a b := by
    unfold strLe strLess
    cases h : runesLess b.data a.data with
    | false => exact Or.inl rfl
    | true => exact Or.inr (runesLess_asymm h)

instance : IsTrans String strLe where
  trans _ _ _ hab hbc := runesLess_negTrans hab hbc

theorem strLess_of_strLe_of_ne {a b : String} (h : strLe a b) (hne : a ≠ b) :
    strLess a b = true := by
  cases h2 : strLess a b with
  | true => rfl
  | false => exact absurd (String.ext (runesLess_connex h2 h)) hne

theorem sortStrings_perm (l : List String) : (sortStrings l).Perm l :=
  List.perm_insertionSort strLe l

theorem sortStrings_sorted (l : List String) : (sortStrings l).Sorted strLe :=
  List.sorted_insertionSort strLe l

theorem mem_sortStrings {l : List String} {k : String} : k ∈ sortStrings l ↔ k ∈ l :=
  (sortStrings_perm l).mem_iff

theorem sortStrings_nodup {l : List String} (h : l.Nodup) : (sortStrings l).Nodup :=
  (sortStrings_perm l).nodup_iff.mpr h

/-- On a list without repetition `sort.Strings` gives a strictly ascending list. -/
theorem sortStrings_strict {l : List String} (h : l.Nodup) :
    (sortStrings l).Pairwise (fun a b => strLess a b = true) := by
  have h1 : (sortStrings l).Pairwise strLe := sortStrings_sorted l
  have h2 : (sortStrings l).Pairwise (fun a b => a ≠ b) := sortStrings_nodup h
  exact (h1.and h2).imp (fun hab => strLess_of_strLe_of_ne hab.1 hab.2)

/-! ## Maps -/

theorem GoMap.get_set {V : Type} (m : GoMap V) (k k1 : String) (v : V) :
    GoMap.get (GoMap.set m k v) k1 = if k1 = k then some v else GoMap.get m k1 := by
  induction m with
  | nil =>
    by_cases h : k1 = k
    · simp [GoMap.set, GoMap.get, List.lookup, h]
    · have : (k1 == k) = false := by simpa using h
      simp [GoMap.set, GoMap.get, List.lookup, h, this]
  | cons kv rest ih =>
    obtain ⟨k0, v0⟩ := kv
    unfold GoMap.get at ih
    by_cases h0 : k0 = k
    · by_cases h : k1 = k
      · simp [GoMap.set, GoMap.get, List.lookup, h0, h]
      · have : (k1 == k) = false := by simpa using h
        simp [GoMap.set, GoMap.get, List.lookup, h0, h, this]
    · by_cases h : k1 = k0
      · have hk : k0 ≠ k := h0
        subst h
        simp [GoMap.set, GoMap.get, List.lookup, h0]
      · have : (k1 == k0) = false := by simpa using h
        simp [GoMap.set, GoMap.get, List.lookup, h0, this, ih]

theorem GoMap.test_set (m : GoMap Bool) (k k1 : String) :
    GoMap.test (GoMap.set m k true) k1 = (decide (k1 = k) || GoMap.test m k1) := by
  unfold GoMap.test
  rw [GoMap.get_set]
  by_cases h : k1 = k <;> simp [h]

theorem test_markAll (m : GoMap Bool) (l : List String) (k : String) :
    GoMap.test (markAll m l) k = (GoMap.test m k || decide (k ∈ l)) := by
  induction l generalizing m with
  | nil => simp [markAll]
  | cons a rest ih =>
    have : markAll m (a :: rest) = markAll (GoMap.set m a true) rest := rfl
    rw [this, ih, GoMap.test_set]
    by_cases h : k = a <;> simp [h]

theorem test_markAll_nil (l : List String) (k : String) :
    GoMap.test (markAll [] l) k = decide (k ∈ l) := by
  rw [test_markAll]
  simp [GoMap.test, GoMap.get]

/-! ## `getRequiredFirstKeys` -/

theorem foldl_keep (p : String → Bool) (l init : List String) :
    l.foldl (fun acc v => if !p v then acc else acc ++ [v]) init = init ++ l.filter p := by
  induction l generalizing init with
  | nil => simp
  | cons a rest ih =>
    simp only [List.foldl_cons, ih, List.filter_cons]
    cases p a <;> simp

theorem foldl_drop (p : String → Bool) (l init : List String) :
    l.foldl (fun acc v => if p v then acc else acc ++ [v]) init
      = init ++ l.filter (fun v => !p v) := by
  induction l generalizing init with
  | nil => simp
  | cons a rest ih =>
    simp only [List.foldl_cons, ih, List.filter_cons]
    cases p a <;> simp

/-- The result of `getRequiredFirstKeys` in closed form. -/
theorem getRequiredFirstKeys_eq (ref : String) (s : Schema) :
    getRequiredFirstKeys (.mk ref (some s)) =
      .ok ((sortStrings s.Properties.keys).filter (fun k => decide (k ∈ s.Required)) ++
           (sortStrings s.Properties.keys).filter (fun k => !decide (k ∈ s.Required)),
           markAll [] s.Required) := by
  simp only [getRequiredFirstKeys, SchemaRef.Value]
  rw [foldl_keep, foldl_drop]
  simp only [List.nil_append]
  have h : (fun k => GoMap.test (markAll [] s.Required) k) = fun k => decide (k ∈ s.Required) := by
    funext k
    exact test_markAll_nil _ _
  simp only [h]

/-- C1. For a schema whose property map has pairwise distinct keys,
`getRequiredFirstKeys` returns the list `required ++ optional` where `required` holds
exactly the property names that occur in `Required` and `optional` exactly the other
property names, each of the two strictly ascending in the order of `sort.Strings`; no
optional name is followed by a required one, every property name occurs exactly once,
and the returned map marks exactly the names of `Required`. -/
theorem getRequiredFirstKeys_required_first (ref : String) (s : Schema)
    (hkeys : s.Properties.keys.Nodup) :
    ∃ required optional : List String,
      getRequiredFirstKeys (.mk ref (some s)) = .ok (required ++ optional, markAll [] s.Required) ∧
      (∀ k, k ∈ required ↔ k ∈ s.Properties.keys ∧ k ∈ s.Required) ∧
      (∀ k, k ∈ optional ↔ k ∈ s.Properties.keys ∧ k ∉ s.Required) ∧
      required.Pairwise (fun a b => strLess a b = true) ∧
      optional.Pairwise (fun a b => strLess a b = true) ∧
      (∀ front back a b, required ++ optional = front ++ a :: back → b ∈ back →
        a ∉ s.Required → b ∉ s.Required) ∧
      (required ++ optional).Perm s.Properties.keys ∧
      (∀ k ∈ s.Properties.keys, (required ++ optional).count k = 1) ∧
      (∀ k, GoMap.test (markAll [] s.Required) k = true ↔ k ∈ s.Required) := by
  refine ⟨(sortStrings s.Properties.keys).filter (fun k => decide (k ∈ s.Required)),
    (sortStrings s.Properties.keys).filter (fun k => !decide (k ∈ s.Required)),
    getRequiredFirstKeys_eq ref s, ?_, ?_, ?_, ?_, ?_, ?_, ?_, ?_⟩
  · intro k
    simp [List.mem_filter, mem_sortStrings]
  · intro k
    simp [List.mem_filter, mem_sortStrings]
  · exact (sortStrings_strict hkeys).filter _
  · exact (sortStrings_strict hkeys).filter _
  · intro front back a b heq hb ha
    rcases List.append_eq_append_iff.mp heq with ⟨a1, _, h2⟩ | ⟨c1, h1, h2⟩
    · have hbo : b ∈ (sortStrings s.Properties.keys).filter (fun k => !decide (k ∈ s.Required)) := by
        rw [h2]
        simp [hb]
      simpa using (List.mem_filter.mp hbo).2
    · cases c1 with
      | nil =>
        have hbo : b ∈ (sortStrings s.Properties.keys).filter
            (fun k => !decide (k ∈ s.Required)) := by
          rw [List.nil_append] at h2
          rw [← h2]
          simp [hb]
        simpa using (List.mem_filter.mp hbo).2
      | cons c cs =>
        rw [List.cons_append] at h2
        have hac : a = c := (List.cons.inj h2).1
        have har : a ∈ (sortStrings s.Properties.keys).filter
            (fun k => decide (k ∈ s.Required)) := by
          rw [h1, hac]
          simp
        have : a ∈ s.Required := by simpa using (List.mem_filter.mp har).2
        exact absurd this ha
  · have h := List.filter_append_perm (fun k => decide (k ∈ s.Required))
      (sortStrings s.Properties.keys)
    exact h.trans (sortStrings_perm _)
  · intro k hk
    have h := List.filter_append_perm (fun k => decide (k ∈ s.Required))
      (sortStrings s.Properties.keys)
    have hp := h.trans (sortStrings_perm _)
    rw [hp.count_eq]
    exact List.count_eq_one_of_mem hkeys hk
  · intro k
    rw [test_markAll_nil]
    simp

/-- The witness of C1: the schema with the properties `name`, `count`, `note`. -/
theorem getRequiredFirstKeys_required_first_witness :
    ∃ required optional : List String,
      getRequiredFirstKeys (.mk "" (some (.mk "object" ""
          [("name", .mk "" none), ("count", .mk "" none), ("note", .mk "" none)]
          ["name", "count"] none none)))
        = .ok (required ++ optional, markAll [] ["name", "count"]) ∧
      (∀ k, k ∈ required ↔ k ∈ ["name", "count", "note"] ∧ k ∈ ["name", "count"]) ∧
      (∀ k, k ∈ optional ↔ k ∈ ["name", "count", "note"] ∧ k ∉ ["name", "count"]) ∧
      required.Pairwise (fun a b => strLess a b = true) ∧
      optional.Pairwise (fun a b => strLess a b = true) ∧
      (∀ front back a b, required ++ optional = front ++ a :: back → b ∈ back →
        a ∉ ["name", "count"] → b ∉ ["name", "count"]) ∧
      (required ++ optional).Perm ["name", "count", "note"] ∧
      (∀ k ∈ ["name", "count", "note"], (required ++ optional).count k = 1) ∧
      (∀ k, GoMap.test (markAll [] ["name", "count"]) k = true ↔ k ∈ ["name", "count"]) :=
  getRequiredFirstKeys_required_first ""
    (.mk "object" "" [("name", .mk "" none), ("count", .mk "" none), ("note", .mk "" none)]
      ["name", "count"] none none) (by decide)

/-! ## `toType` -/

theorem trimPrefix_append (pre name : String) : trimPrefix (pre ++ name) pre = name := by
  have h : hasPrefix (pre ++ name) pre = true := by
    unfold hasPrefix
    rw [String.data_append]
    exact List.isPrefixOf_iff_prefix.mpr (List.prefix_append _ _)
  unfold trimPrefix
  rw [if_pos h]
  apply String.ext
  simp [String.data_append]

theorem append_ne_empty_of_ne_empty (pre name : String) (h : pre ≠ "") : pre ++ name ≠ "" := by
  intro he
  apply h
  have hd := congrArg String.data he
  rw [String.data_append] at hd
  apply String.ext
  exact (List.append_eq_nil.mp hd).1

/-- The key `lang + "-" + ty` determines the type when the language has a known
length. -/
theorem key_eq_iff (lang ty l t : String) (hlen : lang.data.length = l.data.length) :
    lang ++ "-" ++ ty = l ++ "-" ++ t ↔ lang = l ∧ ty = t := by
  constructor
  · intro h
    have hd := congrArg String.data h
    simp only [String.data_append] at hd
    rw [List.append_assoc, List.append_assoc] at hd
    have h1 := List.append_inj hd hlen
    have h2 : ty.data = t.data := by
      simpa using h1.2
    exact ⟨String.ext h1.1, String.ext h2⟩
  · rintro ⟨h1, h2⟩
    rw [h1, h2]

theorem lookup_key (lang ty l t v : String) (es : GoMap String)
    (hlang : lang.data.length = 2) (hl : l.data.length = 2) :
    GoMap.get ((l ++ "-" ++ t, v) :: es) (lang ++ "-" ++ ty) =
      if lang = l ∧ ty = t then some v else GoMap.get es (lang ++ "-" ++ ty) := by
  have hlen : lang.data.length = l.data.length := by rw [hlang, hl]
  unfold GoMap.get
  by_cases h : lang = l ∧ ty = t
  · have hk : lang ++ "-" ++ ty = l ++ "-" ++ t := (key_eq_iff lang ty l t hlen).mpr h
    rw [if_pos h, hk]
    simp [List.lookup]
  · have hk : lang ++ "-" ++ ty ≠ l ++ "-" ++ t := fun e => h ((key_eq_iff lang ty l t hlen).mp e)
    have hb : (lang ++ "-" ++ ty == l ++ "-" ++ t) = false := by simpa using hk
    rw [if_neg h]
    simp [List.lookup, hb]

theorem typeMap_keys (a m : String) : typeMap a m =
    [ ("go" ++ "-" ++ "string", "string"),
      ("go" ++ "-" ++ "boolean", "bool"),
      ("go" ++ "-" ++ "number", "float64"),
      ("go" ++ "-" ++ "integer", "int64"),
      ("go" ++ "-" ++ "array", "[]" ++ a),
      ("go" ++ "-" ++ "object", "map[string]" ++ m),
      ("py" ++ "-" ++ "string", "str"),
      ("py" ++ "-" ++ "boolean", "bool"),
      ("py" ++ "-" ++ "number", "float"),
      ("py" ++ "-" ++ "integer", "int"),
      ("py" ++ "-" ++ "array", "List[" ++ a ++ "]"),
      ("py" ++ "-" ++ "object", "Dict[str, " ++ m ++ "]"),
      ("js" ++ "-" ++ "string", "string"),
      ("js" ++ "-" ++ "boolean", "boolean"),
      ("js" ++ "-" ++ "number", "float"),
      ("js" ++ "-" ++ "integer", "int"),
      ("js" ++ "-" ++ "array", "array[" ++ a ++ "]"),
      ("js" ++ "-" ++ "object", "map[string, " ++ m ++ "]") ] := rfl

/-- The lookup in `typeMap` for a language of two letters, entry by entry. -/
theorem get_typeMap (a m lang ty : String) (hlen : lang.data.length = 2) :
    GoMap.get (typeMap a m) (lang ++ "-" ++ ty) =
      if lang = "go" ∧ ty = "string" then some "string"
      else if lang = "go" ∧ ty = "boolean" then some "bool"
      else if lang = "go" ∧ ty = "number" then some "float64"
      else if lang = "go" ∧ ty = "integer" then some "int64"
      else if lang = "go" ∧ ty = "array" then some ("[]" ++ a)
      else if lang = "go" ∧ ty = "object" then some ("map[string]" ++ m)
      else if lang = "py" ∧ ty = "string" then some "str"
      else if lang = "py" ∧ ty = "boolean" then some "bool"
      else if lang = "py" ∧ ty = "number" then some "float"
      else if lang = "py" ∧ ty = "integer" then some "int"
      else if lang = "py" ∧ ty = "array" then some ("List[" ++ a ++ "]")
      else if lang = "py" ∧ ty = "object" then some ("Dict[str, " ++ m ++ "]")
      else if lang = "js" ∧ ty = "string" then some "string"
      else if lang = "js" ∧ ty = "boolean" then some "boolean"
      else if lang = "js" ∧ ty = "number" then some "float"
      else if lang = "js" ∧ ty = "integer" then some "int"
      else if lang = "js" ∧ ty = "array" then some ("array[" ++ a ++ "]")
      else if lang = "js" ∧ ty = "object" then some ("map[string, " ++ m ++ "]")
      else none := by
  rw [typeMap_keys]
  iterate 6 rw [lookup_key lang ty "go" _ _ _ hlen rfl]
  iterate 6 rw [lookup_key lang ty "py" _ _ _ hlen rfl]
  iterate 6 rw [lookup_key lang ty "js" _ _ _ hlen rfl]
  rfl

/-- The body of `toType` on a node that is no reference and has a value. -/
theorem toType_value (ty ti : String) (pr : List (String × SchemaRef)) (rq : List String)
    (it ap : Option SchemaRef) (lang : String) :
    toType (.mk "" (some (.mk ty ti pr rq it ap))) lang =
        match (if ty = "object" then
            match ap with
            | some s => toType s lang
            | none => .ok ""
          else .ok "" : Except Panic String) with
        | .error e => .error e
        | .ok mapType =>
          match (if ty = "array" then
            match it with
            | some x => toType x lang
            | none => .error .nilDeref
          else .ok "" : Except Panic String) with
          | .error e => .error e
          | .ok arrayType =>
            match GoMap.get (typeMap arrayType mapType) (lang ++ "-" ++ ty) with
            | some v => .ok v
            | none => .error (.unknownType ("unknown type:" ++ lang ++ "-" ++ ty)) := by
  rw [toType.eq_def]
  simp


theorem toType_ref (ref : String) (v : Option Schema) (lang : String) (h : ref ≠ "") :
    toType (.mk ref v) lang =
      if lang = "go" then .ok ("*" ++ trimPrefix ref "#/components/schemas/")
      else .ok (trimPrefix ref "#/components/schemas/") := by
  rw [toType.eq_def]
  simp [h]

/-- C2. On a node that is no reference and whose type is `string`, `boolean`, `number`
or `integer`, `toType` returns the scalar name of `typeMap` for the language, whatever
the other fields of the node are. -/
theorem toType_primitive (ti : String) (pr : List (String × SchemaRef)) (rq : List String)
    (it ap : Option SchemaRef) :
    toType (.mk "" (some (.mk "string" ti pr rq it ap))) "go" = .ok "string" ∧
    toType (.mk "" (some (.mk "boolean" ti pr rq it ap))) "go" = .ok "bool" ∧
    toType (.mk "" (some (.mk "number" ti pr rq it ap))) "go" = .ok "float64" ∧
    toType (.mk "" (some (.mk "integer" ti pr rq it ap))) "go" = .ok "int64" ∧
    toType (.mk "" (some (.mk "string" ti pr rq it ap))) "py" = .ok "str" ∧
    toType (.mk "" (some (.mk "boolean" ti pr rq it ap))) "py" = .ok "bool" ∧
    toType (.mk "" (some (.mk "number" ti pr rq it ap))) "py" = .ok "float" ∧
    toType (.mk "" (some (.mk "integer" ti pr rq it ap))) "py" = .ok "int" ∧
    toType (.mk "" (some (.mk "string" ti pr rq it ap))) "js" = .ok "string" ∧
    toType (.mk "" (some (.mk "boolean" ti pr rq it ap))) "js" = .ok "boolean" ∧
    toType (.mk "" (some (.mk "number" ti pr rq it ap))) "js" = .ok "float" ∧
    toType (.mk "" (some (.mk "integer" ti pr rq it ap))) "js" = .ok "int" := by
  refine ⟨?_, ?_, ?_, ?_, ?_, ?_, ?_, ?_, ?_, ?_, ?_, ?_⟩ <;> rw [toType_value] <;> rfl

/-- C3. On a reference `#/components/schemas/<name>`, `toType` returns `*<name>` under
`go` and `<name>` under `py` and `js`, whatever value is attached to the reference;
a reference to `Widget` under `go` maps to `*Widget`. -/
theorem toType_reference (name : String) (v : Option Schema) :
    toType (.mk ("#/components/schemas/" ++ name) v) "go" = .ok ("*" ++ name) ∧
    toType (.mk ("#/components/schemas/" ++ name) v) "py" = .ok name ∧
    toType (.mk ("#/components/schemas/" ++ name) v) "js" = .ok name ∧
    toType (.mk "#/components/schemas/Widget" v) "go" = .ok "*Widget" := by
  have hne : "#/components/schemas/" ++ name ≠ "" :=
    append_ne_empty_of_ne_empty _ _ (by decide)
  have hw : ("#/components/schemas/Widget" : String) = "#/components/schemas/" ++ "Widget" := by
    decide
  refine ⟨?_, ?_, ?_, ?_⟩
  · rw [toType_ref _ _ _ hne, trimPrefix_append]
    rfl
  · rw [toType_ref _ _ _ hne, trimPrefix_append]
    rfl
  · rw [toType_ref _ _ _ hne, trimPrefix_append]
    rfl
  · rw [hw, toType_ref _ _ _ (append_ne_empty_of_ne_empty _ _ (by decide)), trimPrefix_append]
    rfl

/-- C4. On an array node whose item node `x` is mapped by `toType` to `t`, `toType`
returns `[]t` under `go`, `List[t]` under `py` and `array[t]` under `js`; `x` is any
node, an array included, so this holds at every depth. -/
theorem toType_array (x : SchemaRef) (ti : String) (pr : List (String × SchemaRef))
    (rq : List String) (ap : Option SchemaRef) :
    (∀ t, toType x "go" = .ok t →
      toType (.mk "" (some (.mk "array" ti pr rq (some x) ap))) "go" = .ok ("[]" ++ t)) ∧
    (∀ t, toType x "py" = .ok t →
      toType (.mk "" (some (.mk "array" ti pr rq (some x) ap))) "py" = .ok ("List[" ++ t ++ "]")) ∧
    (∀ t, toType x "js" = .ok t →
      toType (.mk "" (some (.mk "array" ti pr rq (some x) ap))) "js"
        = .ok ("array[" ++ t ++ "]")) := by
  refine ⟨?_, ?_, ?_⟩ <;> intro t ht <;> rw [toType_value] <;>
    simp only [ht, if_neg (show ¬ ("array" : String) = "object" by decide), if_true] <;> rfl

/-- The witness of C4: an array of `string` under `py` maps to `List[str]`; and an
array of arrays of `string`. -/
theorem toType_array_witness :
    toType (.mk "" (some (.mk "string" "" [] [] none none))) "py" = .ok "str" ∧
    toType (.mk "" (some (.mk "array" "" [] []
      (some (.mk "" (some (.mk "string" "" [] [] none none)))) none))) "py" = .ok "List[str]" :=
  ⟨by decide,
   (toType_array (.mk "" (some (.mk "string" "" [] [] none none))) "" [] [] none).2.1 "str"
     (by decide)⟩

/-- C5. Under `go`, `js` and `py`, `toType` panics with `unknown type:` on a node that
is no reference and whose type is none of `string`, `boolean`, `number`, `integer`,
`array`, `object`; and a panic of `toType` on a node is the panic of `toType` on the
array node that has it as item and on the object node that has it as value schema. So
no type string is returned for a node that holds an unsupported type at any depth. -/
theorem toType_unsupported (lang : String) (hl : lang = "go" ∨ lang = "js" ∨ lang = "py") :
    (∀ ty ti pr rq it ap,
      ty ∉ ["string", "boolean", "number", "integer", "array", "object"] →
      toType (.mk "" (some (.mk ty ti pr rq it ap))) lang
        = .error (.unknownType ("unknown type:" ++ lang ++ "-" ++ ty))) ∧
    (∀ x e ti pr rq ap, toType x lang = .error e →
      toType (.mk "" (some (.mk "array" ti pr rq (some x) ap))) lang = .error e) ∧
    (∀ x e ti pr rq it, toType x lang = .error e →
      toType (.mk "" (some (.mk "object" ti pr rq it (some x)))) lang = .error e) := by
  have hlen : lang.data.length = 2 := by
    rcases hl with h | h | h <;> rw [h] <;> rfl
  refine ⟨?_, ?_, ?_⟩
  · intro ty ti pr rq it ap hty
    simp only [List.mem_cons, List.mem_singleton, List.not_mem_nil, or_false, not_or] at hty
    obtain ⟨h1, h2, h3, h4, h5, h6⟩ := hty
    rw [toType_value]
    simp only [if_neg h5, if_neg h6]
    rw [get_typeMap _ _ _ _ hlen]
    simp [h1, h2, h3, h4, h5, h6]
  · intro x e ti pr rq ap hx
    rw [toType_value]
    simp only [hx, if_neg (show ¬ ("array" : String) = "object" by decide), if_true]
  · intro x e ti pr rq it hx
    rw [toType_value]
    simp only [hx, if_true]

/-- The witness of C5: the type `unsupported`, alone, as the item of an array and as
the value schema of an object, under `go`. -/
theorem toType_unsupported_witness :
    toType (.mk "" (some (.mk "unsupported" "" [] [] none none))) "go"
      = .error (.unknownType "unknown type:go-unsupported") ∧
    toType (.mk "" (some (.mk "array" "" [] []
      (some (.mk "" (some (.mk "unsupported" "" [] [] none none)))) none))) "go"
      = .error (.unknownType "unknown type:go-unsupported") ∧
    toType (.mk "" (some (.mk "object" "" [] [] none
      (some (.mk "" (some (.mk "unsupported" "" [] [] none none))))))) "go"
      = .error (.unknownType "unknown type:go-unsupported") :=
  ⟨(toType_unsupported "go" (Or.inl rfl)).1 "unsupported" "" [] [] none none (by decide),
   (toType_unsupported "go" (Or.inl rfl)).2.1 _ _ "" [] [] none
     ((toType_unsupported "go" (Or.inl rfl)).1 "unsupported" "" [] [] none none (by decide)),
   (toType_unsupported "go" (Or.inl rfl)).2.2 _ _ "" [] [] none
     ((toType_unsupported "go" (Or.inl rfl)).1 "unsupported" "" [] [] none none (by decide))⟩

/-! ## `toSnakeCase` -/

theorem toNat_ofNat_add_32 (c : Char) (h : isUpperAZ c = true) :
    (Char.ofNat (c.toNat + 32)).toNat = c.toNat + 32 := by
  simp only [isUpperAZ, Bool.and_eq_true, decide_eq_true_eq] at h
  obtain ⟨h1, h2⟩ := h
  generalize c.toNat = n at h1 h2
  interval_cases n <;> rfl

/-- Lower-casing never gives a rune of `[A-Z]`, when `unicode.ToLower` gives none. -/
theorem toLowerRune_not_upper (env : Env)
    (hup : ∀ c : Char, 128 ≤ c.toNat → isUpperAZ (env.unicodeLower c) = false) (c : Char) :
    isUpperAZ (toLowerRune env c) = false := by
  unfold toLowerRune
  by_cases h : c.toNat < 128
  · rw [if_pos h]
    by_cases hu : isUpperAZ c = true
    · rw [if_pos hu]
      have := toNat_ofNat_add_32 c hu
      simp only [isUpperAZ, Bool.and_eq_true, decide_eq_true_eq] at hu
      simp only [isUpperAZ, this, Bool.and_eq_false_imp, decide_eq_true_eq, decide_eq_false_iff_not]
      omega
    · rw [if_neg hu]
      simpa using hu
  · rw [if_neg h]
    exact hup c (by omega)

theorem toLowerRune_def (env : Env) (d : Char) :
    toLowerRune env d =
      if d.toNat < 128 then (if isUpperAZ d then Char.ofNat (d.toNat + 32) else d)
      else env.unicodeLower d := rfl

/-- A rune outside `[A-Z]` is left alone by a second lower-casing. -/
theorem toLowerRune_idem (env : Env)
    (hup : ∀ c : Char, 128 ≤ c.toNat → isUpperAZ (env.unicodeLower c) = false)
    (hidem : ∀ c : Char, 128 ≤ c.toNat → 128 ≤ (env.unicodeLower c).toNat →
      env.unicodeLower (env.unicodeLower c) = env.unicodeLower c) (c : Char) :
    toLowerRune env (toLowerRune env c) = toLowerRune env c := by
  have hnu := toLowerRune_not_upper env hup c
  by_cases h2 : (toLowerRune env c).toNat < 128
  · rw [toLowerRune_def env (toLowerRune env c), if_pos h2, hnu]
    simp
  · rw [toLowerRune_def env (toLowerRune env c), if_neg h2]
    have hc : ¬ c.toNat < 128 := by
      intro hc
      apply h2
      unfold toLowerRune
      rw [if_pos hc]
      by_cases hu : isUpperAZ c = true
      · rw [if_pos hu, toNat_ofNat_add_32 c hu]
        simp only [isUpperAZ, Bool.and_eq_true, decide_eq_true_eq] at hu
        omega
      · rw [if_neg hu]
        exact hc
    have he : toLowerRune env c = env.unicodeLower c := by
      unfold toLowerRune
      rw [if_neg hc]
    rw [he] at h2 ⊢
    exact hidem c (by omega) (by omega)

/-- A rune that lower-casing leaves alone is outside `[A-Z]`. -/
theorem not_upper_of_toLowerRune_eq (env : Env) (c : Char) (h : toLowerRune env c = c) :
    isUpperAZ c = false := by
  cases hu : isUpperAZ c with
  | false => rfl
  | true =>
    have h128 : c.toNat < 128 := by
      simp only [isUpperAZ, Bool.and_eq_true, decide_eq_true_eq] at hu
      omega
    unfold toLowerRune at h
    rw [if_pos h128, if_pos hu] at h
    have h2 := toNat_ofNat_add_32 c hu
    rw [h] at h2
    omega

theorem matchFirstCapAt_none (s : List Char) (h : ∀ c ∈ s, isUpperAZ c = false) :
    matchFirstCapAt s = none := by
  match s with
  | [] => rfl
  | [_] => rfl
  | [_, _] => rfl
  | c :: u :: l :: tl =>
    have hu : isUpperAZ u = false := h u (by simp)
    simp [matchFirstCapAt, hu]

theorem matchAllCapAt_none (s : List Char) (h : ∀ c ∈ s, isUpperAZ c = false) :
    matchAllCapAt s = none := by
  match s with
  | [] => rfl
  | [_] => rfl
  | c :: u :: tl =>
    have hu : isUpperAZ u = false := h u (by simp)
    simp [matchAllCapAt, hu]

/-- A scan that finds no match copies its input. -/
theorem replaceAll_of_none (matchAt : List Char → Option (List Char × List Char))
    (P : Char → Prop) (hnone : ∀ s : List Char, (∀ c ∈ s, P c) → matchAt s = none)
    (fuel : Nat) (s : List Char) (h : ∀ c ∈ s, P c) : replaceAll matchAt fuel s = s := by
  induction fuel generalizing s with
  | zero => rfl
  | succ n ih =>
    cases s with
    | nil => rfl
    | cons c rest =>
      simp only [replaceAll, hnone (c :: rest) h]
      rw [ih rest (fun d hd => h d (List.mem_cons_of_mem _ hd))]

/-- On a string without a rune of `[A-Z]`, `toSnakeCase` is `strings.ToLower`. -/
theorem toSnakeCase_of_no_upper (env : Env) (x : String)
    (h : ∀ c ∈ x.data, isUpperAZ c = false) : toSnakeCase env x = toLower env x := by
  have h1 : replaceAllString matchFirstCapAt x = x := by
    unfold replaceAllString
    rw [replaceAll_of_none matchFirstCapAt (fun c => isUpperAZ c = false) matchFirstCapAt_none _ _ h]
  have h2 : replaceAllString matchAllCapAt x = x := by
    unfold replaceAllString
    rw [replaceAll_of_none matchAllCapAt (fun c => isUpperAZ c = false) matchAllCapAt_none _ _ h]
  unfold toSnakeCase
  simp only [h1, h2]

/-- C6. With a table `unicode.ToLower` that gives no rune of `[A-Z]` and is idempotent
on the runes outside ASCII, `toSnakeCase` is idempotent, and it returns unchanged every
string without upper-case letter (every string whose runes lower-casing leaves alone). -/
theorem toSnakeCase_idempotent (env : Env)
    (hup : ∀ c : Char, 128 ≤ c.toNat → isUpperAZ (env.unicodeLower c) = false)
    (hidem : ∀ c : Char, 128 ≤ c.toNat → 128 ≤ (env.unicodeLower c).toNat →
      env.unicodeLower (env.unicodeLower c) = env.unicodeLower c) :
    (∀ x : String, toSnakeCase env (toSnakeCase env x) = toSnakeCase env x) ∧
    (∀ x : String, (∀ c ∈ x.data, toLowerRune env c = c) → toSnakeCase env x = x) ∧
    (∀ x : String, toName env (toName env x "py") "py" = toName env x "py") := by
  have key : ∀ x : String, toSnakeCase env (toSnakeCase env x) = toSnakeCase env x := by
    intro x
    have hno : ∀ c ∈ (toSnakeCase env x).data, isUpperAZ c = false := by
      intro c hc
      simp only [toSnakeCase, toLower, List.mem_map] at hc
      obtain ⟨d, _, hd⟩ := hc
      rw [← hd]
      exact toLowerRune_not_upper env hup d
    rw [toSnakeCase_of_no_upper env _ hno]
    apply String.ext
    simp only [toSnakeCase, toLower, List.map_map]
    apply List.map_congr_left
    intro c _
    exact toLowerRune_idem env hup hidem c
  refine ⟨key, ?_, ?_⟩
  · intro x hx
    have hno : ∀ c ∈ x.data, isUpperAZ c = false :=
      fun c hc => not_upper_of_toLowerRune_eq env c (hx c hc)
    rw [toSnakeCase_of_no_upper env _ hno]
    apply String.ext
    simp only [toLower]
    conv_rhs => rw [← List.map_id x.data]
    apply List.map_congr_left
    intro c hc
    exact hx c hc
  · intro x
    simp only [toName, if_true]
    exact key x

/-- The witness of C6, for the ASCII table: `ListExample` and `list_example`. -/
theorem toSnakeCase_idempotent_witness :
    toSnakeCase asciiEnv "ListExample" = "list_example" ∧
    toSnakeCase asciiEnv (toSnakeCase asciiEnv "ListExample") = toSnakeCase asciiEnv "ListExample" ∧
    toSnakeCase asciiEnv "list_example" = "list_example" :=
  have hup : ∀ c : Char, 128 ≤ c.toNat → isUpperAZ (asciiEnv.unicodeLower c) = false := by
    intro c hc
    have hu : isUpperAZ c = false := by
      simp only [isUpperAZ, Bool.and_eq_false_imp, decide_eq_true_eq, decide_eq_false_iff_not]
      omega
    simp [asciiEnv, hu]
  have hidem : ∀ c : Char, 128 ≤ c.toNat → 128 ≤ (asciiEnv.unicodeLower c).toNat →
      asciiEnv.unicodeLower (asciiEnv.unicodeLower c) = asciiEnv.unicodeLower c := by
    intro c hc _
    have hu : isUpperAZ c = false := by
      simp only [isUpperAZ, Bool.and_eq_false_imp, decide_eq_true_eq, decide_eq_false_iff_not]
      omega
    simp [asciiEnv, hu]
  ⟨by decide,
   (toSnakeCase_idempotent asciiEnv hup hidem).1 "ListExample",
   (toSnakeCase_idempotent asciiEnv hup hidem).2.1 "list_example" (by decide)⟩

/-! ## `main` -/

theorem GoMap.keys_set {V : Type} (m : GoMap V) (k k1 : String) (v : V) :
    k1 ∈ GoMap.keys (GoMap.set m k v) ↔ k1 = k ∨ k1 ∈ GoMap.keys m := by
  induction m with
  | nil => simp [GoMap.set, GoMap.keys]
  | cons kv rest ih =>
    obtain ⟨k0, v0⟩ := kv
    unfold GoMap.keys at ih
    by_cases h0 : k0 = k
    · simp [GoMap.set, GoMap.keys, h0]
    · simp only [GoMap.set, GoMap.keys, h0, if_false, List.map_cons, List.mem_cons, ih]
      tauto

theorem keys_markAll (m : GoMap Bool) (l : List String) (k : String) :
    k ∈ GoMap.keys (markAll m l) ↔ k ∈ GoMap.keys m ∨ k ∈ l := by
  induction l generalizing m with
  | nil => simp [markAll]
  | cons a rest ih =>
    have : markAll m (a :: rest) = markAll (GoMap.set m a true) rest := rfl
    rw [this, ih, GoMap.keys_set]
    simp only [List.mem_cons]
    tauto

theorem keys_markAll_nil (l : List String) (k : String) :
    k ∈ GoMap.keys (markAll [] l) ↔ k ∈ l := by
  rw [keys_markAll]
  simp [GoMap.keys]

theorem length_markAll_pos (l : List String) : 0 < (markAll [] l).length ↔ l ≠ [] := by
  constructor
  · intro h hl
    rw [hl] at h
    simp [markAll] at h
  · intro h
    cases l with
    | nil => exact absurd rfl h
    | cons a rest =>
      have hk : a ∈ GoMap.keys (markAll [] (a :: rest)) := (keys_markAll_nil _ _).mpr (by simp)
      unfold GoMap.keys at hk
      have := List.length_pos_of_mem hk
      simpa using this

/-- The loop of `main` over `doc.Paths` in closed form. -/
theorem collectPost_eq (paths : GoMap PathItem) (sp : List String) (ids : GoMap Bool) :
    collectPost paths (sp, ids) =
      (sp ++ (postOperations paths).map Prod.fst,
       markAll ids ((postOperations paths).map (fun po => po.2.OperationID))) := by
  induction paths generalizing sp ids with
  | nil => simp [collectPost, postOperations, markAll]
  | cons kv rest ih =>
    obtain ⟨p, pp⟩ := kv
    cases hp : pp.Post with
    | none =>
      simp only [collectPost, hp, ih]
      simp [postOperations, List.filterMap_cons, hp]
    | some post =>
      simp only [collectPost, hp, ih]
      simp [postOperations, List.filterMap_cons, hp, markAll]

theorem mem_postOperations (paths : GoMap PathItem) (p : String) (post : Operation) :
    (p, post) ∈ postOperations paths ↔ (p, PathItem.mk (some post)) ∈ paths := by
  unfold postOperations
  rw [List.mem_filterMap]
  constructor
  · rintro ⟨⟨k, pp⟩, hmem, hk⟩
    obtain ⟨po⟩ := pp
    cases po with
    | none => simp at hk
    | some q =>
      simp only [Option.map_some', Option.some.injEq, Prod.mk.injEq] at hk
      obtain ⟨h1, h2⟩ := hk
      subst h1
      subst h2
      exact hmem
  · intro h
    exact ⟨(p, PathItem.mk (some post)), h, rfl⟩

/-- The set `opIds` of `main` holds exactly the operation ids of the POST operations. -/
theorem test_opIds (paths : GoMap PathItem) (op : String) :
    GoMap.test (collectPost paths ([], [])).2 op = true ↔
      ∃ p post, (p, PathItem.mk (some post)) ∈ paths ∧ post.OperationID = op := by
  rw [collectPost_eq, test_markAll_nil]
  simp only [decide_eq_true_eq, List.mem_map]
  constructor
  · rintro ⟨⟨p, post⟩, hmem, hid⟩
    exact ⟨p, post, (mem_postOperations _ _ _).mp hmem, hid⟩
  · rintro ⟨p, post, hmem, hid⟩
    exact ⟨(p, post), (mem_postOperations _ _ _).mpr hmem, hid⟩

/-- The function `main` with its local variables substituted. -/
theorem main_eq (env : Env) (operations : List String) (module lang openapiURL : String)
    (doc : T) :
    main env operations module lang openapiURL doc =
      match (markAll [] operations).keys.find?
          (fun op => !GoMap.test (collectPost doc.Paths ([], [])).2 op) with
      | some op => Run.mk [] ["missing operation " ++ op ++ "\n"] none
      | none =>
        match doc.Components with
        | none => Run.mk [] [] (some .nilDeref)
        | some comps =>
          if lang = "go" then
            goGen env openapiURL module (sortStrings (collectPost doc.Paths ([], [])).1)
              (sortStrings (GoMap.keys comps.Schemas)) doc (markAll [] operations)
          else if lang = "js" then
            jsGen env openapiURL module (sortStrings (collectPost doc.Paths ([], [])).1)
              (sortStrings (GoMap.keys comps.Schemas)) doc (markAll [] operations)
          else if lang = "py" then
            pyGen env openapiURL module (sortStrings (collectPost doc.Paths ([], [])).1)
              (sortStrings (GoMap.keys comps.Schemas)) doc (markAll [] operations)
          else Run.mk [] ["Unsupported lang " ++ lang ++ "\n"] none := rfl

/-- The search of `main` for a name of the filter outside `opIds` finds nothing exactly
when every name of the filter is the operation id of a POST operation. -/
theorem find_missing_eq_none (operations : List String) (paths : GoMap PathItem) :
    (markAll [] operations).keys.find? (fun op => !GoMap.test (collectPost paths ([], [])).2 op)
        = none ↔
      ∀ o ∈ operations, ∃ p post, (p, PathItem.mk (some post)) ∈ paths ∧ post.OperationID = o := by
  rw [List.find?_eq_none]
  constructor
  · intro h o ho
    have h1 := h o ((keys_markAll_nil _ _).mpr ho)
    simp only [Bool.not_eq_true', Bool.not_eq_false] at h1
    exact (test_opIds _ _).mp h1
  · intro h o ho
    have := (test_opIds paths o).mpr (h o ((keys_markAll_nil _ _).mp ho))
    simp [this]

/-- A name that the search of `main` finds is a name of the filter. -/
theorem find_missing_mem (operations : List String) (paths : GoMap PathItem) (op : String)
    (h : (markAll [] operations).keys.find?
      (fun op => !GoMap.test (collectPost paths ([], [])).2 op) = some op) :
    op ∈ operations :=
  (keys_markAll_nil _ _).mp (List.mem_of_find?_eq_some h)

/-- C7. When the filter `operations` holds a name that is the operation id of no path
with a POST operation, `main` prints `missing operation` with such a name of the filter
and returns: no file is written, whatever the document and the language are. -/
theorem main_missing_operation (env : Env) (operations : List String)
    (module lang openapiURL : String) (doc : T) (name : String) (hname : name ∈ operations)
    (hunknown : ∀ p post, (p, PathItem.mk (some post)) ∈ doc.Paths → post.OperationID ≠ name) :
    ∃ op, op ∈ operations ∧
      (∀ p post, (p, PathItem.mk (some post)) ∈ doc.Paths → post.OperationID ≠ op) ∧
      main env operations module lang openapiURL doc
        = Run.mk [] ["missing operation " ++ op ++ "\n"] none ∧
      (main env operations module lang openapiURL doc).files = [] := by
  rw [main_eq]
  cases hf : (markAll [] operations).keys.find?
      (fun op => !GoMap.test (collectPost doc.Paths ([], [])).2 op) with
  | none =>
    exfalso
    have h1 := List.find?_eq_none.mp hf name ((keys_markAll_nil _ _).mpr hname)
    simp only [Bool.not_eq_true', Bool.not_eq_false] at h1
    obtain ⟨p, post, hmem, hid⟩ := (test_opIds _ _).mp h1
    exact hunknown p post hmem hid
  | some op =>
    refine ⟨op, (keys_markAll_nil _ _).mp (List.mem_of_find?_eq_some hf), ?_, rfl, rfl⟩
    intro p post hmem hid
    have h1 := List.find?_some hf
    simp only [Bool.not_eq_true'] at h1
    have h2 := (test_opIds doc.Paths op).mpr ⟨p, post, hmem, hid⟩
    rw [h1] at h2
    exact absurd h2 (by decide)

/-- The witness of C7: the filter `Nope` on a document whose one POST operation is
`ListExample`, under `py`. -/
theorem main_missing_operation_witness :
    ∃ op, op ∈ ["Nope"] ∧
      (∀ p post, (p, PathItem.mk (some post)) ∈
          [("/list", PathItem.mk (some (Operation.mk "ListExample" "")))] →
        post.OperationID ≠ op) ∧
      main asciiEnv ["Nope"] "client" "py" "http://localhost/api.json"
          (T.mk [("/list", PathItem.mk (some (Operation.mk "ListExample" "")))]
            (some (Components.mk [])))
        = Run.mk [] ["missing operation " ++ op ++ "\n"] none ∧
      (main asciiEnv ["Nope"] "client" "py" "http://localhost/api.json"
          (T.mk [("/list", PathItem.mk (some (Operation.mk "ListExample" "")))]
            (some (Components.mk [])))).files = [] :=
  main_missing_operation asciiEnv ["Nope"] "client" "py" "http://localhost/api.json"
    (T.mk [("/list", PathItem.mk (some (Operation.mk "ListExample" "")))]
            (some (Components.mk [])))
    "Nope" (by decide) (by
      intro p post hmem
      simp only [List.mem_singleton, Prod.mk.injEq, PathItem.mk.injEq, Option.some.injEq] at hmem
      rw [hmem.2]
      decide)

/-! ## The loop over `sortedPath` -/

theorem GoMap.get_of_mem {V : Type} (m : GoMap V) (k : String) (v : V)
    (hnd : (GoMap.keys m).Nodup) (hmem : (k, v) ∈ m) : GoMap.get m k = some v := by
  induction m with
  | nil => simp at hmem
  | cons kv rest ih =>
    obtain ⟨k0, v0⟩ := kv
    simp only [GoMap.keys, List.map_cons, List.nodup_cons, List.mem_map, not_exists, not_and] at hnd
    unfold GoMap.get at ih ⊢
    rcases List.mem_cons.mp hmem with h | h
    · simp only [Prod.mk.injEq] at h
      rw [h.1, h.2]
      simp [List.lookup]
    · have hne : k ≠ k0 := by
        intro e
        exact hnd.1 (k, v) h e
      have hb : (k == k0) = false := by simpa using hne
      simp only [List.lookup, hb]
      exact ih hnd.2 h

theorem GoMap.mem_of_get {V : Type} (m : GoMap V) (k : String) (v : V)
    (h : GoMap.get m k = some v) : (k, v) ∈ m := by
  induction m with
  | nil => simp [GoMap.get, List.lookup] at h
  | cons kv rest ih =>
    obtain ⟨k0, v0⟩ := kv
    unfold GoMap.get at ih h
    by_cases hk : k = k0
    · subst hk
      simp only [List.lookup, beq_self_eq_true, Option.some.injEq] at h
      rw [h]
      exact List.mem_cons_self _ _
    · have hb : (k == k0) = false := by simpa using hk
      simp only [List.lookup, hb] at h
      exact List.mem_cons_of_mem _ (ih h)

/-- The choice of the loop between skipping and rendering, for the map `opMap` that
`main` builds from the filter. -/
theorem skip_iff (operations : List String) (op : String) :
    (decide ((markAll [] operations).length > 0) && !GoMap.test (markAll [] operations) op) = false
      ↔ (operations = [] ∨ op ∈ operations) := by
  rw [test_markAll_nil]
  by_cases h : operations = []
  · subst h
    simp [markAll]
  · have hpos : (markAll [] operations).length > 0 := (length_markAll_pos _).mpr h
    simp [hpos, h]

/-- The loop over a list of paths renders the selected operations in the order of the
list, and stops at the first panic. -/
theorem clientLoop_eq (unit : String → Operation → Except Panic String) (doc : T)
    (operations : List String) (l : List String)
    (hl : ∀ p ∈ l, ∃ pp, GoMap.get doc.Paths p = some pp) (out : String) :
    clientLoop unit doc (markAll [] operations) l out =
      match renderUnits unit (l.filterMap (selectOperation doc operations)) with
      | .error e => .error e
      | .ok ts => .ok (out ++ ts) := by
  induction l generalizing out with
  | nil => simp [clientLoop, renderUnits]
  | cons p rest ih =>
    have hrest : ∀ q ∈ rest, ∃ pp, GoMap.get doc.Paths q = some pp :=
      fun q hq => hl q (List.mem_cons_of_mem _ hq)
    obtain ⟨pp, hpp⟩ := hl p (List.mem_cons_self _ _)
    cases hpost : pp.Post with
    | none =>
      have hsel : selectOperation doc operations p = none := by
        simp [selectOperation, hpp, hpost]
      simp only [clientLoop, hpp, hpost, List.filterMap_cons, hsel]
      exact ih hrest out
    | some post =>
      by_cases hin : operations = [] ∨ post.OperationID ∈ operations
      · have hsel : selectOperation doc operations p = some (p, post) := by
          simp only [selectOperation, hpp, hpost, if_pos hin]
        have hskip := (skip_iff operations post.OperationID).mpr hin
        simp only [clientLoop, hpp, hpost, List.filterMap_cons, hsel, hskip, renderUnits]
        cases hu : unit p post with
        | error e => simp
        | ok t =>
          simp only [Bool.false_eq_true, if_false]
          rw [ih hrest (out ++ t)]
          cases renderUnits unit (rest.filterMap (selectOperation doc operations)) with
          | error e => rfl
          | ok ts => simp [String.append_assoc]
      · have hsel : selectOperation doc operations p = none := by
          simp only [selectOperation, hpp, hpost, if_neg hin]
        have hskip : (decide ((markAll [] operations).length > 0) &&
            !GoMap.test (markAll [] operations) post.OperationID) = true := by
          cases hb : (decide ((markAll [] operations).length > 0) &&
            !GoMap.test (markAll [] operations) post.OperationID) with
          | true => rfl
          | false => exact absurd ((skip_iff operations post.OperationID).mp hb) hin
        simp only [clientLoop, hpp, hpost, List.filterMap_cons, hsel, hskip, if_true]
        exact ih hrest out

/-- Every path that `main` hands to an emitter is a key of `doc.Paths`. -/
theorem sortedPath_get (doc : T) (hnd : (GoMap.keys doc.Paths).Nodup) :
    ∀ p ∈ sortStrings (collectPost doc.Paths ([], [])).1, ∃ pp, GoMap.get doc.Paths p = some pp := by
  intro p hp
  rw [collectPost_eq, List.nil_append, mem_sortStrings, List.mem_map] at hp
  obtain ⟨⟨q, post⟩, hmem, hq⟩ := hp
  simp only at hq
  subst hq
  exact ⟨_, GoMap.get_of_mem _ _ _ hnd ((mem_postOperations _ _ _).mp hmem)⟩

theorem nodup_postPaths (paths : GoMap PathItem) (hnd : (GoMap.keys paths).Nodup) :
    ((postOperations paths).map Prod.fst).Nodup := by
  have hsub : ((postOperations paths).map Prod.fst).Sublist (GoMap.keys paths) := by
    unfold postOperations GoMap.keys
    induction paths with
    | nil => simp
    | cons kv rest ih =>
      obtain ⟨k, pp⟩ := kv
      have hr : (GoMap.keys rest).Nodup := by
        simp only [GoMap.keys, List.map_cons, List.nodup_cons] at hnd
        exact hnd.2
      cases hp : pp.Post with
      | none =>
        simp only [List.filterMap_cons, hp, Option.map_none', List.map_cons]
        exact (ih hr).cons _
      | some post =>
        simp only [List.filterMap_cons, hp, Option.map_some', List.map_cons]
        exact (ih hr).cons₂ _
  exact hsub.nodup hnd

/-- The selected operation of a path carries that path. -/
theorem selectOperation_fst (doc : T) (operations : List String) (p : String)
    (po : String × Operation) (h : selectOperation doc operations p = some po) : po.1 = p := by
  unfold selectOperation at h
  split at h
  · simp at h
  · split at h
    · simp at h
    · split at h
      · simp only [Option.some.injEq] at h
        rw [← h]
      · simp at h

/-- The operations to render are exactly the POST operations that pass the filter. -/
theorem mem_renderedOperations (doc : T) (hnd : (GoMap.keys doc.Paths).Nodup)
    (operations : List String) (p : String) (post : Operation) :
    (p, post) ∈ renderedOperations doc operations ↔
      (p, PathItem.mk (some post)) ∈ doc.Paths ∧
        (operations = [] ∨ post.OperationID ∈ operations) := by
  unfold renderedOperations
  rw [List.mem_filterMap]
  constructor
  · rintro ⟨q, _, hsel⟩
    have hq := selectOperation_fst _ _ _ _ hsel
    simp only at hq
    subst hq
    unfold selectOperation at hsel
    cases hg : GoMap.get doc.Paths p with
    | none => simp [hg] at hsel
    | some pp =>
      obtain ⟨po⟩ := pp
      cases po with
      | none => simp [hg] at hsel
      | some post1 =>
        simp only [hg] at hsel
        by_cases hin : operations = [] ∨ post1.OperationID ∈ operations
        · rw [if_pos hin] at hsel
          simp only [Option.some.injEq, Prod.mk.injEq, true_and] at hsel
          subst hsel
          exact ⟨GoMap.mem_of_get _ _ _ hg, hin⟩
        · rw [if_neg hin] at hsel
          simp at hsel
  · rintro ⟨hmem, hin⟩
    refine ⟨p, ?_, ?_⟩
    · rw [mem_sortStrings, List.mem_map]
      exact ⟨(p, post), (mem_postOperations _ _ _).mpr hmem, rfl⟩
    · simp only [selectOperation, GoMap.get_of_mem _ _ _ hnd hmem, if_pos hin]

/-- The operations to render come in strictly ascending order of path. -/
theorem renderedOperations_sorted (doc : T) (hnd : (GoMap.keys doc.Paths).Nodup)
    (operations : List String) :
    (renderedOperations doc operations).Pairwise (fun a b => strLess a.1 b.1 = true) := by
  unfold renderedOperations
  rw [List.pairwise_filterMap]
  refine (sortStrings_strict (nodup_postPaths _ hnd)).imp ?_
  intro a b hab x hx y hy
  rw [selectOperation_fst _ _ _ _ hx, selectOperation_fst _ _ _ _ hy]
  exact hab

theorem foldl_append_string (l : List String) (init : String) :
    l.foldl (fun r s => r ++ s) init = init ++ l.foldl (fun r s => r ++ s) "" := by
  induction l generalizing init with
  | nil => simp
  | cons a rest ih =>
    simp only [List.foldl_cons]
    rw [ih (init ++ a), ih ("" ++ a)]
    simp [String.append_assoc]

theorem join_cons (a : String) (l : List String) : String.join (a :: l) = a ++ String.join l := by
  unfold String.join
  simp only [List.foldl_cons]
  rw [foldl_append_string]
  simp

theorem renderUnits_ok (text : String → Operation → String) (l : List (String × Operation)) :
    renderUnits (fun p post => .ok (text p post)) l
      = .ok (String.join (l.map (fun po => text po.1 po.2))) := by
  induction l with
  | nil => rfl
  | cons po rest ih =>
    obtain ⟨p, post⟩ := po
    simp only [renderUnits, ih, List.map_cons, join_cons]

theorem eq_singleton_of_forall_eq {α : Type} (l : List α) (x : α) (hnd : l.Nodup)
    (hx : x ∈ l) (hall : ∀ y ∈ l, y = x) : l = [x] := by
  match l with
  | [] => simp at hx
  | [a] =>
    rw [hall a (List.mem_cons_self _ _)]
  | a :: b :: rest =>
    exfalso
    have ha := hall a (List.mem_cons_self _ _)
    have hb := hall b (by simp)
    rw [List.nodup_cons] at hnd
    apply hnd.1
    rw [ha, ← hb]
    exact List.mem_cons_self _ _

theorem renderedOperations_nodup (doc : T) (hnd : (GoMap.keys doc.Paths).Nodup)
    (operations : List String) : (renderedOperations doc operations).Nodup := by
  refine (renderedOperations_sorted doc hnd operations).imp ?_
  intro a b hab e
  rw [e] at hab
  unfold strLess at hab
  rw [runesLess_irrefl] at hab
  exact absurd hab (by decide)

/-- The three client texts for the lists that `main` computes, in terms of the
operations to render. -/
theorem clients_eq (env : Env) (operations : List String) (module openapiURL : String) (doc : T)
    (hnd : (GoMap.keys doc.Paths).Nodup) :
    goGenClient openapiURL module (sortStrings (collectPost doc.Paths ([], [])).1) doc
        (markAll [] operations)
      = .ok (goHeader openapiURL module ++ goClientPreamble ++
          String.join ((renderedOperations doc operations).map (fun po => goClientText po.1 po.2))) ∧
    pyGenClient env openapiURL (sortStrings (collectPost doc.Paths ([], [])).1) doc
        (markAll [] operations)
      = (match renderUnits (pyClientUnit env doc) (renderedOperations doc operations) with
        | .error e => .error e
        | .ok ts => .ok (pyHeader openapiURL ++ pyClientPreamble ++ ts)) ∧
    jsGenClient env openapiURL module (sortStrings (collectPost doc.Paths ([], [])).1) doc
        (markAll [] operations)
      = (match renderUnits (jsClientUnit env module doc) (renderedOperations doc operations) with
        | .error e => .error e
        | .ok ts => .ok (jsHeader openapiURL ++ jsClientPreamble env module ++ ts ++
            jsFooter env module)) := by
  have hget := sortedPath_get doc hnd
  have hsp : sortStrings (collectPost doc.Paths ([], [])).1
      = sortStrings ((postOperations doc.Paths).map Prod.fst) := by
    rw [collectPost_eq, List.nil_append]
  refine ⟨?_, ?_, ?_⟩
  · unfold goGenClient
    rw [clientLoop_eq _ _ _ _ hget, hsp]
    have hu : goClientUnit = fun p post => Except.ok (goClientText p post) := rfl
    rw [hu]
    have hr := renderUnits_ok goClientText (renderedOperations doc operations)
    unfold renderedOperations at hr ⊢
    rw [hr]
  · unfold pyGenClient
    rw [clientLoop_eq _ _ _ _ hget, hsp]
    rfl
  · unfold jsGenClient
    rw [clientLoop_eq _ _ _ _ hget, hsp]
    unfold renderedOperations
    cases renderUnits (jsClientUnit env module doc)
      (List.filterMap (selectOperation doc operations)
        (sortStrings ((postOperations doc.Paths).map Prod.fst))) with
    | error e => rfl
    | ok ts => rfl

/-! ## The operations of the client file -/

/-- When every name of the filter is known and the document has components, `main` runs
the emitter of the language on the sorted lists. -/
theorem main_dispatch (env : Env) (operations : List String) (module lang openapiURL : String)
    (doc : T) (comps : Components) (hcomps : doc.Components = some comps)
    (hknown : ∀ o ∈ operations, ∃ p post, (p, PathItem.mk (some post)) ∈ doc.Paths ∧
      post.OperationID = o) :
    main env operations module lang openapiURL doc =
      if lang = "go" then
        goGen env openapiURL module (sortStrings (collectPost doc.Paths ([], [])).1)
          (sortStrings (GoMap.keys comps.Schemas)) doc (markAll [] operations)
      else if lang = "js" then
        jsGen env openapiURL module (sortStrings (collectPost doc.Paths ([], [])).1)
          (sortStrings (GoMap.keys comps.Schemas)) doc (markAll [] operations)
      else if lang = "py" then
        pyGen env openapiURL module (sortStrings (collectPost doc.Paths ([], [])).1)
          (sortStrings (GoMap.keys comps.Schemas)) doc (markAll [] operations)
      else Run.mk [] ["Unsupported lang " ++ lang ++ "\n"] none := by
  rw [main_eq, (find_missing_eq_none operations doc.Paths).mpr hknown, hcomps]

/-- The text of `pyGen` for an operation, when there is one. -/
theorem pyClientUnit_ok (env : Env) (doc : T) (p : String) (post : Operation) (t : String)
    (h : pyClientUnit env doc p post = .ok t) :
    ∃ req rsp, schemaExample doc (post.OperationID ++ "Request") "py" = .ok req ∧
      schemaExample doc (post.OperationID ++ "Response") "py" = .ok rsp ∧
      t = (if post.Summary ≠ "" then "# " ++ post.Summary ++ "\n" else "") ++
        "def " ++ toName env post.OperationID "py" ++ "(req):\n" ++ "    # req: " ++ req ++ "\n" ++
        "    # rsp: " ++ rsp ++ "\n" ++
        "    return client.invoke(\"" ++ p ++ "\", req)\n" ++ "\n\n" := by
  unfold pyClientUnit at h
  cases hreq : schemaExample doc (post.OperationID ++ "Request") "py" with
  | error e => simp [hreq] at h
  | ok req =>
    cases hrsp : schemaExample doc (post.OperationID ++ "Response") "py" with
    | error e => simp [hreq, hrsp] at h
    | ok rsp =>
      simp only [hreq, hrsp, Except.ok.injEq] at h
      exact ⟨req, rsp, rfl, rfl, h.symm⟩

/-- The text of `jsGen` for an operation, when there is one. -/
theorem jsClientUnit_ok (env : Env) (module : String) (doc : T) (p : String) (post : Operation)
    (t : String) (h : jsClientUnit env module doc p post = .ok t) :
    ∃ req rsp name, schemaExample doc (post.OperationID ++ "Request") "js" = .ok req ∧
      schemaExample doc (post.OperationID ++ "Response") "js" = .ok rsp ∧
      lowerFirst env post.OperationID = .ok name ∧
      t = (if post.Summary ≠ "" then "  // " ++ post.Summary ++ "\n" else "") ++
        "  // req: " ++ req ++ "\n" ++ "  // rsp: " ++ rsp ++ "\n" ++
        "  " ++ name ++ " = (data) => \x7b\n    return " ++ module ++
        "_client_service(\x7b\n      url: \x27" ++ p ++
        "\x27,\n      method: \x27post\x27,\n      data: data,\n    \x7d)\n  \x7d\n" := by
  unfold jsClientUnit at h
  cases hreq : schemaExample doc (post.OperationID ++ "Request") "js" with
  | error e => simp [hreq] at h
  | ok req =>
    cases hrsp : schemaExample doc (post.OperationID ++ "Response") "js" with
    | error e => simp [hreq, hrsp] at h
    | ok rsp =>
      cases hname : lowerFirst env post.OperationID with
      | error e => simp [hreq, hrsp, hname] at h
      | ok name =>
        simp only [hreq, hrsp, hname, Except.ok.injEq] at h
        exact ⟨req, rsp, name, rfl, rfl, rfl, h.symm⟩

/-- The runs of the three emitters on the lists of `main`, in terms of the operations to
render. -/
theorem emitters_eq (env : Env) (operations : List String) (module openapiURL : String) (doc : T)
    (sortedSchemas : List String) (hnd : (GoMap.keys doc.Paths).Nodup) :
    goGen env openapiURL module (sortStrings (collectPost doc.Paths ([], [])).1) sortedSchemas doc
        (markAll [] operations)
      = (match goGenModel env doc sortedSchemas (goHeader openapiURL module) with
        | .error e => Run.mk [] [] (some e)
        | .ok model =>
          match env.formatSource model with
          | none => Run.mk [] [] (some .formatError)
          | some m =>
            match env.formatSource (goHeader openapiURL module ++ goClientPreamble ++
              String.join ((renderedOperations doc operations).map
                (fun po => goClientText po.1 po.2))) with
            | none => Run.mk [(module ++ ".model.gen.go", m)] [] (some .formatError)
            | some c =>
              Run.mk [(module ++ ".model.gen.go", m), (module ++ ".client.gen.go", c)] [] none) ∧
    pyGen env openapiURL module (sortStrings (collectPost doc.Paths ([], [])).1) sortedSchemas doc
        (markAll [] operations)
      = (match commentModel "#" "py" doc sortedSchemas (pyHeader openapiURL ++ "\n") with
        | .error e => Run.mk [] [] (some e)
        | .ok model =>
          match renderUnits (pyClientUnit env doc) (renderedOperations doc operations) with
          | .error e => Run.mk [(module ++ "_model.py", model)] [] (some e)
          | .ok ts =>
            Run.mk [(module ++ "_model.py", model),
              (module ++ "_client.py", pyHeader openapiURL ++ pyClientPreamble ++ ts)] [] none) ∧
    jsGen env openapiURL module (sortStrings (collectPost doc.Paths ([], [])).1) sortedSchemas doc
        (markAll [] operations)
      = (match commentModel "//" "js" doc sortedSchemas (jsHeader openapiURL ++ "\n") with
        | .error e => Run.mk [] [] (some e)
        | .ok model =>
          match renderUnits (jsClientUnit env module doc) (renderedOperations doc operations) with
          | .error e => Run.mk [(module ++ "_model.js", model)] [] (some e)
          | .ok ts =>
            Run.mk [(module ++ "_model.js", model),
              (module ++ "_client.js", jsHeader openapiURL ++ jsClientPreamble env module ++ ts ++
                jsFooter env module)] [] none) := by
  obtain ⟨hgo, hpy, hjs⟩ := clients_eq env operations module openapiURL doc hnd
  refine ⟨?_, ?_, ?_⟩
  · unfold goGen
    rw [hgo]
    cases goGenModel env doc sortedSchemas (goHeader openapiURL module) with
    | error e => rfl
    | ok model =>
      dsimp only
      cases env.formatSource model with
      | none => rfl
      | some m => rfl
  · unfold pyGen
    rw [hpy]
    cases commentModel "#" "py" doc sortedSchemas (pyHeader openapiURL ++ "\n") with
    | error e => rfl
    | ok model =>
      dsimp only
      cases renderUnits (pyClientUnit env doc) (renderedOperations doc operations) with
      | error e => rfl
      | ok ts => rfl
  · unfold jsGen
    rw [hjs]
    cases commentModel "//" "js" doc sortedSchemas (jsHeader openapiURL ++ "\n") with
    | error e => rfl
    | ok model =>
      dsimp only
      cases renderUnits (jsClientUnit env module doc) (renderedOperations doc operations) with
      | error e => rfl
      | ok ts => rfl

/-- C9. Take a document that has components and pairwise distinct paths, and a filter
`operations` whose names are all operation ids of POST operations. There is a list
`rendered` of operations such that: `rendered` holds exactly the POST operations of the
document, with their paths, whose operation id is in the filter, or all of them when the
filter is empty; `rendered` is strictly ascending in the path (so each is there once);
for the empty filter `rendered` is a rearrangement of all the POST operations; and the
run of `main` writes a client file made of the operations of `rendered` in that order.
Under `go` the client text, handed to `format.Source`, is the header, the preamble and
for each operation of `rendered` the text `func <op>(ctx context.Context, req
*<op>Request) (*<op>Response, error)` with its body, after the summary comment. Under
`py` and `js` it is the header, the preamble and the texts of the operations of
`rendered` (and the footer under `js`), or the run ends with the first panic among them
after the model file; the text of an operation is the summary comment, the two example
lines and the definition `def <name>(req):` or `<name> = (data) =>` with its body. -/
theorem client_operations_sorted_filtered (env : Env) (operations : List String)
    (module openapiURL : String) (doc : T) (comps : Components)
    (hcomps : doc.Components = some comps) (hnd : (GoMap.keys doc.Paths).Nodup)
    (hknown : ∀ o ∈ operations, ∃ p post, (p, PathItem.mk (some post)) ∈ doc.Paths ∧
      post.OperationID = o) :
    ∃ rendered : List (String × Operation),
      (∀ p post, (p, post) ∈ rendered ↔
        (p, PathItem.mk (some post)) ∈ doc.Paths ∧
          (operations = [] ∨ post.OperationID ∈ operations)) ∧
      rendered.Pairwise (fun a b => strLess a.1 b.1 = true) ∧
      (operations = [] → rendered.Perm (postOperations doc.Paths)) ∧
      main env operations module "go" openapiURL doc
        = (match goGenModel env doc (sortStrings (GoMap.keys comps.Schemas))
            ("// This file was generated from " ++ openapiURL ++ "\npackage " ++ module ++ "\n\n") with
          | .error e => Run.mk [] [] (some e)
          | .ok model =>
            match env.formatSource model with
            | none => Run.mk [] [] (some .formatError)
            | some m =>
              match env.formatSource ("// This file was generated from " ++ openapiURL ++ "\npackage " ++ module ++ "\n\n" ++
        ("import \"context\"\n\tvar client apiClient\n\ttype apiClient interface \x7b\n" ++
        "\tInvoke(context.Context, string, interface\x7b\x7d, interface\x7b\x7d) error \n\t\x7d\n" ++
        "\tfunc SetApiClient(c apiClient)\x7b\n\tclient = c\n\t\x7d\n\t\n\t") ++
        String.join (rendered.map (fun po =>
        (if po.2.Summary ≠ "" then "// " ++ po.2.Summary ++ "\n" else "") ++
        "func " ++ po.2.OperationID ++ "(ctx context.Context, req *" ++ po.2.OperationID ++ "Request) (*" ++ po.2.OperationID ++
        "Response, error)\x7b\n" ++ "rsp := &" ++ po.2.OperationID ++ "Response\x7b\x7d\n" ++
        "err := client.Invoke(ctx, \"" ++ po.1 ++ "\", req, rsp)\n" ++ "return rsp, err\n" ++
        "\x7d\n\n"))) with
              | none => Run.mk [(module ++ ".model.gen.go", m)] [] (some .formatError)
              | some c =>
                Run.mk [(module ++ ".model.gen.go", m), (module ++ ".client.gen.go", c)]
                  [] none) ∧
      main env operations module "py" openapiURL doc
        = (match commentModel "#" "py" doc (sortStrings (GoMap.keys comps.Schemas))
            ("# This file was generated from " ++ openapiURL ++ "\n" ++ "\n") with
          | .error e => Run.mk [] [] (some e)
          | .ok model =>
            match renderUnits (pyClientUnit env doc) rendered with
            | .error e => Run.mk [(module ++ "_model.py", model)] [] (some e)
            | .ok ts =>
              Run.mk [(module ++ "_model.py", model),
                (module ++ "_client.py", "# This file was generated from " ++ openapiURL ++ "\n" ++
        ("from abc import ABCMeta, abstractmethod\n\n\nclass InvokeClass(metaclass=ABCMeta):\n" ++
        "    @abstractmethod\n    def invoke(self, path: str, req):\n        pass\n\n\n" ++
        "client: InvokeClass\n\n\ndef set_api_client(c: InvokeClass):\n    global client\n" ++
        "    client = c\n\n\n") ++ ts)] [] none) ∧
      main env operations module "js" openapiURL doc
        = (match commentModel "//" "js" doc (sortStrings (GoMap.keys comps.Schemas))
            ("// This file was generated from " ++ openapiURL ++ "\n" ++ "\n") with
          | .error e => Run.mk [] [] (some e)
          | .ok model =>
            match renderUnits (jsClientUnit env module doc) rendered with
            | .error e => Run.mk [(module ++ "_model.js", model)] [] (some e)
            | .ok ts =>
              Run.mk [(module ++ "_model.js", model),
                (module ++ "_client.js", "// This file was generated from " ++ openapiURL ++ "\n" ++
        ("import " ++ module ++ "_client_service from \x27@/service/" ++ module ++
        "_client\x27\n\nclass " ++ (env.title module ++ "API") ++ " \x7b\n") ++ ts ++
        ("\n\x7d\n\nexport default new " ++ (env.title module ++ "API") ++ "()\n"))] [] none) ∧
      (∀ p post t, pyClientUnit env doc p post = .ok t →
        ∃ req rsp, schemaExample doc (post.OperationID ++ "Request") "py" = .ok req ∧
          schemaExample doc (post.OperationID ++ "Response") "py" = .ok rsp ∧
          t = (if post.Summary ≠ "" then "# " ++ post.Summary ++ "\n" else "") ++
        "def " ++ toName env post.OperationID "py" ++ "(req):\n" ++ "    # req: " ++ req ++ "\n" ++
        "    # rsp: " ++ rsp ++ "\n" ++
        "    return client.invoke(\"" ++ p ++ "\", req)\n" ++ "\n\n") ∧
      (∀ p post t, jsClientUnit env module doc p post = .ok t →
        ∃ req rsp name, schemaExample doc (post.OperationID ++ "Request") "js" = .ok req ∧
          schemaExample doc (post.OperationID ++ "Response") "js" = .ok rsp ∧
          lowerFirst env post.OperationID = .ok name ∧
          t = (if post.Summary ≠ "" then "  // " ++ post.Summary ++ "\n" else "") ++
        "  // req: " ++ req ++ "\n" ++ "  // rsp: " ++ rsp ++ "\n" ++
        "  " ++ name ++ " = (data) => \x7b\n    return " ++ module ++
        "_client_service(\x7b\n      url: \x27" ++ p ++
        "\x27,\n      method: \x27post\x27,\n      data: data,\n    \x7d)\n  \x7d\n") := by
  obtain ⟨hgo, hpy, hjs⟩ := emitters_eq env operations module openapiURL doc
    (sortStrings (GoMap.keys comps.Schemas)) hnd
  refine ⟨renderedOperations doc operations, mem_renderedOperations doc hnd operations,
    renderedOperations_sorted doc hnd operations, ?_, ?_, ?_, ?_,
    pyClientUnit_ok env doc, jsClientUnit_ok env module doc⟩
  · intro hempty
    rw [List.perm_ext_iff_of_nodup (renderedOperations_nodup doc hnd operations)
      (List.Nodup.of_map Prod.fst (nodup_postPaths _ hnd))]
    rintro ⟨p, post⟩
    rw [mem_renderedOperations doc hnd, mem_postOperations]
    simp [hempty]
  · rw [main_dispatch env operations module "go" openapiURL doc comps hcomps hknown, if_pos rfl]
    exact hgo
  · rw [main_dispatch env operations module "py" openapiURL doc comps hcomps hknown,
      if_neg (by decide), if_neg (by decide), if_pos rfl]
    exact hpy
  · rw [main_dispatch env operations module "js" openapiURL doc comps hcomps hknown,
      if_neg (by decide), if_pos rfl]
    exact hjs

set_option maxRecDepth 100000 in
/-- The witness of C9, on `twoOpsDoc`, whose paths come in the order `/b`, `/a`, `/c`.
With the empty filter the run under `py` and the run under `js` write the model file and
a client file with the operations `A` and `B`, in this order; with the filter `A` the
run under `py` writes a client file with the one operation `A`. -/
theorem client_operations_sorted_filtered_witness :
    main asciiEnv [] "client" "py" "u" twoOpsDoc
      = Run.mk [("client_model.py", ("# This file was generated from u\n\n# ARequest: \x7b\x7d\n# AResponse: \x7b\x7d\n" ++
        "# BRequest: \x7b\x7d\n# BResponse: \x7b\x7d\n")),
        ("client_client.py", ("# This file was generated from u\nfrom abc import ABCMeta, abstractmethod\n\n\n" ++
        "class InvokeClass(metaclass=ABCMeta):\n    @abstractmethod\n" ++
        "    def invoke(self, path: str, req):\n        pass\n\n\nclient: InvokeClass\n\n\n" ++
        "def set_api_client(c: InvokeClass):\n    global client\n    client = c\n\n\n# List\n" ++
        "def a(req):\n    # req: \x7b\x7d\n    # rsp: \x7b\x7d\n" ++
        "    return client.invoke(\"/a\", req)\n\n\ndef b(req):\n    # req: \x7b\x7d\n" ++
        "    # rsp: \x7b\x7d\n    return client.invoke(\"/b\", req)\n\n\n"))] [] none ∧
    main asciiEnv [] "client" "js" "u" twoOpsDoc
      = Run.mk [("client_model.js", ("// This file was generated from u\n\n// ARequest: \x7b\x7d\n// AResponse: \x7b\x7d\n" ++
        "// BRequest: \x7b\x7d\n// BResponse: \x7b\x7d\n")),
        ("client_client.js", ("// This file was generated from u\n" ++
        "import client_client_service from \x27@/service/client_client\x27\n\n" ++
        "class ClientAPI \x7b\n  // List\n  // req: \x7b\x7d\n  // rsp: \x7b\x7d\n" ++
        "  a = (data) => \x7b\n    return client_client_service(\x7b\n" ++
        "      url: \x27/a\x27,\n      method: \x27post\x27,\n      data: data,\n    \x7d)\n" ++
        "  \x7d\n  // req: \x7b\x7d\n  // rsp: \x7b\x7d\n  b = (data) => \x7b\n" ++
        "    return client_client_service(\x7b\n      url: \x27/b\x27,\n" ++
        "      method: \x27post\x27,\n      data: data,\n    \x7d)\n  \x7d\n\n\x7d\n\n" ++
        "export default new ClientAPI()\n"))] [] none ∧
    main asciiEnv ["A"] "client" "py" "u" twoOpsDoc
      = Run.mk [("client_model.py", "# This file was generated from u\n\n" ++
          "# ARequest: \x7b\x7d\n# AResponse: \x7b\x7d\n# BRequest: \x7b\x7d\n# BResponse: \x7b\x7d\n"),
        ("client_client.py", "# This file was generated from u\n" ++
        ("from abc import ABCMeta, abstractmethod\n\n\nclass InvokeClass(metaclass=ABCMeta):\n" ++
        "    @abstractmethod\n    def invoke(self, path: str, req):\n        pass\n\n\n" ++
        "client: InvokeClass\n\n\ndef set_api_client(c: InvokeClass):\n    global client\n" ++
        "    client = c\n\n\n") ++
        "# List\ndef a(req):\n    # req: \x7b\x7d\n    # rsp: \x7b\x7d\n" ++
        "    return client.invoke(\"/a\", req)\n\n\n")] [] none ∧
    ∃ rendered : List (String × Operation),
      (∀ p post, (p, post) ∈ rendered ↔
        (p, PathItem.mk (some post)) ∈ twoOpsDoc.Paths ∧
          (["A"] = [] ∨ post.OperationID ∈ ["A"])) ∧
      rendered.Pairwise (fun a b => strLess a.1 b.1 = true) ∧
      (["A"] = [] → rendered.Perm (postOperations twoOpsDoc.Paths)) ∧
      main asciiEnv ["A"] "client" "go" "u" twoOpsDoc
        = (match goGenModel asciiEnv twoOpsDoc (sortStrings (GoMap.keys twoOpsComponents.Schemas))
            ("// This file was generated from " ++ "u" ++ "\npackage " ++ "client" ++ "\n\n") with
          | .error e => Run.mk [] [] (some e)
          | .ok model =>
            match asciiEnv.formatSource model with
            | none => Run.mk [] [] (some .formatError)
            | some m =>
              match asciiEnv.formatSource ("// This file was generated from " ++ "u" ++ "\npackage " ++ "client" ++ "\n\n" ++
        ("import \"context\"\n\tvar client apiClient\n\ttype apiClient interface \x7b\n" ++
        "\tInvoke(context.Context, string, interface\x7b\x7d, interface\x7b\x7d) error \n\t\x7d\n" ++
        "\tfunc SetApiClient(c apiClient)\x7b\n\tclient = c\n\t\x7d\n\t\n\t") ++
        String.join (rendered.map (fun po =>
        (if po.2.Summary ≠ "" then "// " ++ po.2.Summary ++ "\n" else "") ++
        "func " ++ po.2.OperationID ++ "(ctx context.Context, req *" ++ po.2.OperationID ++ "Request) (*" ++ po.2.OperationID ++
        "Response, error)\x7b\n" ++ "rsp := &" ++ po.2.OperationID ++ "Response\x7b\x7d\n" ++
        "err := client.Invoke(ctx, \"" ++ po.1 ++ "\", req, rsp)\n" ++ "return rsp, err\n" ++
        "\x7d\n\n"))) with
              | none => Run.mk [("client" ++ ".model.gen.go", m)] [] (some .formatError)
              | some c =>
                Run.mk [("client" ++ ".model.gen.go", m), ("client" ++ ".client.gen.go", c)]
                  [] none) ∧
      main asciiEnv ["A"] "client" "py" "u" twoOpsDoc
        = (match commentModel "#" "py" twoOpsDoc (sortStrings (GoMap.keys twoOpsComponents.Schemas))
            ("# This file was generated from " ++ "u" ++ "\n" ++ "\n") with
          | .error e => Run.mk [] [] (some e)
          | .ok model =>
            match renderUnits (pyClientUnit asciiEnv twoOpsDoc) rendered with
            | .error e => Run.mk [("client" ++ "_model.py", model)] [] (some e)
            | .ok ts =>
              Run.mk [("client" ++ "_model.py", model),
                ("client" ++ "_client.py", "# This file was generated from " ++ "u" ++ "\n" ++
        ("from abc import ABCMeta, abstractmethod\n\n\nclass InvokeClass(metaclass=ABCMeta):\n" ++
        "    @abstractmethod\n    def invoke(self, path: str, req):\n        pass\n\n\n" ++
        "client: InvokeClass\n\n\ndef set_api_client(c: InvokeClass):\n    global client\n" ++
        "    client = c\n\n\n") ++ ts)] [] none) ∧
      main asciiEnv ["A"] "client" "js" "u" twoOpsDoc
        = (match commentModel "//" "js" twoOpsDoc (sortStrings (GoMap.keys twoOpsComponents.Schemas))
            ("// This file was generated from " ++ "u" ++ "\n" ++ "\n") with
          | .error e => Run.mk [] [] (some e)
          | .ok model =>
            match renderUnits (jsClientUnit asciiEnv "client" twoOpsDoc) rendered with
            | .error e => Run.mk [("client" ++ "_model.js", model)] [] (some e)
            | .ok ts =>
              Run.mk [("client" ++ "_model.js", model),
                ("client" ++ "_client.js", "// This file was generated from " ++ "u" ++ "\n" ++
        ("import " ++ "client" ++ "_client_service from \x27@/service/" ++ "client" ++
        "_client\x27\n\nclass " ++ (asciiEnv.title "client" ++ "API") ++ " \x7b\n") ++ ts ++
        ("\n\x7d\n\nexport default new " ++ (asciiEnv.title "client" ++ "API") ++ "()\n"))] [] none) ∧
      (∀ p post t, pyClientUnit asciiEnv twoOpsDoc p post = .ok t →
        ∃ req rsp, schemaExample twoOpsDoc (post.OperationID ++ "Request") "py" = .ok req ∧
          schemaExample twoOpsDoc (post.OperationID ++ "Response") "py" = .ok rsp ∧
          t = (if post.Summary ≠ "" then "# " ++ post.Summary ++ "\n" else "") ++
        "def " ++ toName asciiEnv post.OperationID "py" ++ "(req):\n" ++ "    # req: " ++ req ++ "\n" ++
        "    # rsp: " ++ rsp ++ "\n" ++
        "    return client.invoke(\"" ++ p ++ "\", req)\n" ++ "\n\n") ∧
      (∀ p post t, jsClientUnit asciiEnv "client" twoOpsDoc p post = .ok t →
        ∃ req rsp name, schemaExample twoOpsDoc (post.OperationID ++ "Request") "js" = .ok req ∧
          schemaExample twoOpsDoc (post.OperationID ++ "Response") "js" = .ok rsp ∧
          lowerFirst asciiEnv post.OperationID = .ok name ∧
          t = (if post.Summary ≠ "" then "  // " ++ post.Summary ++ "\n" else "") ++
        "  // req: " ++ req ++ "\n" ++ "  // rsp: " ++ rsp ++ "\n" ++
        "  " ++ name ++ " = (data) => \x7b\n    return " ++ "client" ++
        "_client_service(\x7b\n      url: \x27" ++ p ++
        "\x27,\n      method: \x27post\x27,\n      data: data,\n    \x7d)\n  \x7d\n") :=
  ⟨by decide, by decide, by decide,
   client_operations_sorted_filtered asciiEnv ["A"] "client" "u" twoOpsDoc _ rfl (by decide)
    (by
      intro o ho
      rw [List.mem_singleton] at ho
      exact ⟨"/a", Operation.mk "A" "List", by simp [twoOpsDoc], ho.symm⟩)⟩

/-! ## The lines of a text -/

theorem splitLines_ne_nil (l : List Char) : splitLines l ≠ [] := by
  cases l with
  | nil => simp [splitLines]
  | cons c rest =>
    unfold splitLines
    split
    · simp
    · split <;> simp

/-- A line feed after `a` ends the last line of `a`. -/
theorem splitLines_append_nl (a r : List Char) :
    splitLines (a ++ '\n' :: r) = splitLines a ++ splitLines r := by
  induction a with
  | nil => simp [splitLines]
  | cons c rest ih =>
    by_cases hc : c = '\n'
    · simp [splitLines, hc, ih]
    · cases hs : splitLines rest with
      | nil => exact absurd hs (splitLines_ne_nil rest)
      | cons l ls =>
        simp only [List.cons_append, splitLines, hc, if_false, List.append_eq, ih, hs]

theorem splitLines_clean (a : List Char) (h : cleanChars a = true) : splitLines a = [a] := by
  induction a with
  | nil => rfl
  | cons c rest ih =>
    simp only [cleanChars, List.all_cons, Bool.and_eq_true, bne_iff_ne, ne_eq] at h
    have hr : cleanChars rest = true := h.2
    simp [splitLines, h.1, ih hr]

theorem cleanChars_append (a b : List Char) :
    cleanChars (a ++ b) = (cleanChars a && cleanChars b) := by
  simp [cleanChars, List.all_append]

/-- The lines that pass `pred`, when the text begins with a line without line feed. -/
theorem filter_lines_cons (pred : List Char → Bool) (l r : List Char)
    (hl : cleanChars l = true) :
    (splitLines (l ++ '\n' :: r)).filter pred
      = (if pred l then [l] else []) ++ (splitLines r).filter pred := by
  rw [splitLines_append_nl, splitLines_clean l hl, List.filter_append]
  cases hp : pred l <;> simp [List.filter_cons, hp]

/-- The lines that pass `pred`, when the text begins with a block of lines. -/
theorem filter_lines_block (pred : List Char → Bool) (b r : List Char) :
    (splitLines (b ++ '\n' :: r)).filter pred
      = (splitLines b).filter pred ++ (splitLines r).filter pred := by
  rw [splitLines_append_nl, List.filter_append]

/-! ## The definitions of a client text -/

theorem go_preamble_lines :
    (splitLines ("\nimport \"context\"\n\tvar client apiClient\n\ttype apiClient interface \x7b\n" ++
        "\tInvoke(context.Context, string, interface\x7b\x7d, interface\x7b\x7d) error \n\t\x7d\n" ++
        "\tfunc SetApiClient(c apiClient)\x7b\n\tclient = c\n\t\x7d\n\t").data).filter (isUnitLine "go")
      = ["\tfunc SetApiClient(c apiClient)\x7b".data] := by
  decide

theorem py_preamble_lines :
    (splitLines ("from abc import ABCMeta, abstractmethod\n\n\nclass InvokeClass(metaclass=ABCMeta):\n" ++
        "    @abstractmethod\n    def invoke(self, path: str, req):\n        pass\n\n\n" ++
        "client: InvokeClass\n\n\ndef set_api_client(c: InvokeClass):\n    global client\n" ++
        "    client = c\n\n").data).filter (isUnitLine "py")
      = ["    def invoke(self, path: str, req):".data, "def set_api_client(c: InvokeClass):".data] := by
  decide

theorem js_body_lines :
    (splitLines ("      method: \x27post\x27,\n      data: data,\n    \x7d)\n  \x7d\n\n\x7d\n").data).filter (isUnitLine "js")
      = [] := by
  decide

/-- The definitions of the client text of `goGen` for one operation. -/
theorem go_unit_lines (url module A p s : String)
    (hurl : noLineBreak url = true) (hmodule : noLineBreak module = true)
    (hA : noLineBreak A = true) (hp : noLineBreak p = true) (hs : noLineBreak s = true) :
    unitLines "go" ("// This file was generated from " ++ url ++ "\npackage " ++ module ++ "\n\n" ++
        ("import \"context\"\n\tvar client apiClient\n\ttype apiClient interface \x7b\n" ++
        "\tInvoke(context.Context, string, interface\x7b\x7d, interface\x7b\x7d) error \n\t\x7d\n" ++
        "\tfunc SetApiClient(c apiClient)\x7b\n\tclient = c\n\t\x7d\n\t\n\t") ++
        ((if s ≠ "" then "// " ++ s ++ "\n" else "") ++
        "func " ++ A ++ "(ctx context.Context, req *" ++ A ++ "Request) (*" ++ A ++
        "Response, error)\x7b\n" ++ "rsp := &" ++ A ++ "Response\x7b\x7d\n" ++
        "err := client.Invoke(ctx, \"" ++ p ++ "\", req, rsp)\n" ++ "return rsp, err\n" ++
        "\x7d\n\n"))
      = ["\tfunc SetApiClient(c apiClient)\x7b",
         (if s ≠ "" then "" else "\t") ++ "func " ++ A ++ "(ctx context.Context, req *" ++ A ++ "Request) (*" ++ A ++ "Response, error)\x7b"] := by
  unfold noLineBreak at *
  have c1 : cleanChars (("// This file was generated from " ++ url).data) = true := by
    simp only [String.data_append, cleanChars_append, hurl, Bool.and_true, Bool.true_and]; rfl
  have f1 : isUnitLine "go" (("// This file was generated from " ++ url).data) = false := by simp [isUnitLine, trimLeft, startsWith, endsWith, List.dropWhile, List.isPrefixOf]
  have c2 : cleanChars (("package " ++ module).data) = true := by
    simp only [String.data_append, cleanChars_append, hmodule, Bool.and_true, Bool.true_and]; rfl
  have f2 : isUnitLine "go" (("package " ++ module).data) = false := by simp [isUnitLine, trimLeft, startsWith, endsWith, List.dropWhile, List.isPrefixOf]
  have c3 : cleanChars (("\t" ++ "func " ++ A ++ "(ctx context.Context, req *" ++ A ++ "Request) (*" ++ A ++ "Response, error)\x7b").data) = true := by
    simp only [String.data_append, cleanChars_append, hA, Bool.and_true, Bool.true_and]; rfl
  have f3 : isUnitLine "go" (("\t" ++ "func " ++ A ++ "(ctx context.Context, req *" ++ A ++ "Request) (*" ++ A ++ "Response, error)\x7b").data) = true := by simp [isUnitLine, trimLeft, startsWith, endsWith, List.dropWhile, List.isPrefixOf]
  have c4 : cleanChars (("rsp := &" ++ A ++ "Response\x7b\x7d").data) = true := by
    simp only [String.data_append, cleanChars_append, hA, Bool.and_true, Bool.true_and]; rfl
  have f4 : isUnitLine "go" (("rsp := &" ++ A ++ "Response\x7b\x7d").data) = false := by simp [isUnitLine, trimLeft, startsWith, endsWith, List.dropWhile, List.isPrefixOf]
  have c5 : cleanChars (("err := client.Invoke(ctx, \"" ++ p ++ "\", req, rsp)").data) = true := by
    simp only [String.data_append, cleanChars_append, hp, Bool.and_true, Bool.true_and]; rfl
  have f5 : isUnitLine "go" (("err := client.Invoke(ctx, \"" ++ p ++ "\", req, rsp)").data) = false := by simp [isUnitLine, trimLeft, startsWith, endsWith, List.dropWhile, List.isPrefixOf]
  have c6 : cleanChars (("\t// " ++ s).data) = true := by
    simp only [String.data_append, cleanChars_append, hs, Bool.and_true, Bool.true_and]; rfl
  have f6 : isUnitLine "go" (("\t// " ++ s).data) = false := by simp [isUnitLine, trimLeft, startsWith, endsWith, List.dropWhile, List.isPrefixOf]
  have c7 : cleanChars (("func " ++ A ++ "(ctx context.Context, req *" ++ A ++ "Request) (*" ++ A ++ "Response, error)\x7b").data) = true := by
    simp only [String.data_append, cleanChars_append, hA, Bool.and_true, Bool.true_and]; rfl
  have f7 : isUnitLine "go" (("func " ++ A ++ "(ctx context.Context, req *" ++ A ++ "Request) (*" ++ A ++ "Response, error)\x7b").data) = true := by simp [isUnitLine, trimLeft, startsWith, endsWith, List.dropWhile, List.isPrefixOf]
  have ftail : (splitLines ("return rsp, err\n\x7d\n\n".data)).filter (isUnitLine "go") = [] := by decide
  unfold unitLines
  by_cases hse : s = ""
  · simp only [if_neg (not_not.mpr hse)]
    have hdata : ("// This file was generated from " ++ url ++ "\npackage " ++ module ++ "\n\n" ++
        ("import \"context\"\n\tvar client apiClient\n\ttype apiClient interface \x7b\n" ++
        "\tInvoke(context.Context, string, interface\x7b\x7d, interface\x7b\x7d) error \n\t\x7d\n" ++
        "\tfunc SetApiClient(c apiClient)\x7b\n\tclient = c\n\t\x7d\n\t\n\t") ++
        ("" ++
        "func " ++ A ++ "(ctx context.Context, req *" ++ A ++ "Request) (*" ++ A ++
        "Response, error)\x7b\n" ++ "rsp := &" ++ A ++ "Response\x7b\x7d\n" ++
        "err := client.Invoke(ctx, \"" ++ p ++ "\", req, rsp)\n" ++ "return rsp, err\n" ++
        "\x7d\n\n")).data
      = ("// This file was generated from " ++ url).data ++ '\n' ::
        (("package " ++ module).data ++ '\n' ::
        (("\nimport \"context\"\n\tvar client apiClient\n\ttype apiClient interface \x7b\n" ++
        "\tInvoke(context.Context, string, interface\x7b\x7d, interface\x7b\x7d) error \n\t\x7d\n" ++
        "\tfunc SetApiClient(c apiClient)\x7b\n\tclient = c\n\t\x7d\n\t").data ++ '\n' ::
        (("\t" ++ "func " ++ A ++ "(ctx context.Context, req *" ++ A ++ "Request) (*" ++ A ++ "Response, error)\x7b").data ++ '\n' ::
        (("rsp := &" ++ A ++ "Response\x7b\x7d").data ++ '\n' ::
        (("err := client.Invoke(ctx, \"" ++ p ++ "\", req, rsp)").data ++ '\n' ::
        ("return rsp, err\n\x7d\n\n".data)))))) := by
      simp only [String.data_append, List.append_assoc]; rfl
    rw [hdata,
      filter_lines_cons _ _ _ c1,
      filter_lines_cons _ _ _ c2,
      filter_lines_block,
      filter_lines_cons _ _ _ c3,
      filter_lines_cons _ _ _ c4,
      filter_lines_cons _ _ _ c5,
      f1,
      f2,
      go_preamble_lines,
      f3,
      f4,
      f5,
      ftail]
    rfl
  · simp only [if_pos hse]
    have hdata : ("// This file was generated from " ++ url ++ "\npackage " ++ module ++ "\n\n" ++
        ("import \"context\"\n\tvar client apiClient\n\ttype apiClient interface \x7b\n" ++
        "\tInvoke(context.Context, string, interface\x7b\x7d, interface\x7b\x7d) error \n\t\x7d\n" ++
        "\tfunc SetApiClient(c apiClient)\x7b\n\tclient = c\n\t\x7d\n\t\n\t") ++
        (("// " ++ s ++ "\n") ++
        "func " ++ A ++ "(ctx context.Context, req *" ++ A ++ "Request) (*" ++ A ++
        "Response, error)\x7b\n" ++ "rsp := &" ++ A ++ "Response\x7b\x7d\n" ++
        "err := client.Invoke(ctx, \"" ++ p ++ "\", req, rsp)\n" ++ "return rsp, err\n" ++
        "\x7d\n\n")).data
      = ("// This file was generated from " ++ url).data ++ '\n' ::
        (("package " ++ module).data ++ '\n' ::
        (("\nimport \"context\"\n\tvar client apiClient\n\ttype apiClient interface \x7b\n" ++
        "\tInvoke(context.Context, string, interface\x7b\x7d, interface\x7b\x7d) error \n\t\x7d\n" ++
        "\tfunc SetApiClient(c apiClient)\x7b\n\tclient = c\n\t\x7d\n\t").data ++ '\n' ::
        (("\t// " ++ s).data ++ '\n' ::
        (("func " ++ A ++ "(ctx context.Context, req *" ++ A ++ "Request) (*" ++ A ++ "Response, error)\x7b").data ++ '\n' ::
        (("rsp := &" ++ A ++ "Response\x7b\x7d").data ++ '\n' ::
        (("err := client.Invoke(ctx, \"" ++ p ++ "\", req, rsp)").data ++ '\n' ::
        ("return rsp, err\n\x7d\n\n".data))))))) := by
      simp only [String.data_append, List.append_assoc]; rfl
    rw [hdata,
      filter_lines_cons _ _ _ c1,
      filter_lines_cons _ _ _ c2,
      filter_lines_block,
      filter_lines_cons _ _ _ c6,
      filter_lines_cons _ _ _ c7,
      filter_lines_cons _ _ _ c4,
      filter_lines_cons _ _ _ c5,
      f1,
      f2,
      go_preamble_lines,
      f6,
      f7,
      f4,
      f5,
      ftail]
    rfl

/-- The definitions of the client text of `pyGen` for one operation. -/
theorem py_unit_lines (url name req rsp p s : String)
    (hurl : noLineBreak url = true) (hname : noLineBreak name = true)
    (hreq : noLineBreak req = true) (hrsp : noLineBreak rsp = true)
    (hp : noLineBreak p = true) (hs : noLineBreak s = true) :
    unitLines "py" ("# This file was generated from " ++ url ++ "\n" ++
        ("from abc import ABCMeta, abstractmethod\n\n\nclass InvokeClass(metaclass=ABCMeta):\n" ++
        "    @abstractmethod\n    def invoke(self, path: str, req):\n        pass\n\n\n" ++
        "client: InvokeClass\n\n\ndef set_api_client(c: InvokeClass):\n    global client\n" ++
        "    client = c\n\n\n") ++
        ((if s ≠ "" then "# " ++ s ++ "\n" else "") ++
        "def " ++ name ++ "(req):\n" ++ "    # req: " ++ req ++ "\n" ++
        "    # rsp: " ++ rsp ++ "\n" ++
        "    return client.invoke(\"" ++ p ++ "\", req)\n" ++ "\n\n"))
      = ["    def invoke(self, path: str, req):", "def set_api_client(c: InvokeClass):",
         "def " ++ name ++ "(req):"] := by
  unfold noLineBreak at *
  have c1 : cleanChars (("# This file was generated from " ++ url).data) = true := by
    simp only [String.data_append, cleanChars_append, hurl, Bool.and_true, Bool.true_and]; rfl
  have f1 : isUnitLine "py" (("# This file was generated from " ++ url).data) = false := by simp [isUnitLine, trimLeft, startsWith, endsWith, List.dropWhile, List.isPrefixOf]
  have c2 : cleanChars (("def " ++ name ++ "(req):").data) = true := by
    simp only [String.data_append, cleanChars_append, hname, Bool.and_true, Bool.true_and]; rfl
  have f2 : isUnitLine "py" (("def " ++ name ++ "(req):").data) = true := by simp [isUnitLine, trimLeft, startsWith, endsWith, List.dropWhile, List.isPrefixOf]
  have c3 : cleanChars (("    # req: " ++ req).data) = true := by
    simp only [String.data_append, cleanChars_append, hreq, Bool.and_true, Bool.true_and]; rfl
  have f3 : isUnitLine "py" (("    # req: " ++ req).data) = false := by simp [isUnitLine, trimLeft, startsWith, endsWith, List.dropWhile, List.isPrefixOf]
  have c4 : cleanChars (("    # rsp: " ++ rsp).data) = true := by
    simp only [String.data_append, cleanChars_append, hrsp, Bool.and_true, Bool.true_and]; rfl
  have f4 : isUnitLine "py" (("    # rsp: " ++ rsp).data) = false := by simp [isUnitLine, trimLeft, startsWith, endsWith, List.dropWhile, List.isPrefixOf]
  have c5 : cleanChars (("    return client.invoke(\"" ++ p ++ "\", req)").data) = true := by
    simp only [String.data_append, cleanChars_append, hp, Bool.and_true, Bool.true_and]; rfl
  have f5 : isUnitLine "py" (("    return client.invoke(\"" ++ p ++ "\", req)").data) = false := by simp [isUnitLine, trimLeft, startsWith, endsWith, List.dropWhile, List.isPrefixOf]
  have c6 : cleanChars (("# " ++ s).data) = true := by
    simp only [String.data_append, cleanChars_append, hs, Bool.and_true, Bool.true_and]; rfl
  have f6 : isUnitLine "py" (("# " ++ s).data) = false := by simp [isUnitLine, trimLeft, startsWith, endsWith, List.dropWhile, List.isPrefixOf]
  have ftail : (splitLines ("\n\n".data)).filter (isUnitLine "py") = [] := by decide
  unfold unitLines
  by_cases hse : s = ""
  · simp only [if_neg (not_not.mpr hse)]
    have hdata : ("# This file was generated from " ++ url ++ "\n" ++
        ("from abc import ABCMeta, abstractmethod\n\n\nclass InvokeClass(metaclass=ABCMeta):\n" ++
        "    @abstractmethod\n    def invoke(self, path: str, req):\n        pass\n\n\n" ++
        "client: InvokeClass\n\n\ndef set_api_client(c: InvokeClass):\n    global client\n" ++
        "    client = c\n\n\n") ++
        ("" ++
        "def " ++ name ++ "(req):\n" ++ "    # req: " ++ req ++ "\n" ++
        "    # rsp: " ++ rsp ++ "\n" ++
        "    return client.invoke(\"" ++ p ++ "\", req)\n" ++ "\n\n")).data
      = ("# This file was generated from " ++ url).data ++ '\n' ::
        (("from abc import ABCMeta, abstractmethod\n\n\nclass InvokeClass(metaclass=ABCMeta):\n" ++
        "    @abstractmethod\n    def invoke(self, path: str, req):\n        pass\n\n\n" ++
        "client: InvokeClass\n\n\ndef set_api_client(c: InvokeClass):\n    global client\n" ++
        "    client = c\n\n").data ++ '\n' ::
        (("def " ++ name ++ "(req):").data ++ '\n' ::
        (("    # req: " ++ req).data ++ '\n' ::
        (("    # rsp: " ++ rsp).data ++ '\n' ::
        (("    return client.invoke(\"" ++ p ++ "\", req)").data ++ '\n' ::
        ("\n\n".data)))))) := by
      simp only [String.data_append, List.append_assoc]; rfl
    rw [hdata,
      filter_lines_cons _ _ _ c1,
      filter_lines_block,
      filter_lines_cons _ _ _ c2,
      filter_lines_cons _ _ _ c3,
      filter_lines_cons _ _ _ c4,
      filter_lines_cons _ _ _ c5,
      f1,
      py_preamble_lines,
      f2,
      f3,
      f4,
      f5,
      ftail]
    rfl
  · simp only [if_pos hse]
    have hdata : ("# This file was generated from " ++ url ++ "\n" ++
        ("from abc import ABCMeta, abstractmethod\n\n\nclass InvokeClass(metaclass=ABCMeta):\n" ++
        "    @abstractmethod\n    def invoke(self, path: str, req):\n        pass\n\n\n" ++
        "client: InvokeClass\n\n\ndef set_api_client(c: InvokeClass):\n    global client\n" ++
        "    client = c\n\n\n") ++
        (("# " ++ s ++ "\n") ++
        "def " ++ name ++ "(req):\n" ++ "    # req: " ++ req ++ "\n" ++
        "    # rsp: " ++ rsp ++ "\n" ++
        "    return client.invoke(\"" ++ p ++ "\", req)\n" ++ "\n\n")).data
      = ("# This file was generated from " ++ url).data ++ '\n' ::
        (("from abc import ABCMeta, abstractmethod\n\n\nclass InvokeClass(metaclass=ABCMeta):\n" ++
        "    @abstractmethod\n    def invoke(self, path: str, req):\n        pass\n\n\n" ++
        "client: InvokeClass\n\n\ndef set_api_client(c: InvokeClass):\n    global client\n" ++
        "    client = c\n\n").data ++ '\n' ::
        (("# " ++ s).data ++ '\n' ::
        (("def " ++ name ++ "(req):").data ++ '\n' ::
        (("    # req: " ++ req).data ++ '\n' ::
        (("    # rsp: " ++ rsp).data ++ '\n' ::
        (("    return client.invoke(\"" ++ p ++ "\", req)").data ++ '\n' ::
        ("\n\n".data))))))) := by
      simp only [String.data_append, List.append_assoc]; rfl
    rw [hdata,
      filter_lines_cons _ _ _ c1,
      filter_lines_block,
      filter_lines_cons _ _ _ c6,
      filter_lines_cons _ _ _ c2,
      filter_lines_cons _ _ _ c3,
      filter_lines_cons _ _ _ c4,
      filter_lines_cons _ _ _ c5,
      f1,
      py_preamble_lines,
      f6,
      f2,
      f3,
      f4,
      f5,
      ftail]
    rfl

/-- The definitions of the client text of `jsGen` for one operation. -/
theorem js_unit_lines (url module title name req rsp p s : String)
    (hurl : noLineBreak url = true) (hmodule : noLineBreak module = true)
    (htitle : noLineBreak title = true) (hname : noLineBreak name = true)
    (hhead : ∀ c, name.data.head? = some c → c ≠ ' ' ∧ c ≠ '\t' ∧ c ≠ '/')
    (hreq : noLineBreak req = true) (hrsp : noLineBreak rsp = true)
    (hp : noLineBreak p = true) (hs : noLineBreak s = true) :
    unitLines "js" ("// This file was generated from " ++ url ++ "\n" ++
        ("import " ++ module ++ "_client_service from \x27@/service/" ++ module ++
        "_client\x27\n\nclass " ++ (title ++ "API") ++ " \x7b\n") ++
        ((if s ≠ "" then "  // " ++ s ++ "\n" else "") ++
        "  // req: " ++ req ++ "\n" ++ "  // rsp: " ++ rsp ++ "\n" ++
        "  " ++ name ++ " = (data) => \x7b\n    return " ++ module ++
        "_client_service(\x7b\n      url: \x27" ++ p ++
        "\x27,\n      method: \x27post\x27,\n      data: data,\n    \x7d)\n  \x7d\n") ++
        ("\n\x7d\n\nexport default new " ++ (title ++ "API") ++ "()\n"))
      = ["  " ++ name ++ " = (data) => \x7b"] := by
  unfold noLineBreak at *
  have c1 : cleanChars (("// This file was generated from " ++ url).data) = true := by
    simp only [String.data_append, cleanChars_append, hurl, Bool.and_true, Bool.true_and]; rfl
  have f1 : isUnitLine "js" (("// This file was generated from " ++ url).data) = false := by simp [isUnitLine, trimLeft, startsWith, endsWith, List.dropWhile, List.isPrefixOf]
  have c2 : cleanChars (("import " ++ module ++ "_client_service from \x27@/service/" ++ module ++ "_client\x27").data) = true := by
    simp only [String.data_append, cleanChars_append, hmodule, Bool.and_true, Bool.true_and]; rfl
  have f2 : isUnitLine "js" (("import " ++ module ++ "_client_service from \x27@/service/" ++ module ++ "_client\x27").data) = false := by simp [isUnitLine, trimLeft, startsWith, endsWith, List.dropWhile, List.isPrefixOf]
  have c3 : cleanChars ("".data) = true := by
    simp only [String.data_append, cleanChars_append, Bool.and_true, Bool.true_and]; rfl
  have f3 : isUnitLine "js" ("".data) = false := by simp [isUnitLine, trimLeft, startsWith, endsWith, List.dropWhile, List.isPrefixOf]
  have c4 : cleanChars (("class " ++ (title ++ "API") ++ " \x7b").data) = true := by
    simp only [String.data_append, cleanChars_append, htitle, Bool.and_true, Bool.true_and]; rfl
  have f4 : isUnitLine "js" (("class " ++ (title ++ "API") ++ " \x7b").data) = false := by simp [isUnitLine, trimLeft, startsWith, endsWith, List.dropWhile, List.isPrefixOf]
  have c5 : cleanChars (("  // req: " ++ req).data) = true := by
    simp only [String.data_append, cleanChars_append, hreq, Bool.and_true, Bool.true_and]; rfl
  have f5 : isUnitLine "js" (("  // req: " ++ req).data) = false := by simp [isUnitLine, trimLeft, startsWith, endsWith, List.dropWhile, List.isPrefixOf]
  have c6 : cleanChars (("  // rsp: " ++ rsp).data) = true := by
    simp only [String.data_append, cleanChars_append, hrsp, Bool.and_true, Bool.true_and]; rfl
  have f6 : isUnitLine "js" (("  // rsp: " ++ rsp).data) = false := by simp [isUnitLine, trimLeft, startsWith, endsWith, List.dropWhile, List.isPrefixOf]
  have c7 : cleanChars (("  " ++ name ++ " = (data) => \x7b").data) = true := by
    simp only [String.data_append, cleanChars_append, hname, Bool.and_true, Bool.true_and]; rfl
  have f7 : isUnitLine "js" (("  " ++ name ++ " = (data) => \x7b").data) = true := by
    have hns : startsWith "//" (trimLeft (("  " ++ name ++ " = (data) => \x7b").data)) = false := by
      cases hn : name.data with
      | nil => simp [trimLeft, startsWith, List.dropWhile, hn, List.isPrefixOf]
      | cons c rest =>
        have hc := hhead c (by simp [hn])
        simp [trimLeft, startsWith, List.dropWhile, hn, hc, List.isPrefixOf, Ne.symm hc.2.2]
    rw [isUnitLine, if_neg (by decide), if_neg (by decide), hns]
    simp [endsWith]
  have c8 : cleanChars (("    return " ++ module ++ "_client_service(\x7b").data) = true := by
    simp only [String.data_append, cleanChars_append, hmodule, Bool.and_true, Bool.true_and]; rfl
  have f8 : isUnitLine "js" (("    return " ++ module ++ "_client_service(\x7b").data) = false := by simp [isUnitLine, trimLeft, startsWith, endsWith, List.dropWhile, List.isPrefixOf]
  have c9 : cleanChars (("      url: \x27" ++ p ++ "\x27,").data) = true := by
    simp only [String.data_append, cleanChars_append, hp, Bool.and_true, Bool.true_and]; rfl
  have f9 : isUnitLine "js" (("      url: \x27" ++ p ++ "\x27,").data) = false := by simp [isUnitLine, trimLeft, startsWith, endsWith, List.dropWhile, List.isPrefixOf]
  have c10 : cleanChars (("export default new " ++ (title ++ "API") ++ "()").data) = true := by
    simp only [String.data_append, cleanChars_append, htitle, Bool.and_true, Bool.true_and]; rfl
  have f10 : isUnitLine "js" (("export default new " ++ (title ++ "API") ++ "()").data) = false := by simp [isUnitLine, trimLeft, startsWith, endsWith, List.dropWhile, List.isPrefixOf]
  have c11 : cleanChars (("  // " ++ s).data) = true := by
    simp only [String.data_append, cleanChars_append, hs, Bool.and_true, Bool.true_and]; rfl
  have f11 : isUnitLine "js" (("  // " ++ s).data) = false := by simp [isUnitLine, trimLeft, startsWith, endsWith, List.dropWhile, List.isPrefixOf]
  have ftail : (splitLines ("".data)).filter (isUnitLine "js") = [] := by decide
  unfold unitLines
  by_cases hse : s = ""
  · simp only [if_neg (not_not.mpr hse)]
    have hdata : ("// This file was generated from " ++ url ++ "\n" ++
        ("import " ++ module ++ "_client_service from \x27@/service/" ++ module ++
        "_client\x27\n\nclass " ++ (title ++ "API") ++ " \x7b\n") ++
        ("" ++
        "  // req: " ++ req ++ "\n" ++ "  // rsp: " ++ rsp ++ "\n" ++
        "  " ++ name ++ " = (data) => \x7b\n    return " ++ module ++
        "_client_service(\x7b\n      url: \x27" ++ p ++
        "\x27,\n      method: \x27post\x27,\n      data: data,\n    \x7d)\n  \x7d\n") ++
        ("\n\x7d\n\nexport default new " ++ (title ++ "API") ++ "()\n")).data
      = ("// This file was generated from " ++ url).data ++ '\n' ::
        (("import " ++ module ++ "_client_service from \x27@/service/" ++ module ++ "_client\x27").data ++ '\n' ::
        ("".data ++ '\n' ::
        (("class " ++ (title ++ "API") ++ " \x7b").data ++ '\n' ::
        (("  // req: " ++ req).data ++ '\n' ::
        (("  // rsp: " ++ rsp).data ++ '\n' ::
        (("  " ++ name ++ " = (data) => \x7b").data ++ '\n' ::
        (("    return " ++ module ++ "_client_service(\x7b").data ++ '\n' ::
        (("      url: \x27" ++ p ++ "\x27,").data ++ '\n' ::
        (("      method: \x27post\x27,\n      data: data,\n    \x7d)\n  \x7d\n\n\x7d\n").data ++ '\n' ::
        (("export default new " ++ (title ++ "API") ++ "()").data ++ '\n' ::
        ("".data))))))))))) := by
      simp only [String.data_append, List.append_assoc]; rfl
    rw [hdata,
      filter_lines_cons _ _ _ c1,
      filter_lines_cons _ _ _ c2,
      filter_lines_cons _ _ _ c3,
      filter_lines_cons _ _ _ c4,
      filter_lines_cons _ _ _ c5,
      filter_lines_cons _ _ _ c6,
      filter_lines_cons _ _ _ c7,
      filter_lines_cons _ _ _ c8,
      filter_lines_cons _ _ _ c9,
      filter_lines_block,
      filter_lines_cons _ _ _ c10,
      f1,
      f2,
      f3,
      f4,
      f5,
      f6,
      f7,
      f8,
      f9,
      js_body_lines,
      f10,
      ftail]
    rfl
  · simp only [if_pos hse]
    have hdata : ("// This file was generated from " ++ url ++ "\n" ++
        ("import " ++ module ++ "_client_service from \x27@/service/" ++ module ++
        "_client\x27\n\nclass " ++ (title ++ "API") ++ " \x7b\n") ++
        (("  // " ++ s ++ "\n") ++
        "  // req: " ++ req ++ "\n" ++ "  // rsp: " ++ rsp ++ "\n" ++
        "  " ++ name ++ " = (data) => \x7b\n    return " ++ module ++
        "_client_service(\x7b\n      url: \x27" ++ p ++
        "\x27,\n      method: \x27post\x27,\n      data: data,\n    \x7d)\n  \x7d\n") ++
        ("\n\x7d\n\nexport default new " ++ (title ++ "API") ++ "()\n")).data
      = ("// This file was generated from " ++ url).data ++ '\n' ::
        (("import " ++ module ++ "_client_service from \x27@/service/" ++ module ++ "_client\x27").data ++ '\n' ::
        ("".data ++ '\n' ::
        (("class " ++ (title ++ "API") ++ " \x7b").data ++ '\n' ::
        (("  // " ++ s).data ++ '\n' ::
        (("  // req: " ++ req).data ++ '\n' ::
        (("  // rsp: " ++ rsp).data ++ '\n' ::
        (("  " ++ name ++ " = (data) => \x7b").data ++ '\n' ::
        (("    return " ++ module ++ "_client_service(\x7b").data ++ '\n' ::
        (("      url: \x27" ++ p ++ "\x27,").data ++ '\n' ::
        (("      method: \x27post\x27,\n      data: data,\n    \x7d)\n  \x7d\n\n\x7d\n").data ++ '\n' ::
        (("export default new " ++ (title ++ "API") ++ "()").data ++ '\n' ::
        ("".data)))))))))))) := by
      simp only [String.data_append, List.append_assoc]; rfl
    rw [hdata,
      filter_lines_cons _ _ _ c1,
      filter_lines_cons _ _ _ c2,
      filter_lines_cons _ _ _ c3,
      filter_lines_cons _ _ _ c4,
      filter_lines_cons _ _ _ c11,
      filter_lines_cons _ _ _ c5,
      filter_lines_cons _ _ _ c6,
      filter_lines_cons _ _ _ c7,
      filter_lines_cons _ _ _ c8,
      filter_lines_cons _ _ _ c9,
      filter_lines_block,
      filter_lines_cons _ _ _ c10,
      f1,
      f2,
      f3,
      f4,
      f11,
      f5,
      f6,
      f7,
      f8,
      f9,
      js_body_lines,
      f10,
      ftail]
    rfl

/-! ## A filter with one operation -/

/-- With pairwise distinct operation ids, a non-empty filter that holds the id of `post`
only leaves the one operation `post` to render. -/
theorem renderedOperations_single (doc : T) (operations : List String) (A p : String)
    (post : Operation) (hnd : (GoMap.keys doc.Paths).Nodup)
    (hdistinct : ∀ p1 post1 p2 post2, (p1, PathItem.mk (some post1)) ∈ doc.Paths →
      (p2, PathItem.mk (some post2)) ∈ doc.Paths →
      post1.OperationID = post2.OperationID → p1 = p2)
    (hne : operations ≠ []) (hfilter : ∀ o ∈ operations, o = A)
    (hmem : (p, PathItem.mk (some post)) ∈ doc.Paths) (hA : post.OperationID = A) :
    renderedOperations doc operations = [(p, post)] := by
  have hAin : A ∈ operations := by
    cases operations with
    | nil => exact absurd rfl hne
    | cons a rest =>
      rw [← hfilter a (List.mem_cons_self _ _)]
      exact List.mem_cons_self _ _
  apply eq_singleton_of_forall_eq _ _ (renderedOperations_nodup doc hnd operations)
  · exact (mem_renderedOperations doc hnd operations p post).mpr
      ⟨hmem, Or.inr (by rw [hA]; exact hAin)⟩
  · rintro ⟨q, post1⟩ hq
    obtain ⟨hmem1, hin⟩ := (mem_renderedOperations doc hnd operations q post1).mp hq
    have hid : post1.OperationID = A := by
      rcases hin with h | h
      · exact absurd h hne
      · exact hfilter _ h
    have hqp : q = p := hdistinct q post1 p post hmem1 hmem (by rw [hid, hA])
    subst hqp
    have h1 := GoMap.get_of_mem _ _ _ hnd hmem1
    have h2 := GoMap.get_of_mem _ _ _ hnd hmem
    rw [h1] at h2
    simp only [Option.some.injEq, PathItem.mk.injEq] at h2
    rw [h2]

theorem renderUnits_single (unit : String → Operation → Except Panic String) (p : String)
    (post : Operation) (t : String) (h : unit p post = .ok t) :
    renderUnits unit [(p, post)] = .ok t := by
  simp [renderUnits, h]

theorem join_single (t : String) : String.join [t] = t := by
  rw [join_cons]
  exact String.append_empty t

/-- C8. Take a document that has components, pairwise distinct paths and POST operations
with pairwise distinct operation ids, let `post` be the POST operation of the path `p` and
`A` its operation id, and take a non-empty filter that holds `A` only. When the model
part succeeds (under `py` and `js` also the two examples of `A`, under `js` the name of
`A`), the run of `main` writes the model file and then the client file, and the client
text (under `go` the text handed to `format.Source`) is the header, the preamble and the
text of the one operation `A` (and the footer under `js`), as written out below. When
moreover the URL, the module, the class name, the name of `A`, the path, the summary and
the examples hold no line feed (and the `js` name opens with no blank, tab or slash), the
definitions of that text are those of the preamble (`func SetApiClient` under `go`,
`def invoke` and `def set_api_client` under `py`, none under `js`) and exactly one more,
the definition of `A`. -/
theorem client_single_operation (env : Env) (operations : List String)
    (module openapiURL : String) (doc : T) (comps : Components) (A p : String)
    (post : Operation)
    (hcomps : doc.Components = some comps) (hnd : (GoMap.keys doc.Paths).Nodup)
    (hdistinct : ∀ p1 post1 p2 post2, (p1, PathItem.mk (some post1)) ∈ doc.Paths →
      (p2, PathItem.mk (some post2)) ∈ doc.Paths →
      post1.OperationID = post2.OperationID → p1 = p2)
    (hne : operations ≠ []) (hfilter : ∀ o ∈ operations, o = A)
    (hmem : (p, PathItem.mk (some post)) ∈ doc.Paths) (hA : post.OperationID = A) :
    (∀ model m, goGenModel env doc (sortStrings (GoMap.keys comps.Schemas))
        ("// This file was generated from " ++ openapiURL ++ "\npackage " ++ module ++ "\n\n") = .ok model →
      env.formatSource model = some m →
      ∃ text, text = "// This file was generated from " ++ openapiURL ++ "\npackage " ++ module ++ "\n\n" ++
        ("import \"context\"\n\tvar client apiClient\n\ttype apiClient interface \x7b\n" ++
        "\tInvoke(context.Context, string, interface\x7b\x7d, interface\x7b\x7d) error \n\t\x7d\n" ++
        "\tfunc SetApiClient(c apiClient)\x7b\n\tclient = c\n\t\x7d\n\t\n\t") ++
        ((if post.Summary ≠ "" then "// " ++ post.Summary ++ "\n" else "") ++
        "func " ++ A ++ "(ctx context.Context, req *" ++ A ++ "Request) (*" ++ A ++
        "Response, error)\x7b\n" ++ "rsp := &" ++ A ++ "Response\x7b\x7d\n" ++
        "err := client.Invoke(ctx, \"" ++ p ++ "\", req, rsp)\n" ++ "return rsp, err\n" ++
        "\x7d\n\n") ∧
        main env operations module "go" openapiURL doc
          = (match env.formatSource text with
            | none => Run.mk [(module ++ ".model.gen.go", m)] [] (some .formatError)
            | some c =>
              Run.mk [(module ++ ".model.gen.go", m), (module ++ ".client.gen.go", c)] [] none) ∧
        (noLineBreak openapiURL = true → noLineBreak module = true → noLineBreak A = true →
          noLineBreak p = true → noLineBreak post.Summary = true →
          unitLines "go" text = ["\tfunc SetApiClient(c apiClient)\x7b",
            (if post.Summary ≠ "" then "" else "\t") ++ "func " ++ A ++ "(ctx context.Context, req *" ++ A ++ "Request) (*" ++ A ++ "Response, error)\x7b"])) ∧
    (∀ model req rsp, commentModel "#" "py" doc (sortStrings (GoMap.keys comps.Schemas))
        ("# This file was generated from " ++ openapiURL ++ "\n" ++ "\n") = .ok model →
      schemaExample doc (A ++ "Request") "py" = .ok req →
      schemaExample doc (A ++ "Response") "py" = .ok rsp →
      ∃ text, text = "# This file was generated from " ++ openapiURL ++ "\n" ++
        ("from abc import ABCMeta, abstractmethod\n\n\nclass InvokeClass(metaclass=ABCMeta):\n" ++
        "    @abstractmethod\n    def invoke(self, path: str, req):\n        pass\n\n\n" ++
        "client: InvokeClass\n\n\ndef set_api_client(c: InvokeClass):\n    global client\n" ++
        "    client = c\n\n\n") ++
        ((if post.Summary ≠ "" then "# " ++ post.Summary ++ "\n" else "") ++
        "def " ++ toName env A "py" ++ "(req):\n" ++ "    # req: " ++ req ++ "\n" ++
        "    # rsp: " ++ rsp ++ "\n" ++
        "    return client.invoke(\"" ++ p ++ "\", req)\n" ++ "\n\n") ∧
        main env operations module "py" openapiURL doc
          = Run.mk [(module ++ "_model.py", model), (module ++ "_client.py", text)] [] none ∧
        (noLineBreak openapiURL = true → noLineBreak (toName env A "py") = true →
          noLineBreak req = true → noLineBreak rsp = true → noLineBreak p = true →
          noLineBreak post.Summary = true →
          unitLines "py" text = ["    def invoke(self, path: str, req):", "def set_api_client(c: InvokeClass):",
            "def " ++ toName env A "py" ++ "(req):"])) ∧
    (∀ model req rsp name, commentModel "//" "js" doc (sortStrings (GoMap.keys comps.Schemas))
        ("// This file was generated from " ++ openapiURL ++ "\n" ++ "\n") = .ok model →
      schemaExample doc (A ++ "Request") "js" = .ok req →
      schemaExample doc (A ++ "Response") "js" = .ok rsp →
      lowerFirst env A = .ok name →
      ∃ text, text = "// This file was generated from " ++ openapiURL ++ "\n" ++
        ("import " ++ module ++ "_client_service from \x27@/service/" ++ module ++
        "_client\x27\n\nclass " ++ (env.title module ++ "API") ++ " \x7b\n") ++
        ((if post.Summary ≠ "" then "  // " ++ post.Summary ++ "\n" else "") ++
        "  // req: " ++ req ++ "\n" ++ "  // rsp: " ++ rsp ++ "\n" ++
        "  " ++ name ++ " = (data) => \x7b\n    return " ++ module ++
        "_client_service(\x7b\n      url: \x27" ++ p ++
        "\x27,\n      method: \x27post\x27,\n      data: data,\n    \x7d)\n  \x7d\n") ++
        ("\n\x7d\n\nexport default new " ++ (env.title module ++ "API") ++ "()\n") ∧
        main env operations module "js" openapiURL doc
          = Run.mk [(module ++ "_model.js", model), (module ++ "_client.js", text)] [] none ∧
        (noLineBreak openapiURL = true → noLineBreak module = true →
          noLineBreak (env.title module) = true → noLineBreak name = true →
          (∀ c, name.data.head? = some c → c ≠ ' ' ∧ c ≠ '\t' ∧ c ≠ '/') →
          noLineBreak req = true → noLineBreak rsp = true → noLineBreak p = true →
          noLineBreak post.Summary = true →
          unitLines "js" text = ["  " ++ name ++ " = (data) => \x7b"])) := by
  subst hA
  have hone := renderedOperations_single doc operations post.OperationID p post hnd hdistinct
    hne hfilter hmem rfl
  have hknown : ∀ o ∈ operations, ∃ p post, (p, PathItem.mk (some post)) ∈ doc.Paths ∧
      post.OperationID = o := fun o ho => ⟨p, post, hmem, (hfilter o ho).symm⟩
  obtain ⟨hgo, hpy, hjs⟩ := emitters_eq env operations module openapiURL doc
    (sortStrings (GoMap.keys comps.Schemas)) hnd
  refine ⟨?_, ?_, ?_⟩
  · intro model m hmodel hfmt
    refine ⟨_, rfl, ?_, ?_⟩
    · rw [main_dispatch env operations module "go" openapiURL doc comps hcomps hknown,
        if_pos rfl, hgo, hone,
        show goGenModel env doc (sortStrings (GoMap.keys comps.Schemas))
          (goHeader openapiURL module) = .ok model from hmodel]
      simp only [hfmt, List.map_cons, List.map_nil, join_single]
      rfl
    · intro h1 h2 h3 h4 h5
      exact go_unit_lines openapiURL module post.OperationID p post.Summary h1 h2 h3 h4 h5
  · intro model req rsp hmodel hreq hrsp
    have hunit : pyClientUnit env doc p post = .ok
        ((if post.Summary ≠ "" then "# " ++ post.Summary ++ "\n" else "") ++
        "def " ++ toName env post.OperationID "py" ++ "(req):\n" ++ "    # req: " ++ req ++ "\n" ++
        "    # rsp: " ++ rsp ++ "\n" ++
        "    return client.invoke(\"" ++ p ++ "\", req)\n" ++ "\n\n") := by
      unfold pyClientUnit
      simp only [hreq, hrsp]
    refine ⟨_, rfl, ?_, ?_⟩
    · rw [main_dispatch env operations module "py" openapiURL doc comps hcomps hknown,
        if_neg (by decide), if_neg (by decide), if_pos rfl, hpy, hone,
        show commentModel "#" "py" doc (sortStrings (GoMap.keys comps.Schemas))
          (pyHeader openapiURL ++ "\n") = .ok model from hmodel,
        renderUnits_single _ _ _ _ hunit]
      rfl
    · intro h1 h2 h3 h4 h5 h6
      exact py_unit_lines openapiURL (toName env post.OperationID "py") req rsp p post.Summary
        h1 h2 h3 h4 h5 h6
  · intro model req rsp name hmodel hreq hrsp hname
    have hunit : jsClientUnit env module doc p post = .ok
        ((if post.Summary ≠ "" then "  // " ++ post.Summary ++ "\n" else "") ++
        "  // req: " ++ req ++ "\n" ++ "  // rsp: " ++ rsp ++ "\n" ++
        "  " ++ name ++ " = (data) => \x7b\n    return " ++ module ++
        "_client_service(\x7b\n      url: \x27" ++ p ++
        "\x27,\n      method: \x27post\x27,\n      data: data,\n    \x7d)\n  \x7d\n") := by
      unfold jsClientUnit
      simp only [hreq, hrsp, hname]
    refine ⟨_, rfl, ?_, ?_⟩
    · rw [main_dispatch env operations module "js" openapiURL doc comps hcomps hknown,
        if_neg (by decide), if_pos rfl, hjs, hone,
        show commentModel "//" "js" doc (sortStrings (GoMap.keys comps.Schemas))
          (jsHeader openapiURL ++ "\n") = .ok model from hmodel,
        renderUnits_single _ _ _ _ hunit]
      rfl
    · intro h1 h2 h3 h4 h5 h6 h7 h8 h9
      exact js_unit_lines openapiURL module (env.title module) name req rsp p post.Summary
        h1 h2 h3 h4 h5 h6 h7 h8 h9

set_option maxRecDepth 100000 in
/-- The witness of C8: the filter `A` on `twoOpsDoc`. Under each of the three languages
the run writes the model file and a client file with the one operation `A`. -/
theorem client_single_operation_witness :
    (∃ text, text = ("// This file was generated from u\npackage client\n\nimport \"context\"\n" ++
        "\tvar client apiClient\n\ttype apiClient interface \x7b\n" ++
        "\tInvoke(context.Context, string, interface\x7b\x7d, interface\x7b\x7d) error \n" ++
        "\t\x7d\n\tfunc SetApiClient(c apiClient)\x7b\n\tclient = c\n\t\x7d\n\t\n\t// List\n" ++
        "func A(ctx context.Context, req *ARequest) (*AResponse, error)\x7b\n" ++
        "rsp := &AResponse\x7b\x7d\nerr := client.Invoke(ctx, \"/a\", req, rsp)\n" ++
        "return rsp, err\n\x7d\n\n") ∧
      main asciiEnv ["A"] "client" "go" "u" twoOpsDoc
        = Run.mk [("client.model.gen.go", ("// This file was generated from u\npackage client\n\ntype ARequest struct\x7b\n" ++
        "\x7d\n\ntype AResponse struct\x7b\n\x7d\n\ntype BRequest struct\x7b\n\x7d\n\n" ++
        "type BResponse struct\x7b\n\x7d\n\n")),
            ("client.client.gen.go", text)] [] none ∧
      unitLines "go" text = ["\tfunc SetApiClient(c apiClient)\x7b",
        "func A(ctx context.Context, req *ARequest) (*AResponse, error)\x7b"]) ∧
    (∃ text, text = ("# This file was generated from u\nfrom abc import ABCMeta, abstractmethod\n\n\n" ++
        "class InvokeClass(metaclass=ABCMeta):\n    @abstractmethod\n" ++
        "    def invoke(self, path: str, req):\n        pass\n\n\nclient: InvokeClass\n\n\n" ++
        "def set_api_client(c: InvokeClass):\n    global client\n    client = c\n\n\n# List\n" ++
        "def a(req):\n    # req: \x7b\x7d\n    # rsp: \x7b\x7d\n" ++
        "    return client.invoke(\"/a\", req)\n\n\n") ∧
      main asciiEnv ["A"] "client" "py" "u" twoOpsDoc
        = Run.mk [("client_model.py", ("# This file was generated from u\n\n# ARequest: \x7b\x7d\n# AResponse: \x7b\x7d\n" ++
        "# BRequest: \x7b\x7d\n# BResponse: \x7b\x7d\n")),
            ("client_client.py", text)] [] none ∧
      unitLines "py" text = ["    def invoke(self, path: str, req):",
        "def set_api_client(c: InvokeClass):", "def a(req):"]) ∧
    (∃ text, text = ("// This file was generated from u\n" ++
        "import client_client_service from \x27@/service/client_client\x27\n\n" ++
        "class ClientAPI \x7b\n  // List\n  // req: \x7b\x7d\n  // rsp: \x7b\x7d\n" ++
        "  a = (data) => \x7b\n    return client_client_service(\x7b\n" ++
        "      url: \x27/a\x27,\n      method: \x27post\x27,\n      data: data,\n    \x7d)\n" ++
        "  \x7d\n\n\x7d\n\nexport default new ClientAPI()\n") ∧
      main asciiEnv ["A"] "client" "js" "u" twoOpsDoc
        = Run.mk [("client_model.js", ("// This file was generated from u\n\n// ARequest: \x7b\x7d\n// AResponse: \x7b\x7d\n" ++
        "// BRequest: \x7b\x7d\n// BResponse: \x7b\x7d\n")),
            ("client_client.js", text)] [] none ∧
      unitLines "js" text = ["  a = (data) => \x7b"]) := by
  obtain ⟨hgo, hpy, hjs⟩ := client_single_operation asciiEnv ["A"] "client" "u" twoOpsDoc
    twoOpsComponents "A" "/a" (Operation.mk "A" "List") rfl (by decide)
    (by
      intro p1 post1 p2 post2 h1 h2 hid
      simp only [twoOpsDoc, List.mem_cons, Prod.mk.injEq, PathItem.mk.injEq, Option.some.injEq,
        List.mem_singleton, reduceCtorEq, and_false, or_false, List.not_mem_nil] at h1 h2
      rcases h1 with ⟨e1, f1⟩ | ⟨e1, f1⟩ <;> rcases h2 with ⟨e2, f2⟩ | ⟨e2, f2⟩ <;>
        subst e1 <;> subst e2 <;> subst f1 <;> subst f2 <;>
        first | rfl | (exact absurd hid (by decide)))
    (by decide) (by simp) (by simp [twoOpsDoc]) rfl
  refine ⟨?_, ?_, ?_⟩
  · obtain ⟨text, ht, hm, hu⟩ := hgo
      ("// This file was generated from u\npackage client\n\ntype ARequest struct\x7b\n" ++
        "\x7d\n\ntype AResponse struct\x7b\n\x7d\n\ntype BRequest struct\x7b\n\x7d\n\n" ++
        "type BResponse struct\x7b\n\x7d\n\n")
      ("// This file was generated from u\npackage client\n\ntype ARequest struct\x7b\n" ++
        "\x7d\n\ntype AResponse struct\x7b\n\x7d\n\ntype BRequest struct\x7b\n\x7d\n\n" ++
        "type BResponse struct\x7b\n\x7d\n\n") (by decide) rfl
    have hc := ht.trans (show _ = ("// This file was generated from u\npackage client\n\nimport \"context\"\n" ++
        "\tvar client apiClient\n\ttype apiClient interface \x7b\n" ++
        "\tInvoke(context.Context, string, interface\x7b\x7d, interface\x7b\x7d) error \n" ++
        "\t\x7d\n\tfunc SetApiClient(c apiClient)\x7b\n\tclient = c\n\t\x7d\n\t\n\t// List\n" ++
        "func A(ctx context.Context, req *ARequest) (*AResponse, error)\x7b\n" ++
        "rsp := &AResponse\x7b\x7d\nerr := client.Invoke(ctx, \"/a\", req, rsp)\n" ++
        "return rsp, err\n\x7d\n\n") from by decide)
    subst hc
    exact ⟨_, rfl, hm.trans (by decide),
      (hu (by decide) (by decide) (by decide) (by decide) (by decide)).trans (by decide)⟩
  · obtain ⟨text, ht, hm, hu⟩ := hpy
      ("# This file was generated from u\n\n# ARequest: \x7b\x7d\n# AResponse: \x7b\x7d\n" ++
        "# BRequest: \x7b\x7d\n# BResponse: \x7b\x7d\n") "\x7b\x7d" "\x7b\x7d" (by decide) (by decide) (by decide)
    have hc := ht.trans (show _ = ("# This file was generated from u\nfrom abc import ABCMeta, abstractmethod\n\n\n" ++
        "class InvokeClass(metaclass=ABCMeta):\n    @abstractmethod\n" ++
        "    def invoke(self, path: str, req):\n        pass\n\n\nclient: InvokeClass\n\n\n" ++
        "def set_api_client(c: InvokeClass):\n    global client\n    client = c\n\n\n# List\n" ++
        "def a(req):\n    # req: \x7b\x7d\n    # rsp: \x7b\x7d\n" ++
        "    return client.invoke(\"/a\", req)\n\n\n") from by decide)
    subst hc
    exact ⟨_, rfl, hm.trans (by decide),
      (hu (by decide) (by decide) (by decide) (by decide) (by decide) (by decide)).trans
        (by decide)⟩
  · obtain ⟨text, ht, hm, hu⟩ := hjs
      ("// This file was generated from u\n\n// ARequest: \x7b\x7d\n// AResponse: \x7b\x7d\n" ++
        "// BRequest: \x7b\x7d\n// BResponse: \x7b\x7d\n") "\x7b\x7d" "\x7b\x7d" "a" (by decide) (by decide) (by decide) (by decide)
    have hc := ht.trans (show _ = ("// This file was generated from u\n" ++
        "import client_client_service from \x27@/service/client_client\x27\n\n" ++
        "class ClientAPI \x7b\n  // List\n  // req: \x7b\x7d\n  // rsp: \x7b\x7d\n" ++
        "  a = (data) => \x7b\n    return client_client_service(\x7b\n" ++
        "      url: \x27/a\x27,\n      method: \x27post\x27,\n      data: data,\n    \x7d)\n" ++
        "  \x7d\n\n\x7d\n\nexport default new ClientAPI()\n") from by decide)
    subst hc
    exact ⟨_, rfl, hm.trans (by decide),
      (hu (by decide) (by decide) (by decide) (by decide)
        (by
          intro c hc
          have hca : c = 'a' := by
            simpa using hc.symm
          subst hca
          decide)
        (by decide) (by decide) (by decide) (by decide)).trans (by decide)⟩

set_option maxRecDepth 100000 in
/-- The counterexample of C8: the one operation `A` of `multiLineDoc` has a summary of
three lines, the second and third being a definition. Under `py` the client file of the
filter `A` holds two definitions after those of the preamble: `y`, which comes from the
summary, and `a`. -/
theorem client_single_operation_counterexample :
    main asciiEnv ["A"] "client" "py" "u" multiLineDoc
      = Run.mk [("client_model.py",
            "# This file was generated from u\n\n# ARequest: \x7b\x7d\n# AResponse: \x7b\x7d\n"),
          ("client_client.py", ("# This file was generated from u\nfrom abc import ABCMeta, abstractmethod\n\n\n" ++
        "class InvokeClass(metaclass=ABCMeta):\n    @abstractmethod\n" ++
        "    def invoke(self, path: str, req):\n        pass\n\n\nclient: InvokeClass\n\n\n" ++
        "def set_api_client(c: InvokeClass):\n    global client\n    client = c\n\n\n# x\n" ++
        "def y(req):\n    pass\ndef a(req):\n    # req: \x7b\x7d\n    # rsp: \x7b\x7d\n" ++
        "    return client.invoke(\"/a\", req)\n\n\n"))] [] none ∧
    unitLines "py" ("# This file was generated from u\nfrom abc import ABCMeta, abstractmethod\n\n\n" ++
        "class InvokeClass(metaclass=ABCMeta):\n    @abstractmethod\n" ++
        "    def invoke(self, path: str, req):\n        pass\n\n\nclient: InvokeClass\n\n\n" ++
        "def set_api_client(c: InvokeClass):\n    global client\n    client = c\n\n\n# x\n" ++
        "def y(req):\n    pass\ndef a(req):\n    # req: \x7b\x7d\n    # rsp: \x7b\x7d\n" ++
        "    return client.invoke(\"/a\", req)\n\n\n")
      = ["    def invoke(self, path: str, req):", "def set_api_client(c: InvokeClass):",
         "def y(req):", "def a(req):"] :=
  ⟨by decide, by decide⟩

/-! ## `getSchemaExample` -/

theorem exampleTitle_eq (p : Option SchemaRef) :
    exampleTitle p = if fieldTitle p = "" then "" else " " ++ fieldTitle p := by
  unfold exampleTitle fieldTitle
  split
  · by_cases h : Schema.Title ‹Schema› = "" <;> simp [h]
  · simp

/-- The loop of `getSchemaExample` appends the entries of the keys, separated by a
comma and a blank, when `toType` succeeds on every key. -/
theorem exampleLoop_eq (props : GoMap SchemaRef) (req : GoMap Bool) (lang : String)
    (tys : String → String) (n : Nat) (l : List String) (i : Nat) (ret : String)
    (hlen : i + l.length = n)
    (hty : ∀ k ∈ l, toTypePtr (GoMap.get props k) lang = .ok (tys k)) :
    exampleLoop props req lang n i l ret =
      .ok (ret ++ joinSep ", " (l.map (fun k =>
        exampleEntry k (tys k) (GoMap.test req k) (fieldTitle (GoMap.get props k))))) := by
  induction l generalizing i ret with
  | nil => simp [exampleLoop, joinSep]
  | cons k rest ih =>
    have hk := hty k (List.mem_cons_self _ _)
    have hrest : ∀ q ∈ rest, toTypePtr (GoMap.get props q) lang = .ok (tys q) :=
      fun q hq => hty q (List.mem_cons_of_mem _ hq)
    rw [exampleLoop, hk]
    simp only [bind, Except.bind]
    rw [ih (i + 1) _ (by simp only [List.length_cons] at hlen; omega) hrest]
    congr 1
    cases rest with
    | nil =>
      have hi : i + 1 = n := by simpa using hlen
      simp only [hi, ne_eq, not_true_eq_false, if_false, List.map_nil, joinSep, List.map_cons]
      cases GoMap.test req k <;>
        simp [exampleEntry, exampleTitle_eq, String.append_assoc]
    | cons k2 rest2 =>
      have hi : i + 1 ≠ n := by
        simp only [List.length_cons] at hlen
        omega
      simp only [hi, ne_eq, not_false_eq_true, if_true, List.map_cons, joinSep]
      cases GoMap.test req k <;>
        simp [exampleEntry, exampleTitle_eq, String.append_assoc]

/-- C10, as the code has it. For a schema that is no reference and a language in which
`toType` maps every property `k` to `tys k`, `getSchemaExample` returns an opening
brace, the entries of the keys in the order of `getRequiredFirstKeys` joined by a comma
and a blank, and a closing brace; the entry of a field `f` with title `t` is
`"f": "type T(required). t"` when `f` is required and `"f": "type T. t"` when it is
optional, and for a field without title it ends at the period: `"f": "type T(required)."`
and `"f": "type T."`. A schema without properties gives the two braces. -/
theorem getSchemaExample_entries (s : Schema) (lang : String) (tys : String → String)
    (hty : ∀ k ∈ GoMap.keys s.Properties,
      toTypePtr (GoMap.get s.Properties k) lang = .ok (tys k)) :
    ∃ allKeys requiredKeys,
      getRequiredFirstKeys (.mk "" (some s)) = .ok (allKeys, requiredKeys) ∧
      getSchemaExample (some (.mk "" (some s))) lang =
        .ok ("\x7b" ++ joinSep ", " (allKeys.map (fun f =>
          exampleEntry f (tys f) (GoMap.test requiredKeys f)
            (fieldTitle (GoMap.get s.Properties f)))) ++ "\x7d") ∧
      (∀ f ty t, t ≠ "" →
        exampleEntry f ty true t = "\"" ++ f ++ "\": \"type " ++ ty ++ "(required). " ++ t ++ "\"" ∧
        exampleEntry f ty false t = "\"" ++ f ++ "\": \"type " ++ ty ++ ". " ++ t ++ "\"") ∧
      (∀ f ty,
        exampleEntry f ty true "" = "\"" ++ f ++ "\": \"type " ++ ty ++ "(required).\"" ∧
        exampleEntry f ty false "" = "\"" ++ f ++ "\": \"type " ++ ty ++ ".\"") ∧
      (s.Properties = [] → getSchemaExample (some (.mk "" (some s))) lang = .ok "\x7b\x7d") := by
  have hkeys := getRequiredFirstKeys_eq "" s
  have hall : ∀ k ∈ (sortStrings s.Properties.keys).filter (fun k => decide (k ∈ s.Required)) ++
      (sortStrings s.Properties.keys).filter (fun k => !decide (k ∈ s.Required)),
      toTypePtr (GoMap.get s.Properties k) lang = .ok (tys k) := by
    intro k hk
    apply hty
    rcases List.mem_append.mp hk with h | h
    · exact mem_sortStrings.mp (List.mem_filter.mp h).1
    · exact mem_sortStrings.mp (List.mem_filter.mp h).1
  have hex : getSchemaExample (some (.mk "" (some s))) lang =
      .ok ("\x7b" ++ joinSep ", "
        (((sortStrings s.Properties.keys).filter (fun k => decide (k ∈ s.Required)) ++
          (sortStrings s.Properties.keys).filter (fun k => !decide (k ∈ s.Required))).map
          (fun f => exampleEntry f (tys f) (GoMap.test (markAll [] s.Required) f)
            (fieldTitle (GoMap.get s.Properties f)))) ++ "\x7d") := by
    simp only [getSchemaExample, SchemaRef.Ref, SchemaRef.Value, ne_eq, not_true_eq_false,
      if_false, hkeys, bind, Except.bind]
    rw [exampleLoop_eq _ _ _ tys _ _ 0 _ (by simp) hall]
  refine ⟨_, _, hkeys, hex, ?_, ?_, ?_⟩
  · intro f ty t ht
    have e1 : ∀ x : String, "(required). " ++ x = "(required)." ++ (" " ++ x) :=
      fun x => String.append_assoc "(required)." " " x
    have e2 : ∀ x : String, ". " ++ x = "." ++ (" " ++ x) :=
      fun x => String.append_assoc "." " " x
    constructor <;> simp [exampleEntry, ht, String.append_assoc, e1, e2]
  · intro f ty
    constructor <;> simp [exampleEntry, String.append_assoc]
  · intro hp
    rw [hex, hp]
    rfl

/-- The witness of C10: a schema with the required field `name`, of type `string`
with the title `The name`, and the optional field `count`, of type `integer` without
title, under `py`. -/
theorem getSchemaExample_entries_witness :
    getSchemaExample (some (.mk "" (some (.mk "object" ""
        [("name", .mk "" (some (.mk "string" "The name" [] [] none none))),
         ("count", .mk "" (some (.mk "integer" "" [] [] none none)))]
        ["name"] none none)))) "py"
      = .ok "\x7b\"name\": \"type str(required). The name\", \"count\": \"type int.\"\x7d" ∧
    ∃ allKeys requiredKeys,
      getRequiredFirstKeys (.mk "" (some (.mk "object" ""
        [("name", .mk "" (some (.mk "string" "The name" [] [] none none))),
         ("count", .mk "" (some (.mk "integer" "" [] [] none none)))]
        ["name"] none none))) = .ok (allKeys, requiredKeys) ∧
      getSchemaExample (some (.mk "" (some (.mk "object" ""
        [("name", .mk "" (some (.mk "string" "The name" [] [] none none))),
         ("count", .mk "" (some (.mk "integer" "" [] [] none none)))]
        ["name"] none none)))) "py" =
        .ok ("\x7b" ++ joinSep ", " (allKeys.map (fun f =>
          exampleEntry f (if f = "name" then "str" else "int") (GoMap.test requiredKeys f)
            (fieldTitle (GoMap.get
              [("name", SchemaRef.mk "" (some (.mk "string" "The name" [] [] none none))),
               ("count", SchemaRef.mk "" (some (.mk "integer" "" [] [] none none)))] f)))) ++
          "\x7d") :=
  ⟨by decide,
   match getSchemaExample_entries (.mk "object" ""
        [("name", .mk "" (some (.mk "string" "The name" [] [] none none))),
         ("count", .mk "" (some (.mk "integer" "" [] [] none none)))]
        ["name"] none none) "py" (fun f => if f = "name" then "str" else "int")
      (by
        intro k hk
        simp only [GoMap.keys, Schema.Properties, List.map_cons, List.map_nil, List.mem_cons,
          List.mem_singleton, List.not_mem_nil, or_false] at hk
        rcases hk with h | h <;> subst h <;> decide) with
   | ⟨allKeys, requiredKeys, h1, h2, _⟩ => ⟨allKeys, requiredKeys, h1, h2⟩⟩

/-- C10 as stated fails: for a schema with the one field `id`, required, of type
`integer` and without title, on which `toType` succeeds under `py`, the text of
`getSchemaExample` is not the text with the entry `"id": "type int(required). "`, in
which a blank follows the period. -/
theorem getSchemaExample_no_title_counterexample :
    toTypePtr (GoMap.get [("id", SchemaRef.mk "" (some (.mk "integer" "" [] [] none none)))] "id")
      "py" = .ok "int" ∧
    (getRequiredFirstKeys (.mk "" (some (.mk "object" ""
      [("id", .mk "" (some (.mk "integer" "" [] [] none none)))] ["id"] none none)))).map Prod.fst
      = .ok ["id"] ∧
    getSchemaExample (some (.mk "" (some (.mk "object" ""
      [("id", .mk "" (some (.mk "integer" "" [] [] none none)))] ["id"] none none)))) "py"
      = .ok "\x7b\"id\": \"type int(required).\"\x7d" ∧
    getSchemaExample (some (.mk "" (some (.mk "object" ""
      [("id", .mk "" (some (.mk "integer" "" [] [] none none)))] ["id"] none none)))) "py"
      ≠ .ok ("\x7b" ++ joinSep ", " [specExampleEntry "id" "int" true ""] ++ "\x7d") := by
  decide

/-! ## The scenarios -/

/-- C11, as the code has it. For the schema `Widget` with the properties `name`,
`count`, `note` and `Required = [name, count]`, `getRequiredFirstKeys` returns the order
`count`, `name`, `note` (the required names ascending, then the optional one), and
marks `name` and `count` as required and `note` as not required; the model text of
`goGen` and the line of `getSchemaExample` list the fields in that order, `count` and
`name` with the required mark and `note` without. -/
theorem widget_field_order (env : Env) :
    getRequiredFirstKeys widgetSchema
      = .ok (["count", "name", "note"], markAll [] ["name", "count"]) ∧
    GoMap.test (markAll [] ["name", "count"]) "name" = true ∧
    GoMap.test (markAll [] ["name", "count"]) "count" = true ∧
    GoMap.test (markAll [] ["name", "count"]) "note" = false ∧
    goGenModel env (T.mk [] (some (Components.mk [("Widget", widgetSchema)]))) ["Widget"] ""
      = .ok ("type Widget struct\x7b\n// Required. \n" ++ env.titleNoLower "count" ++ " int64\n" ++
          "// Required. \n" ++ env.titleNoLower "name" ++ " string\n" ++
          env.titleNoLower "note" ++ " string\n\x7d\n\n") ∧
    getSchemaExample (some widgetSchema) "py"
      = .ok ("\x7b\"count\": \"type int(required).\", \"name\": \"type str(required).\", " ++
          "\"note\": \"type str.\"\x7d") := by
  have hk : getRequiredFirstKeys widgetSchema
      = .ok (["count", "name", "note"], markAll [] ["name", "count"]) := by decide
  refine ⟨hk, by decide, by decide, by decide, ?_, by decide⟩
  have h1 : GoMap.test (markAll [] ["name", "count"]) "name" = true := by decide
  have h2 : GoMap.test (markAll [] ["name", "count"]) "count" = true := by decide
  have h3 : GoMap.test (markAll [] ["name", "count"]) "note" = false := by decide
  have hs : (T.mk [] (some (Components.mk [("Widget", widgetSchema)]))).schema "Widget"
      = .ok (some widgetSchema) := rfl
  simp only [goGenModel, hs, getRequiredFirstKeysPtr, hk]
  have g1 : GoMap.get (match some widgetSchema with
        | some (.mk _ (some s)) => s.Properties
        | _ => []) "count" = some (.mk "" (some (.mk "integer" "" [] [] none none))) := rfl
  have g2 : GoMap.get (match some widgetSchema with
        | some (.mk _ (some s)) => s.Properties
        | _ => []) "name" = some (.mk "" (some (.mk "string" "" [] [] none none))) := rfl
  have g3 : GoMap.get (match some widgetSchema with
        | some (.mk _ (some s)) => s.Properties
        | _ => []) "note" = some (.mk "" (some (.mk "string" "" [] [] none none))) := rfl
  have t1 : toType (.mk "" (some (.mk "integer" "" [] [] none none))) "go" = .ok "int64" := by
    decide
  have t2 : toType (.mk "" (some (.mk "string" "" [] [] none none))) "go" = .ok "string" := by
    decide
  simp only [goFields, g1, g2, g3, h1, h2, h3, SchemaRef.Value, Schema.Title, t1, t2, toName]
  simp [String.append_assoc]

/-- C11 as stated fails: the order that `getRequiredFirstKeys` returns for `Widget` is
not `name`, `count`, `note`. -/
theorem widget_field_order_counterexample :
    (getRequiredFirstKeys widgetSchema).map Prod.fst ≠ .ok ["name", "count", "note"] ∧
    (getRequiredFirstKeys widgetSchema).map Prod.fst = .ok ["count", "name", "note"] := by
  decide

/-- C12, as the code has it. For the document without paths whose components hold no
schema, and the empty filter, no emitter panics. Under `py` and `js` the run writes both
files: the model text is the generated-from line and one empty line; the client text is
the generated-from line and the preamble of the language (under `py` the abstract class
`InvokeClass`, the variable `client` and its setter; under `js` the import and the
opening of the class, then the footer), without any operation. Under `go` the model text
is the generated-from line and the package clause, and the client text is these and the
preamble (the interface `apiClient`, the variable `client` and its setter); the run writes
what `format.Source` makes of them, and stops when `format.Source` rejects a text. For
the document without paths that has no components at all, `main` ends with the panic of
a nil dereference, under every language, and writes nothing. -/
theorem empty_document_texts (env : Env) (module openapiURL : String) :
    main env [] module "py" openapiURL emptyDoc
      = Run.mk [(module ++ "_model.py", "# This file was generated from " ++ openapiURL ++ "\n" ++ "\n"),
          (module ++ "_client.py", "# This file was generated from " ++ openapiURL ++ "\n" ++
        ("from abc import ABCMeta, abstractmethod\n\n\nclass InvokeClass(metaclass=ABCMeta):\n" ++
        "    @abstractmethod\n    def invoke(self, path: str, req):\n        pass\n\n\n" ++
        "client: InvokeClass\n\n\ndef set_api_client(c: InvokeClass):\n    global client\n" ++
        "    client = c\n\n\n"))] [] none ∧
    main env [] module "js" openapiURL emptyDoc
      = Run.mk [(module ++ "_model.js", "// This file was generated from " ++ openapiURL ++ "\n" ++ "\n"),
          (module ++ "_client.js", "// This file was generated from " ++ openapiURL ++ "\n" ++
        ("import " ++ module ++ "_client_service from \x27@/service/" ++ module ++
        "_client\x27\n\nclass " ++ (env.title module ++ "API") ++ " \x7b\n") ++
        ("\n\x7d\n\nexport default new " ++ (env.title module ++ "API") ++ "()\n"))] [] none ∧
    goGenModel env emptyDoc [] ("// This file was generated from " ++ openapiURL ++ "\npackage " ++ module ++ "\n\n")
      = .ok ("// This file was generated from " ++ openapiURL ++ "\npackage " ++ module ++ "\n\n") ∧
    main env [] module "go" openapiURL emptyDoc
      = (match env.formatSource ("// This file was generated from " ++ openapiURL ++ "\npackage " ++ module ++ "\n\n") with
        | none => Run.mk [] [] (some .formatError)
        | some model =>
          match env.formatSource ("// This file was generated from " ++ openapiURL ++ "\npackage " ++ module ++ "\n\n" ++
        ("import \"context\"\n\tvar client apiClient\n\ttype apiClient interface \x7b\n" ++
        "\tInvoke(context.Context, string, interface\x7b\x7d, interface\x7b\x7d) error \n\t\x7d\n" ++
        "\tfunc SetApiClient(c apiClient)\x7b\n\tclient = c\n\t\x7d\n\t\n\t")) with
          | none => Run.mk [(module ++ ".model.gen.go", model)] [] (some .formatError)
          | some client =>
            Run.mk [(module ++ ".model.gen.go", model), (module ++ ".client.gen.go", client)]
              [] none) ∧
    (∀ lang, main env [] module lang openapiURL (T.mk [] none)
      = Run.mk [] [] (some .nilDeref)) := by
  refine ⟨rfl, rfl, rfl, ?_, fun _ => rfl⟩
  have h : main env [] module "go" openapiURL emptyDoc
      = goGen env openapiURL module [] [] emptyDoc [] := rfl
  rw [h]
  unfold goGen
  have hm : goGenModel env emptyDoc [] (goHeader openapiURL module)
      = .ok ("// This file was generated from " ++ openapiURL ++ "\npackage " ++ module ++ "\n\n") := rfl
  have hc : goGenClient openapiURL module [] emptyDoc []
      = .ok ("// This file was generated from " ++ openapiURL ++ "\npackage " ++ module ++ "\n\n" ++
        ("import \"context\"\n\tvar client apiClient\n\ttype apiClient interface \x7b\n" ++
        "\tInvoke(context.Context, string, interface\x7b\x7d, interface\x7b\x7d) error \n\t\x7d\n" ++
        "\tfunc SetApiClient(c apiClient)\x7b\n\tclient = c\n\t\x7d\n\t\n\t")) := rfl
  rw [hm, hc]
  dsimp only
  cases env.formatSource ("// This file was generated from " ++ openapiURL ++ "\npackage " ++ module ++ "\n\n") with
  | none => rfl
  | some model =>
    dsimp only
    cases env.formatSource ("// This file was generated from " ++ openapiURL ++ "\npackage " ++ module ++ "\n\n" ++
        ("import \"context\"\n\tvar client apiClient\n\ttype apiClient interface \x7b\n" ++
        "\tInvoke(context.Context, string, interface\x7b\x7d, interface\x7b\x7d) error \n\t\x7d\n" ++
        "\tfunc SetApiClient(c apiClient)\x7b\n\tclient = c\n\t\x7d\n\t\n\t")) with
    | none => rfl
    | some client => rfl

/-- C12 as stated fails: for the empty document under `py` the run writes a client text
that is not the generated-from line alone, it carries the preamble, and a model text
with an empty line after the generated-from line; under `go` and `js` the client texts
carry a preamble too; and with a filter the run on the empty document ends with
`missing operation`. -/
theorem empty_document_counterexample :
    main asciiEnv [] "client" "py" "u" emptyDoc
      = Run.mk [("client_model.py", "# This file was generated from u\n\n"),
          ("client_client.py", "# This file was generated from u\n" ++
        ("from abc import ABCMeta, abstractmethod\n\n\nclass InvokeClass(metaclass=ABCMeta):\n" ++
        "    @abstractmethod\n    def invoke(self, path: str, req):\n        pass\n\n\n" ++
        "client: InvokeClass\n\n\ndef set_api_client(c: InvokeClass):\n    global client\n" ++
        "    client = c\n\n\n"))] [] none ∧
    ("# This file was generated from u\n" ++
        ("from abc import ABCMeta, abstractmethod\n\n\nclass InvokeClass(metaclass=ABCMeta):\n" ++
        "    @abstractmethod\n    def invoke(self, path: str, req):\n        pass\n\n\n" ++
        "client: InvokeClass\n\n\ndef set_api_client(c: InvokeClass):\n    global client\n" ++
        "    client = c\n\n\n")) ≠ "# This file was generated from u\n" ∧
    ("# This file was generated from u\n\n" : String) ≠ "# This file was generated from u\n" ∧
    goGenClient "u" "client" [] emptyDoc []
      ≠ .ok "// This file was generated from u\npackage client\n\n" ∧
    jsGenClient asciiEnv "u" "client" [] emptyDoc [] ≠ .ok "// This file was generated from u\n" ∧
    main asciiEnv ["A"] "client" "py" "u" emptyDoc
      = Run.mk [] ["missing operation A\n"] none := by
  refine ⟨rfl, ?_, ?_, ?_, ?_, rfl⟩
  · decide
  · decide
  · decide
  · decide

/-! ## References and maps in `toType` -/

/-- C13, as the code has it. `toType` maps a reference `#/components/schemas/<name>` to
`*<name>` under `go` and to `<name>` under `py` and `js` also when the document has no
schema of that name: it reads the reference only, never the schema set. -/
theorem toType_reference_absent (doc : T) (name : String) (v : Option Schema)
    (habsent : ∀ comps, doc.Components = some comps → GoMap.get comps.Schemas name = none) :
    toType (.mk ("#/components/schemas/" ++ name) v) "go" = .ok ("*" ++ name) ∧
    toType (.mk ("#/components/schemas/" ++ name) v) "py" = .ok name ∧
    toType (.mk ("#/components/schemas/" ++ name) v) "js" = .ok name := by
  have _ := habsent
  have hne : "#/components/schemas/" ++ name ≠ "" :=
    append_ne_empty_of_ne_empty _ _ (by decide)
  refine ⟨?_, ?_, ?_⟩ <;> rw [toType_ref _ _ _ hne, trimPrefix_append] <;> rfl

/-- The witness of C13: a reference to `Missing` in the document without schemas. -/
theorem toType_reference_absent_witness :
    (∀ comps, emptyDoc.Components = some comps → GoMap.get comps.Schemas "Missing" = none) ∧
    toType (.mk ("#/components/schemas/" ++ "Missing") none) "go" = .ok ("*" ++ "Missing") ∧
    toType (.mk ("#/components/schemas/" ++ "Missing") none) "py" = .ok "Missing" ∧
    toType (.mk ("#/components/schemas/" ++ "Missing") none) "js" = .ok "Missing" :=
  ⟨fun comps h => by cases h; rfl,
   toType_reference_absent emptyDoc "Missing" none (fun comps h => by cases h; rfl)⟩

/-- C13 as stated fails: in the document without schemas, `toType` on a reference to
`Missing` under `go` returns the type string `*Missing`; it does not fail. -/
theorem toType_reference_absent_counterexample :
    emptyDoc.schema "Missing" = .ok none ∧
    toType (.mk "#/components/schemas/Missing" none) "go" = .ok "*Missing" ∧
    ¬ ∃ e, toType (.mk "#/components/schemas/Missing" none) "go" = .error e := by
  refine ⟨rfl, by decide, ?_⟩
  rintro ⟨e, he⟩
  have h : toType (.mk "#/components/schemas/Missing" none) "go" = .ok "*Missing" := by decide
  rw [h] at he
  cases he

/-- C20. On a node that is no reference, of type `object` and without value schema,
`toType` returns `map[string]` under `go`, `Dict[str, ]` under `py` and `map[string, ]`
under `js`; with a value schema `x` that `toType` maps to `t` it returns `map[string]t`,
`Dict[str, t]` and `map[string, t]`. -/
theorem toType_object (ti : String) (pr : List (String × SchemaRef)) (rq : List String)
    (it : Option SchemaRef) :
    toType (.mk "" (some (.mk "object" ti pr rq it none))) "go" = .ok "map[string]" ∧
    toType (.mk "" (some (.mk "object" ti pr rq it none))) "py" = .ok "Dict[str, ]" ∧
    toType (.mk "" (some (.mk "object" ti pr rq it none))) "js" = .ok "map[string, ]" ∧
    (∀ x t, toType x "go" = .ok t →
      toType (.mk "" (some (.mk "object" ti pr rq it (some x)))) "go"
        = .ok ("map[string]" ++ t)) ∧
    (∀ x t, toType x "py" = .ok t →
      toType (.mk "" (some (.mk "object" ti pr rq it (some x)))) "py"
        = .ok ("Dict[str, " ++ t ++ "]")) ∧
    (∀ x t, toType x "js" = .ok t →
      toType (.mk "" (some (.mk "object" ti pr rq it (some x)))) "js"
        = .ok ("map[string, " ++ t ++ "]")) := by
  have hoa : ¬ ("object" : String) = "array" := by decide
  refine ⟨?_, ?_, ?_, ?_, ?_, ?_⟩
  · rw [toType_value]; rfl
  · rw [toType_value]; rfl
  · rw [toType_value]; rfl
  · intro x t ht
    rw [toType_value]
    simp only [ht, if_true, if_neg hoa]
    rfl
  · intro x t ht
    rw [toType_value]
    simp only [ht, if_true, if_neg hoa]
    rfl
  · intro x t ht
    rw [toType_value]
    simp only [ht, if_true, if_neg hoa]
    rfl

/-- The witness of C20: an object whose values are integers, under the three languages. -/
theorem toType_object_witness :
    toType (.mk "" (some (.mk "object" "" [] [] none none))) "py" = .ok "Dict[str, ]" ∧
    toType (.mk "" (some (.mk "object" "" [] [] none
      (some (.mk "" (some (.mk "integer" "" [] [] none none))))))) "go" = .ok "map[string]int64" ∧
    toType (.mk "" (some (.mk "object" "" [] [] none
      (some (.mk "" (some (.mk "integer" "" [] [] none none))))))) "py" = .ok "Dict[str, int]" ∧
    toType (.mk "" (some (.mk "object" "" [] [] none
      (some (.mk "" (some (.mk "integer" "" [] [] none none))))))) "js" = .ok "map[string, int]" :=
  ⟨(toType_object "" [] [] none).2.1,
   (toType_object "" [] [] none).2.2.2.1 _ "int64" (by decide),
   (toType_object "" [] [] none).2.2.2.2.1 _ "int" (by decide),
   (toType_object "" [] [] none).2.2.2.2.2 _ "int" (by decide)⟩

/-! ## The name of a unit under `js` -/

/-- C16, as the code has it. Under `js`, `toName` is the identity, but `jsGen` does not
call it: the text of an operation names the unit `strings.ToLower(op[:1]) + op[1:]`. On
the empty operation id this panics; on an operation id that starts with an ASCII rune it
is the operation id with that rune in lower case, so it is the operation id itself
exactly when the rune is no upper-case letter. -/
theorem js_unit_name (env : Env) (module : String) (doc : T) (path : String) (post : Operation) :
    (∀ name, toName env name "js" = name) ∧
    lowerFirst env "" = .error .sliceBounds ∧
    (∀ c rest, c.toNat < 128 →
      lowerFirst env (String.mk (c :: rest))
        = .ok (String.mk ((if isUpperAZ c then Char.ofNat (c.toNat + 32) else c) :: rest))) ∧
    (∀ c rest, c.toNat < 128 →
      (lowerFirst env (String.mk (c :: rest)) = .ok (String.mk (c :: rest))
        ↔ isUpperAZ c = false)) ∧
    (∀ text, jsClientUnit env module doc path post = .ok text →
      ∃ req rsp name, lowerFirst env post.OperationID = .ok name ∧
        text = (if post.Summary ≠ "" then "  // " ++ post.Summary ++ "\n" else "") ++
          "  // req: " ++ req ++ "\n" ++ "  // rsp: " ++ rsp ++ "\n" ++
          "  " ++ name ++ " = (data) => \x7b\n    return " ++ module ++
          "_client_service(\x7b\n      url: \x27" ++ path ++
          "\x27,\n      method: \x27post\x27,\n      data: data,\n    \x7d)\n  \x7d\n") := by
  have hlow : ∀ c rest, c.toNat < 128 →
      lowerFirst env (String.mk (c :: rest))
        = .ok (String.mk ((if isUpperAZ c then Char.ofNat (c.toNat + 32) else c) :: rest)) := by
    intro c rest hc
    simp only [lowerFirst, hc, if_true, toLowerRune]
  refine ⟨?_, rfl, hlow, ?_, ?_⟩
  · intro name
    simp [toName]
  · intro c rest hc
    rw [hlow c rest hc]
    constructor
    · intro h
      cases hu : isUpperAZ c with
      | false => rfl
      | true =>
        rw [hu] at h
        simp only [if_true, Except.ok.injEq] at h
        have hd := congrArg String.data h
        simp only [List.cons.injEq, and_true] at hd
        have h2 := toNat_ofNat_add_32 c hu
        rw [hd] at h2
        omega
    · intro h
      rw [h]
      simp
  · intro text ht
    unfold jsClientUnit at ht
    cases hreq : schemaExample doc (post.OperationID ++ "Request") "js" with
    | error e => simp [hreq] at ht
    | ok req =>
      cases hrsp : schemaExample doc (post.OperationID ++ "Response") "js" with
      | error e => simp [hreq, hrsp] at ht
      | ok rsp =>
        cases hname : lowerFirst env post.OperationID with
        | error e => simp [hreq, hrsp, hname] at ht
        | ok name =>
          simp only [hreq, hrsp, hname, Except.ok.injEq] at ht
          exact ⟨req, rsp, name, rfl, ht.symm⟩

/-- The witness of C16: the operation `ListExample` of `listDoc`. -/
theorem js_unit_name_witness :
    lowerFirst asciiEnv (String.mk ('L' :: "istExample".data)) = .ok "listExample" ∧
    (lowerFirst asciiEnv (String.mk ('l' :: "istExample".data)) = .ok "listExample"
      ↔ isUpperAZ 'l' = false) ∧
    ∃ req rsp name, lowerFirst asciiEnv "ListExample" = .ok name ∧
      ("  // req: \x7b\x7d\n  // rsp: \x7b\x7d\n  listExample = (data) => \x7b\n" ++
        "    return client_client_service(\x7b\n      url: \x27/list\x27,\n" ++
        "      method: \x27post\x27,\n      data: data,\n    \x7d)\n  \x7d\n")
      = (if (Operation.mk "ListExample" "").Summary ≠ "" then
            "  // " ++ (Operation.mk "ListExample" "").Summary ++ "\n" else "") ++
          "  // req: " ++ req ++ "\n" ++ "  // rsp: " ++ rsp ++ "\n" ++
          "  " ++ name ++ " = (data) => \x7b\n    return " ++ "client" ++
          "_client_service(\x7b\n      url: \x27" ++ "/list" ++
          "\x27,\n      method: \x27post\x27,\n      data: data,\n    \x7d)\n  \x7d\n" :=
  ⟨(js_unit_name asciiEnv "client" listDoc "/list" (Operation.mk "ListExample" "")).2.2.1
      'L' "istExample".data (by decide),
   (js_unit_name asciiEnv "client" listDoc "/list" (Operation.mk "ListExample" "")).2.2.2.1
      'l' "istExample".data (by decide),
   (js_unit_name asciiEnv "client" listDoc "/list" (Operation.mk "ListExample" "")).2.2.2.2
      _ (by decide)⟩

/-- C16 as stated fails: for the operation `ListExample` the unit of the client text
of `jsGen` is named `listExample`, which is not the operation id. -/
theorem js_unit_name_counterexample :
    toName asciiEnv "ListExample" "js" = "ListExample" ∧
    lowerFirst asciiEnv "ListExample" = .ok "listExample" ∧
    ("listExample" : String) ≠ "ListExample" ∧
    jsClientUnit asciiEnv "client" listDoc "/list" (Operation.mk "ListExample" "")
      = .ok ("  // req: \x7b\x7d\n  // rsp: \x7b\x7d\n  listExample = (data) => \x7b\n" ++
        "    return client_client_service(\x7b\n      url: \x27/list\x27,\n" ++
        "      method: \x27post\x27,\n      data: data,\n    \x7d)\n  \x7d\n") ∧
    jsClientUnit asciiEnv "client" listDoc "/list" (Operation.mk "ListExample" "")
      ≠ .ok ("  // req: \x7b\x7d\n  // rsp: \x7b\x7d\n  ListExample = (data) => \x7b\n" ++
        "    return client_client_service(\x7b\n      url: \x27/list\x27,\n" ++
        "      method: \x27post\x27,\n      data: data,\n    \x7d)\n  \x7d\n") := by
  refine ⟨by decide, by decide, by decide, by decide, by decide⟩

/-! ## Enumeration order -/

instance : IsAntisymm String strLe where
  antisymm _ _ hab hba := String.ext (runesLess_connex hba hab)

/-- The result of `sort.Strings` depends on the elements only, not on their order. -/
theorem sortStrings_eq_of_perm {l1 l2 : List String} (h : l1.Perm l2) :
    sortStrings l1 = sortStrings l2 :=
  List.eq_of_perm_of_sorted
    (((sortStrings_perm l1).trans h).trans (sortStrings_perm l2).symm)
    (sortStrings_sorted l1) (sortStrings_sorted l2)

theorem postOperations_perm {paths1 paths2 : GoMap PathItem} (h : paths1.Perm paths2) :
    (postOperations paths1).Perm (postOperations paths2) :=
  h.filterMap _

/-- C17. Let two property maps have key lists that are rearrangements of one another,
and two `Required` lists hold the same names (in any order, with any repetition). Then
`getRequiredFirstKeys` returns the same key list for both, and maps that mark the same
names. And for two enumerations of the schema map and of the path map, `main` computes
the same sorted list of schema names and the same sorted list of POST paths. -/
theorem enumeration_order_irrelevant (ref ty ti : String) (props1 props2 : GoMap SchemaRef)
    (req1 req2 : List String) (it ap : Option SchemaRef) (paths1 paths2 : GoMap PathItem)
    (schemas1 schemas2 : GoMap SchemaRef)
    (hprops : (GoMap.keys props1).Perm (GoMap.keys props2))
    (hreq : ∀ k, k ∈ req1 ↔ k ∈ req2)
    (hpaths : paths1.Perm paths2)
    (hschemas : (GoMap.keys schemas1).Perm (GoMap.keys schemas2)) :
    (getRequiredFirstKeys (.mk ref (some (.mk ty ti props1 req1 it ap)))).map Prod.fst
      = (getRequiredFirstKeys (.mk ref (some (.mk ty ti props2 req2 it ap)))).map Prod.fst ∧
    (∀ k, GoMap.test (markAll [] req1) k = GoMap.test (markAll [] req2) k) ∧
    sortStrings (GoMap.keys schemas1) = sortStrings (GoMap.keys schemas2) ∧
    sortStrings (collectPost paths1 ([], [])).1 = sortStrings (collectPost paths2 ([], [])).1 := by
  have hdec : (fun k => decide (k ∈ req1)) = (fun k => decide (k ∈ req2)) := by
    funext k
    simp [hreq k]
  have hdec2 : (fun k => !decide (k ∈ req1)) = (fun k => !decide (k ∈ req2)) := by
    funext k
    simp [hreq k]
  refine ⟨?_, ?_, sortStrings_eq_of_perm hschemas, ?_⟩
  · rw [getRequiredFirstKeys_eq, getRequiredFirstKeys_eq]
    simp only [Schema.Properties, Schema.Required, Except.map]
    rw [sortStrings_eq_of_perm hprops, hdec, hdec2]
  · intro k
    rw [test_markAll_nil, test_markAll_nil]
    simp [hreq k]
  · rw [collectPost_eq, collectPost_eq]
    simp only [List.nil_append]
    exact sortStrings_eq_of_perm ((postOperations_perm hpaths).map _)

/-- The witness of C17: the properties `b`, `a` against `a`, `b`, the list `[a, a]`
against `[a]`, and two paths in both orders. -/
theorem enumeration_order_irrelevant_witness :
    (getRequiredFirstKeys (.mk "" (some (.mk "object" ""
        [("b", .mk "" none), ("a", .mk "" none)] ["a", "a"] none none)))).map Prod.fst
      = (getRequiredFirstKeys (.mk "" (some (.mk "object" ""
        [("a", .mk "" none), ("b", .mk "" none)] ["a"] none none)))).map Prod.fst ∧
    (∀ k, GoMap.test (markAll [] ["a", "a"]) k = GoMap.test (markAll [] ["a"]) k) ∧
    sortStrings (GoMap.keys [("Y", SchemaRef.mk "" none), ("X", SchemaRef.mk "" none)])
      = sortStrings (GoMap.keys [("X", SchemaRef.mk "" none), ("Y", SchemaRef.mk "" none)]) ∧
    sortStrings (collectPost [("/b", PathItem.mk (some (Operation.mk "B" ""))),
        ("/a", PathItem.mk (some (Operation.mk "A" "")))] ([], [])).1
      = sortStrings (collectPost [("/a", PathItem.mk (some (Operation.mk "A" ""))),
        ("/b", PathItem.mk (some (Operation.mk "B" "")))] ([], [])).1 :=
  enumeration_order_irrelevant "" "object" ""
    [("b", .mk "" none), ("a", .mk "" none)] [("a", .mk "" none), ("b", .mk "" none)]
    ["a", "a"] ["a"] none none
    [("/b", PathItem.mk (some (Operation.mk "B" ""))),
      ("/a", PathItem.mk (some (Operation.mk "A" "")))]
    [("/a", PathItem.mk (some (Operation.mk "A" ""))),
      ("/b", PathItem.mk (some (Operation.mk "B" "")))]
    [("Y", SchemaRef.mk "" none), ("X", SchemaRef.mk "" none)]
    [("X", SchemaRef.mk "" none), ("Y", SchemaRef.mk "" none)]
    (List.Perm.swap _ _ _) (by simp) (List.Perm.swap _ _ _) (List.Perm.swap _ _ _)

/-! ## The checks of `main` -/

/-- C18, as the code has it. For a language other than `go`, `js` and `py`, `main`
writes no file, whatever the document and the filter are. When the filter holds a name
that is the operation id of no POST operation, `main` prints `missing operation` for a
name of the filter: the switch on the language is the last step of `main`. When every
name of the filter is the operation id of a POST operation (so for the empty filter) and
the document has components, `main` prints `Unsupported lang` and does not panic; when
the document has no components, `main` then ends with the panic of a nil dereference,
before the switch, and prints nothing. -/
theorem main_unsupported_lang (env : Env) (operations : List String)
    (module lang openapiURL : String) (doc : T)
    (hlang : lang ≠ "go" ∧ lang ≠ "js" ∧ lang ≠ "py") :
    (main env operations module lang openapiURL doc).files = [] ∧
    ((∀ o ∈ operations, ∃ p post, (p, PathItem.mk (some post)) ∈ doc.Paths ∧
        post.OperationID = o) →
      ∀ comps, doc.Components = some comps →
      main env operations module lang openapiURL doc
        = Run.mk [] ["Unsupported lang " ++ lang ++ "\n"] none) ∧
    ((∃ o ∈ operations, ∀ p post, (p, PathItem.mk (some post)) ∈ doc.Paths →
        post.OperationID ≠ o) →
      ∃ op ∈ operations, main env operations module lang openapiURL doc
        = Run.mk [] ["missing operation " ++ op ++ "\n"] none) ∧
    ((∀ o ∈ operations, ∃ p post, (p, PathItem.mk (some post)) ∈ doc.Paths ∧
        post.OperationID = o) →
      doc.Components = none →
      main env operations module lang openapiURL doc = Run.mk [] [] (some .nilDeref)) := by
  obtain ⟨hgo, hjs, hpy⟩ := hlang
  have hnil : (∀ o ∈ operations, ∃ p post, (p, PathItem.mk (some post)) ∈ doc.Paths ∧
        post.OperationID = o) →
      doc.Components = none →
      main env operations module lang openapiURL doc = Run.mk [] [] (some .nilDeref) := by
    intro hknown hc
    rw [main_eq, (find_missing_eq_none operations doc.Paths).mpr hknown, hc]
  have hcases : (∀ o ∈ operations, ∃ p post, (p, PathItem.mk (some post)) ∈ doc.Paths ∧
        post.OperationID = o) →
      ∀ comps, doc.Components = some comps →
      main env operations module lang openapiURL doc
        = Run.mk [] ["Unsupported lang " ++ lang ++ "\n"] none := by
    intro hknown comps hc
    rw [main_eq, (find_missing_eq_none operations doc.Paths).mpr hknown, hc]
    simp only [if_neg hgo, if_neg hjs, if_neg hpy]
  have hsome : ∀ op, (markAll [] operations).keys.find?
      (fun op => !GoMap.test (collectPost doc.Paths ([], [])).2 op) = some op →
      main env operations module lang openapiURL doc
        = Run.mk [] ["missing operation " ++ op ++ "\n"] none := by
    intro op hop
    rw [main_eq, hop]
  cases hf : (markAll [] operations).keys.find?
      (fun op => !GoMap.test (collectPost doc.Paths ([], [])).2 op) with
  | none =>
    have hknown := (find_missing_eq_none operations doc.Paths).mp hf
    refine ⟨?_, hcases, ?_, hnil⟩
    · cases hc : doc.Components with
      | none =>
        rw [main_eq, hf, hc]
      | some comps => rw [hcases hknown comps hc]
    · rintro ⟨o, ho, hun⟩
      obtain ⟨p, post, hmem, hid⟩ := hknown o ho
      exact absurd hid (hun p post hmem)
  | some op =>
    refine ⟨?_, hcases, ?_, hnil⟩
    · rw [hsome op hf]
    · intro _
      exact ⟨op, find_missing_mem _ _ _ hf, hsome op hf⟩

/-- The witness of C18: the language `rust` on `listDoc`, with the filter
`ListExample` and with the filter `Nope`, and on the document without paths and
without components. -/
theorem main_unsupported_lang_witness :
    main asciiEnv ["ListExample"] "client" "rust" "u" listDoc
      = Run.mk [] ["Unsupported lang " ++ "rust" ++ "\n"] none ∧
    main asciiEnv [] "client" "rust" "u" (T.mk [] none) = Run.mk [] [] (some .nilDeref) ∧
    ∃ op ∈ ["Nope"], main asciiEnv ["Nope"] "client" "rust" "u" listDoc
      = Run.mk [] ["missing operation " ++ op ++ "\n"] none :=
  ⟨(main_unsupported_lang asciiEnv ["ListExample"] "client" "rust" "u" listDoc
      (by decide)).2.1 (by
        intro o ho
        rw [List.mem_singleton] at ho
        exact ⟨"/list", Operation.mk "ListExample" "", List.mem_cons_self _ _, ho.symm⟩)
      _ rfl,
   (main_unsupported_lang asciiEnv [] "client" "rust" "u" (T.mk [] none)
      (by decide)).2.2.2 (by simp) rfl,
   (main_unsupported_lang asciiEnv ["Nope"] "client" "rust" "u" listDoc
      (by decide)).2.2.1 ⟨"Nope", List.mem_cons_self _ _, by
        intro p post hmem
        simp only [listDoc, List.mem_singleton, Prod.mk.injEq, PathItem.mk.injEq,
          Option.some.injEq] at hmem
        rw [hmem.2]
        decide⟩⟩

/-- C18 as stated fails: with the language `rust` and the filter `Nope`, which is no
operation of the empty document, `main` prints `missing operation`, not
`Unsupported lang`. -/
theorem main_unsupported_lang_counterexample :
    main asciiEnv ["Nope"] "client" "rust" "u" emptyDoc
      = Run.mk [] ["missing operation Nope\n"] none ∧
    main asciiEnv ["Nope"] "client" "rust" "u" emptyDoc
      ≠ Run.mk [] ["Unsupported lang rust\n"] none := by
  refine ⟨by decide, by decide⟩

/-! ## The files of a run -/

theorem goGen_files (env : Env) (openapiURL module : String) (sortedPath sortedSchemas : List String)
    (doc : T) (opMap : GoMap Bool) :
    (goGen env openapiURL module sortedPath sortedSchemas doc opMap).files = [] ∨
    (∃ m, (goGen env openapiURL module sortedPath sortedSchemas doc opMap).files = [m] ∧
      (goGen env openapiURL module sortedPath sortedSchemas doc opMap).panic ≠ none ∧
      m.1 ∈ [module ++ ".model.gen.go", module ++ "_model.py", module ++ "_model.js"]) ∨
    (∃ m c, (goGen env openapiURL module sortedPath sortedSchemas doc opMap).files = [m, c] ∧
      (goGen env openapiURL module sortedPath sortedSchemas doc opMap).panic = none ∧
      m.1 ∈ [module ++ ".model.gen.go", module ++ "_model.py", module ++ "_model.js"] ∧
      c.1 ∈ [module ++ ".client.gen.go", module ++ "_client.py", module ++ "_client.js"]) := by
  unfold goGen
  cases goGenModel env doc sortedSchemas (goHeader openapiURL module) with
  | error e => exact Or.inl rfl
  | ok out =>
    dsimp only
    cases env.formatSource out with
    | none => exact Or.inl rfl
    | some content =>
      dsimp only
      cases goGenClient openapiURL module sortedPath doc opMap with
      | error e => exact Or.inr (Or.inl ⟨_, rfl, by simp, by simp⟩)
      | ok out2 =>
        dsimp only
        cases env.formatSource out2 with
        | none => exact Or.inr (Or.inl ⟨_, rfl, by simp, by simp⟩)
        | some content2 => exact Or.inr (Or.inr ⟨_, _, rfl, rfl, by simp, by simp⟩)

theorem pyGen_files (env : Env) (openapiURL module : String) (sortedPath sortedSchemas : List String)
    (doc : T) (opMap : GoMap Bool) :
    (pyGen env openapiURL module sortedPath sortedSchemas doc opMap).files = [] ∨
    (∃ m, (pyGen env openapiURL module sortedPath sortedSchemas doc opMap).files = [m] ∧
      (pyGen env openapiURL module sortedPath sortedSchemas doc opMap).panic ≠ none ∧
      m.1 ∈ [module ++ ".model.gen.go", module ++ "_model.py", module ++ "_model.js"]) ∨
    (∃ m c, (pyGen env openapiURL module sortedPath sortedSchemas doc opMap).files = [m, c] ∧
      (pyGen env openapiURL module sortedPath sortedSchemas doc opMap).panic = none ∧
      m.1 ∈ [module ++ ".model.gen.go", module ++ "_model.py", module ++ "_model.js"] ∧
      c.1 ∈ [module ++ ".client.gen.go", module ++ "_client.py", module ++ "_client.js"]) := by
  unfold pyGen
  cases commentModel "#" "py" doc sortedSchemas (pyHeader openapiURL ++ "\n") with
  | error e => exact Or.inl rfl
  | ok out =>
    dsimp only
    cases pyGenClient env openapiURL sortedPath doc opMap with
    | error e => exact Or.inr (Or.inl ⟨_, rfl, by simp, by simp⟩)
    | ok out2 => exact Or.inr (Or.inr ⟨_, _, rfl, rfl, by simp, by simp⟩)

theorem jsGen_files (env : Env) (openapiURL module : String) (sortedPath sortedSchemas : List String)
    (doc : T) (opMap : GoMap Bool) :
    (jsGen env openapiURL module sortedPath sortedSchemas doc opMap).files = [] ∨
    (∃ m, (jsGen env openapiURL module sortedPath sortedSchemas doc opMap).files = [m] ∧
      (jsGen env openapiURL module sortedPath sortedSchemas doc opMap).panic ≠ none ∧
      m.1 ∈ [module ++ ".model.gen.go", module ++ "_model.py", module ++ "_model.js"]) ∨
    (∃ m c, (jsGen env openapiURL module sortedPath sortedSchemas doc opMap).files = [m, c] ∧
      (jsGen env openapiURL module sortedPath sortedSchemas doc opMap).panic = none ∧
      m.1 ∈ [module ++ ".model.gen.go", module ++ "_model.py", module ++ "_model.js"] ∧
      c.1 ∈ [module ++ ".client.gen.go", module ++ "_client.py", module ++ "_client.js"]) := by
  unfold jsGen
  cases commentModel "//" "js" doc sortedSchemas (jsHeader openapiURL ++ "\n") with
  | error e => exact Or.inl rfl
  | ok out =>
    dsimp only
    cases jsGenClient env openapiURL module sortedPath doc opMap with
    | error e => exact Or.inr (Or.inl ⟨_, rfl, by simp, by simp⟩)
    | ok out2 => exact Or.inr (Or.inr ⟨_, _, rfl, rfl, by simp, by simp⟩)

/-- C15, as the code has it. At the end of a run of `main`, completed or not, the files
written are: none; or the model file alone, and then the run ended in a panic after
writing it; or the model file and then the client file, and then the run completed.
The client file is never written without the model file, but the model file stays
when the client part panics. -/
theorem run_files_model_first (env : Env) (operations : List String)
    (module lang openapiURL : String) (doc : T) :
    (main env operations module lang openapiURL doc).files = [] ∨
    (∃ m, (main env operations module lang openapiURL doc).files = [m] ∧
      (main env operations module lang openapiURL doc).panic ≠ none ∧
      m.1 ∈ [module ++ ".model.gen.go", module ++ "_model.py", module ++ "_model.js"]) ∨
    (∃ m c, (main env operations module lang openapiURL doc).files = [m, c] ∧
      (main env operations module lang openapiURL doc).panic = none ∧
      m.1 ∈ [module ++ ".model.gen.go", module ++ "_model.py", module ++ "_model.js"] ∧
      c.1 ∈ [module ++ ".client.gen.go", module ++ "_client.py", module ++ "_client.js"]) := by
  rw [main_eq]
  cases (markAll [] operations).keys.find?
      (fun op => !GoMap.test (collectPost doc.Paths ([], [])).2 op) with
  | some op => exact Or.inl rfl
  | none =>
    dsimp only
    cases doc.Components with
    | none => exact Or.inl rfl
    | some comps =>
      dsimp only
      by_cases hgo : lang = "go"
      · simp only [if_pos hgo]
        exact goGen_files env openapiURL module _ _ doc _
      · by_cases hjs : lang = "js"
        · simp only [if_neg hgo, if_pos hjs]
          exact jsGen_files env openapiURL module _ _ doc _
        · by_cases hpy : lang = "py"
          · simp only [if_neg hgo, if_neg hjs, if_pos hpy]
            exact pyGen_files env openapiURL module _ _ doc _
          · rw [if_neg hgo, if_neg hjs, if_neg hpy]
            exact Or.inl rfl

/-- C15 as stated fails: under `py`, for the document with the POST operation
`ListExample` and no schema `ListExampleRequest`, the run writes the model file and then
panics in the client part, so the model file is there without the client file. -/
theorem run_files_counterexample :
    main asciiEnv [] "client" "py" "u" listDocNoSchemas
      = Run.mk [("client_model.py", "# This file was generated from u\n\n")] []
          (some .nilDeref) ∧
    (main asciiEnv [] "client" "py" "u" listDocNoSchemas).files.length = 1 := by
  refine ⟨by decide, by decide⟩

/-! ## A panic of `toType` and the files -/

/-- A panic of the loop over `sortedPath` is a nil dereference or the panic of the text
of an operation. -/
theorem clientLoop_error (unit : String → Operation → Except Panic String) (doc : T)
    (opMap : GoMap Bool) (l : List String) (out : String) (e : Panic)
    (h : clientLoop unit doc opMap l out = .error e) :
    e = .nilDeref ∨ ∃ p post, unit p post = .error e := by
  induction l generalizing out with
  | nil => simp [clientLoop] at h
  | cons p rest ih =>
    unfold clientLoop at h
    cases hg : GoMap.get doc.Paths p with
    | none =>
      simp only [hg, Except.error.injEq] at h
      exact Or.inl h.symm
    | some pp =>
      simp only [hg] at h
      cases hp : pp.Post with
      | none =>
        simp only [hp] at h
        exact ih out h
      | some post =>
        simp only [hp] at h
        split at h
        · exact ih out h
        · cases hu : unit p post with
          | error e2 =>
            simp only [hu, Except.error.injEq] at h
            exact Or.inr ⟨p, post, by rw [hu, h]⟩
          | ok text =>
            simp only [hu] at h
            exact ih _ h

/-- When the model part of `pyGen` or `jsGen` succeeds, `getSchemaExample` has succeeded
on every schema name of the list. -/
theorem commentModel_ok (mark lang : String) (doc : T) (l : List String) (out text : String)
    (h : commentModel mark lang doc l out = .ok text) :
    ∀ k ∈ l, ∃ ex, schemaExample doc k lang = .ok ex := by
  induction l generalizing out with
  | nil => simp
  | cons k rest ih =>
    unfold commentModel at h
    cases hk : schemaExample doc k lang with
    | error e => simp [hk] at h
    | ok ex =>
      simp only [hk] at h
      intro q hq
      rcases List.mem_cons.mp hq with hq | hq
      · rw [hq]
        exact ⟨ex, hk⟩
      · exact ih _ h q hq

theorem GoMap.mem_keys_of_get {V : Type} (m : GoMap V) (k : String) (v : V)
    (h : GoMap.get m k = some v) : k ∈ GoMap.keys m :=
  List.mem_map.mpr ⟨(k, v), GoMap.mem_of_get m k v h, rfl⟩

theorem schemaExample_some (doc : T) (comps : Components) (hc : doc.Components = some comps)
    (name lang : String) :
    schemaExample doc name lang = getSchemaExample (GoMap.get comps.Schemas name) lang := by
  simp only [schemaExample, T.schema, hc]

/-- After the model part, `getSchemaExample` on a schema looked up by name succeeds or
dereferences nil (the name is absent): it repeats a call of the model part. -/
theorem example_after_model (mark lang : String) (doc : T) (comps : Components)
    (hc : doc.Components = some comps) (out text : String)
    (h : commentModel mark lang doc (sortStrings (GoMap.keys comps.Schemas)) out = .ok text)
    (name : String) :
    (∃ ex, schemaExample doc name lang = .ok ex) ∨
    schemaExample doc name lang = .error .nilDeref := by
  cases hg : GoMap.get comps.Schemas name with
  | none =>
    right
    rw [schemaExample_some doc comps hc, hg]
    rfl
  | some r =>
    left
    have hmem : name ∈ sortStrings (GoMap.keys comps.Schemas) :=
      mem_sortStrings.mpr (GoMap.mem_keys_of_get _ _ _ hg)
    exact commentModel_ok mark lang doc _ out text h name hmem

theorem pyClientUnit_error (env : Env) (doc : T) (comps : Components)
    (hc : doc.Components = some comps) (out text : String)
    (h : commentModel "#" "py" doc (sortStrings (GoMap.keys comps.Schemas)) out = .ok text)
    (path : String) (post : Operation) (e : Panic)
    (he : pyClientUnit env doc path post = .error e) : e = .nilDeref := by
  unfold pyClientUnit at he
  rcases example_after_model "#" "py" doc comps hc out text h (post.OperationID ++ "Request") with
    ⟨req, hreq⟩ | hreq
  · rcases example_after_model "#" "py" doc comps hc out text h
        (post.OperationID ++ "Response") with ⟨rsp, hrsp⟩ | hrsp
    · simp [hreq, hrsp] at he
    · simp only [hreq, hrsp, Except.error.injEq] at he
      exact he.symm
  · simp only [hreq, Except.error.injEq] at he
    exact he.symm

theorem jsClientUnit_error (env : Env) (module : String) (doc : T) (comps : Components)
    (hc : doc.Components = some comps) (out text : String)
    (h : commentModel "//" "js" doc (sortStrings (GoMap.keys comps.Schemas)) out = .ok text)
    (path : String) (post : Operation) (e : Panic)
    (he : jsClientUnit env module doc path post = .error e) :
    e = .nilDeref ∨ e = .sliceBounds := by
  unfold jsClientUnit at he
  rcases example_after_model "//" "js" doc comps hc out text h
      (post.OperationID ++ "Request") with ⟨req, hreq⟩ | hreq
  · rcases example_after_model "//" "js" doc comps hc out text h
        (post.OperationID ++ "Response") with ⟨rsp, hrsp⟩ | hrsp
    · simp only [hreq, hrsp] at he
      cases hn : lowerFirst env post.OperationID with
      | ok name => simp [hn] at he
      | error e2 =>
        simp only [hn, Except.error.injEq] at he
        right
        rw [← he]
        unfold lowerFirst at hn
        split at hn
        · simp only [Except.error.injEq] at hn
          exact hn.symm
        · split at hn <;> simp at hn
    · simp only [hreq, hrsp, Except.error.injEq] at he
      exact Or.inl he.symm
  · simp only [hreq, Except.error.injEq] at he
    exact Or.inl he.symm

theorem goGen_unknownType (env : Env) (openapiURL module : String)
    (sortedPath sortedSchemas : List String) (doc : T) (opMap : GoMap Bool) (msg : String)
    (h : (goGen env openapiURL module sortedPath sortedSchemas doc opMap).panic
      = some (.unknownType msg)) :
    (goGen env openapiURL module sortedPath sortedSchemas doc opMap).files = [] := by
  unfold goGen at h ⊢
  cases hm : goGenModel env doc sortedSchemas (goHeader openapiURL module) with
  | error e => rfl
  | ok out =>
    simp only [hm] at h ⊢
    cases hf : env.formatSource out with
    | none => rfl
    | some content =>
      simp only [hf] at h ⊢
      exfalso
      cases hc : goGenClient openapiURL module sortedPath doc opMap with
      | error e =>
        simp only [hc, Option.some.injEq] at h
        unfold goGenClient at hc
        rcases clientLoop_error _ _ _ _ _ _ hc with h1 | ⟨p, post, h1⟩
        · rw [h1] at h
          cases h
        · simp [goClientUnit] at h1
      | ok out2 =>
        simp only [hc] at h
        cases hf2 : env.formatSource out2 with
        | none => simp [hf2] at h
        | some content2 => simp [hf2] at h

theorem pyGen_unknownType (env : Env) (openapiURL module : String) (sortedPath : List String)
    (doc : T) (comps : Components) (hc : doc.Components = some comps) (opMap : GoMap Bool)
    (msg : String)
    (h : (pyGen env openapiURL module sortedPath
      (sortStrings (GoMap.keys comps.Schemas)) doc opMap).panic
      = some (.unknownType msg)) :
    (pyGen env openapiURL module sortedPath
      (sortStrings (GoMap.keys comps.Schemas)) doc opMap).files = [] := by
  unfold pyGen at h ⊢
  cases hm : commentModel "#" "py" doc (sortStrings (GoMap.keys comps.Schemas))
      (pyHeader openapiURL ++ "\n") with
  | error e => rfl
  | ok out =>
    simp only [hm] at h ⊢
    exfalso
    cases hcl : pyGenClient env openapiURL sortedPath doc opMap with
    | error e =>
      simp only [hcl, Option.some.injEq] at h
      unfold pyGenClient at hcl
      rcases clientLoop_error _ _ _ _ _ _ hcl with h1 | ⟨p, post, h1⟩
      · rw [h1] at h
        cases h
      · have := pyClientUnit_error env doc comps hc _ _ hm p post e h1
        rw [this] at h
        cases h
    | ok out2 => simp [hcl] at h

theorem jsGen_unknownType (env : Env) (openapiURL module : String) (sortedPath : List String)
    (doc : T) (comps : Components) (hc : doc.Components = some comps) (opMap : GoMap Bool)
    (msg : String)
    (h : (jsGen env openapiURL module sortedPath
      (sortStrings (GoMap.keys comps.Schemas)) doc opMap).panic
      = some (.unknownType msg)) :
    (jsGen env openapiURL module sortedPath
      (sortStrings (GoMap.keys comps.Schemas)) doc opMap).files = [] := by
  unfold jsGen at h ⊢
  cases hm : commentModel "//" "js" doc (sortStrings (GoMap.keys comps.Schemas))
      (jsHeader openapiURL ++ "\n") with
  | error e => rfl
  | ok out =>
    simp only [hm] at h ⊢
    exfalso
    cases hcl : jsGenClient env openapiURL module sortedPath doc opMap with
    | error e =>
      simp only [hcl, Option.some.injEq] at h
      unfold jsGenClient at hcl
      cases hl : clientLoop (jsClientUnit env module doc) doc opMap sortedPath
          (jsHeader openapiURL ++ jsClientPreamble env module) with
      | ok t => simp [hl] at hcl
      | error e2 =>
        simp only [hl, Except.error.injEq] at hcl
        rw [hcl] at hl
        rcases clientLoop_error _ _ _ _ _ _ hl with h1 | ⟨p, post, h1⟩
        · rw [h1] at h
          cases h
        · rcases jsClientUnit_error env module doc comps hc _ _ hm p post e h1 with h2 | h2 <;>
            (rw [h2] at h; cases h)
    | ok out2 => simp [hcl] at h

/-- C14. When a run of `main` ends in the panic `unknown type:` of `toType`, no file has
been written, whatever the document, the filter and the language are. For `pyGen` and
`jsGen`, whose client part calls `getSchemaExample` and through it `toType`: once the
model part has succeeded on the sorted schema names, `getSchemaExample` succeeds in the
same language on every schema that a name looks up in the document, so the calls of the
client part repeat calls that the model part made before the first write. -/
theorem unknown_type_writes_nothing (env : Env) (operations : List String)
    (module lang openapiURL : String) (doc : T) :
    (∀ msg, (main env operations module lang openapiURL doc).panic = some (.unknownType msg) →
      (main env operations module lang openapiURL doc).files = []) ∧
    (∀ comps, doc.Components = some comps → ∀ mark lg out text,
      commentModel mark lg doc (sortStrings (GoMap.keys comps.Schemas)) out = .ok text →
      ∀ name r, GoMap.get comps.Schemas name = some r →
        ∃ ex, getSchemaExample (some r) lg = .ok ex) := by
  constructor
  · intro msg
    rw [main_eq]
    cases (markAll [] operations).keys.find?
        (fun op => !GoMap.test (collectPost doc.Paths ([], [])).2 op) with
    | some op =>
      intro _
      rfl
    | none =>
      dsimp only
      cases hc : doc.Components with
      | none =>
        intro _
        rfl
      | some comps =>
        dsimp only
        by_cases hgo : lang = "go"
        · rw [if_pos hgo]
          exact goGen_unknownType env openapiURL module _ _ doc _ msg
        · by_cases hjs : lang = "js"
          · rw [if_neg hgo, if_pos hjs]
            exact jsGen_unknownType env openapiURL module _ doc comps hc _ msg
          · by_cases hpy : lang = "py"
            · rw [if_neg hgo, if_neg hjs, if_pos hpy]
              exact pyGen_unknownType env openapiURL module _ doc comps hc _ msg
            · rw [if_neg hgo, if_neg hjs, if_neg hpy]
              intro _
              rfl
  · intro comps hc mark lg out text hm name r hget
    have hmem : name ∈ sortStrings (GoMap.keys comps.Schemas) :=
      mem_sortStrings.mpr (GoMap.mem_keys_of_get _ _ _ hget)
    have := commentModel_ok mark lg doc _ out text hm name hmem
    rw [schemaExample_some doc comps hc, hget] at this
    exact this

/-- The witness of C14, on `badDoc`: under `py` the run ends in the panic of `toType`
on the type `unsupported` and writes nothing; without the schema `Bad` the model part
succeeds and so does `getSchemaExample` on `ListExampleRequest`. -/
theorem unknown_type_writes_nothing_witness :
    (main asciiEnv [] "client" "py" "u" badDoc).panic
      = some (.unknownType "unknown type:py-unsupported") ∧
    (main asciiEnv [] "client" "py" "u" badDoc).files = [] ∧
    ∃ ex, getSchemaExample (some (.mk "" (some (.mk "object" "" [] [] none none)))) "py" = .ok ex :=
  ⟨by decide,
   (unknown_type_writes_nothing asciiEnv [] "client" "py" "u" badDoc).1
     "unknown type:py-unsupported" (by decide),
   (unknown_type_writes_nothing asciiEnv [] "client" "py" "u" listDoc).2 _ rfl
     "#" "py" "" "# ListExampleRequest: \x7b\x7d\n# ListExampleResponse: \x7b\x7d\n" (by decide)
     "ListExampleRequest" _ rfl⟩

/-! ## `toSnakeCase` inserts underscores -/

theorem ne_underscore_of_upper (c : Char) (h : isUpperAZ c = true) : c ≠ '_' := by
  intro e
  rw [e] at h
  exact absurd h (by decide)

theorem ne_underscore_of_lower (c : Char) (h : isLowerAZ c = true) : c ≠ '_' := by
  intro e
  rw [e] at h
  exact absurd h (by decide)

theorem ne_underscore_of_digit (c : Char) (h : isDigit09 c = true) : c ≠ '_' := by
  intro e
  rw [e] at h
  exact absurd h (by decide)

/-- A match of `matchFirstCap` at the head: the replacement is the first rune, an
underscore and the rest of the match, which has no underscore. -/
theorem matchFirstCapAt_some (c : Char) (rest rep suffix : List Char)
    (h : matchFirstCapAt (c :: rest) = some (rep, suffix)) :
    ∃ mid, rep = c :: '_' :: mid ∧ rest = mid ++ suffix ∧ mid ≠ [] ∧ ∀ x ∈ mid, x ≠ '_' := by
  match rest, h with
  | [], h => simp [matchFirstCapAt] at h
  | [_], h => simp [matchFirstCapAt] at h
  | u :: l :: tl, h =>
    simp only [matchFirstCapAt] at h
    by_cases hc : (isDot c && isUpperAZ u && isLowerAZ l) = true
    · rw [if_pos hc] at h
      simp only [Bool.and_eq_true] at hc
      simp only [Option.some.injEq, Prod.mk.injEq] at h
      refine ⟨u :: l :: tl.takeWhile isLowerAZ, h.1.symm, ?_, by simp, ?_⟩
      · rw [← h.2]
        simp [List.takeWhile_append_dropWhile]
      · intro x hx
        rcases List.mem_cons.mp hx with hx | hx
        · rw [hx]
          exact ne_underscore_of_upper u hc.1.2
        · rcases List.mem_cons.mp hx with hx | hx
          · rw [hx]
            exact ne_underscore_of_lower l hc.2
          · exact ne_underscore_of_lower x (List.mem_takeWhile_imp hx)
    · rw [if_neg hc] at h
      cases h

/-- A match of `matchAllCap` at the head: the replacement is the first rune, which is no
underscore, an underscore and the capital. -/
theorem matchAllCapAt_some (c : Char) (rest rep suffix : List Char)
    (h : matchAllCapAt (c :: rest) = some (rep, suffix)) :
    (∃ mid, rep = c :: '_' :: mid ∧ rest = mid ++ suffix ∧ mid ≠ [] ∧ ∀ x ∈ mid, x ≠ '_') ∧
    c ≠ '_' := by
  match rest, h with
  | [], h => simp [matchAllCapAt] at h
  | u :: tl, h =>
    simp only [matchAllCapAt] at h
    by_cases hc : ((isLowerAZ c || isDigit09 c) && isUpperAZ u) = true
    · rw [if_pos hc] at h
      simp only [Bool.and_eq_true, Bool.or_eq_true] at hc
      simp only [Option.some.injEq, Prod.mk.injEq] at h
      refine ⟨⟨[u], h.1.symm, ?_, by simp, ?_⟩, ?_⟩
      · rw [← h.2]
        rfl
      · intro x hx
        rw [List.mem_singleton] at hx
        rw [hx]
        exact ne_underscore_of_upper u hc.2
      · rcases hc.1 with h1 | h1
        · exact ne_underscore_of_lower c h1
        · exact ne_underscore_of_digit c h1
    · rw [if_neg hc] at h
      cases h

/-- A replacement of this shape changes nothing but underscores, also under a map of
the runes that leaves the underscore alone. -/
theorem replaceAll_filter (matchAt : List Char → Option (List Char × List Char))
    (hm : ∀ c rest rep suffix, matchAt (c :: rest) = some (rep, suffix) →
      ∃ mid, rep = c :: '_' :: mid ∧ rest = mid ++ suffix ∧ mid ≠ [] ∧ ∀ x ∈ mid, x ≠ '_')
    (g : Char → Char) (hg : g '_' = '_') (fuel : Nat) (l : List Char) :
    ((replaceAll matchAt fuel l).map g).filter (fun c => c != '_')
      = (l.map g).filter (fun c => c != '_') := by
  induction fuel generalizing l with
  | zero => rfl
  | succ n ih =>
    cases l with
    | nil => rfl
    | cons c rest =>
      cases hmatch : matchAt (c :: rest) with
      | none =>
        simp only [replaceAll, hmatch, List.map_cons, List.filter_cons, ih rest]
      | some rs =>
        obtain ⟨rep, suffix⟩ := rs
        obtain ⟨mid, hrep, hrest, _, _⟩ := hm c rest rep suffix hmatch
        simp only [replaceAll, hmatch]
        rw [hrep, hrest]
        simp only [List.map_cons, List.map_append, List.cons_append, List.filter_cons,
          List.filter_append, ih suffix, hg]
        simp

/-- The scan leaves the first rune where it is. -/
theorem replaceAll_head (matchAt : List Char → Option (List Char × List Char))
    (hm : ∀ c rest rep suffix, matchAt (c :: rest) = some (rep, suffix) →
      ∃ mid, rep = c :: '_' :: mid ∧ rest = mid ++ suffix ∧ mid ≠ [] ∧ ∀ x ∈ mid, x ≠ '_')
    (fuel : Nat) (l : List Char) : (replaceAll matchAt fuel l).head? = l.head? := by
  cases fuel with
  | zero => rfl
  | succ n =>
    cases l with
    | nil => rfl
    | cons c rest =>
      cases hmatch : matchAt (c :: rest) with
      | none => simp [replaceAll, hmatch]
      | some rs =>
        obtain ⟨rep, suffix⟩ := rs
        obtain ⟨mid, hrep, _, _, _⟩ := hm c rest rep suffix hmatch
        simp [replaceAll, hmatch, hrep]

theorem noDouble_cons_of_ne (a : Char) (l : List Char) (h : a ≠ '_') :
    noDoubleUnderscore (a :: l) = noDoubleUnderscore l := by
  cases l with
  | nil => rfl
  | cons b rest =>
    have : (a == '_') = false := by simpa using h
    simp [noDoubleUnderscore, this]

theorem noDouble_underscore_cons (l : List Char) :
    noDoubleUnderscore ('_' :: l) = (decide (l.head? ≠ some '_') && noDoubleUnderscore l) := by
  cases l with
  | nil => rfl
  | cons b rest =>
    by_cases hb : b = '_'
    · subst hb
      simp [noDoubleUnderscore]
    · have : (b == '_') = false := by simpa using hb
      simp [noDoubleUnderscore, this, hb]

theorem noDouble_append_clean (mid l : List Char) (h : ∀ x ∈ mid, x ≠ '_') :
    noDoubleUnderscore (mid ++ l) = noDoubleUnderscore l := by
  induction mid with
  | nil => rfl
  | cons a rest ih =>
    rw [List.cons_append, noDouble_cons_of_ne _ _ (h a (List.mem_cons_self _ _))]
    exact ih (fun x hx => h x (List.mem_cons_of_mem _ hx))

theorem noDouble_of_clean (l : List Char) (h : ∀ x ∈ l, x ≠ '_') :
    noDoubleUnderscore l = true := by
  have := noDouble_append_clean l [] h
  rw [List.append_nil] at this
  rw [this]
  rfl

theorem noDouble_tail (c : Char) (l : List Char) (h : noDoubleUnderscore (c :: l) = true) :
    noDoubleUnderscore l = true := by
  cases l with
  | nil => rfl
  | cons b rest =>
    simp only [noDoubleUnderscore, Bool.and_eq_true] at h
    exact h.2

theorem noDouble_suffix (a l : List Char) (h : noDoubleUnderscore (a ++ l) = true) :
    noDoubleUnderscore l = true := by
  induction a with
  | nil => exact h
  | cons c rest ih => exact ih (noDouble_tail c _ h)

/-- The scan puts no two underscores side by side, on the inputs `Q` in which a match
never starts at an underscore. -/
theorem replaceAll_noDouble (matchAt : List Char → Option (List Char × List Char))
    (hm : ∀ c rest rep suffix, matchAt (c :: rest) = some (rep, suffix) →
      ∃ mid, rep = c :: '_' :: mid ∧ rest = mid ++ suffix ∧ mid ≠ [] ∧ ∀ x ∈ mid, x ≠ '_')
    (Q : List Char → Prop) (hsuffix : ∀ a b, Q (a ++ b) → Q b)
    (hQ : ∀ l, Q l → noDoubleUnderscore l = true)
    (hc : ∀ c rest rep suffix, Q (c :: rest) → matchAt (c :: rest) = some (rep, suffix) → c ≠ '_')
    (fuel : Nat) (l : List Char) (hl : Q l) :
    noDoubleUnderscore (replaceAll matchAt fuel l) = true := by
  induction fuel generalizing l with
  | zero => exact hQ l hl
  | succ n ih =>
    cases l with
    | nil => rfl
    | cons c rest =>
      have hrestQ : Q rest := hsuffix [c] rest hl
      cases hmatch : matchAt (c :: rest) with
      | none =>
        simp only [replaceAll, hmatch]
        by_cases hcu : c = '_'
        · subst hcu
          rw [noDouble_underscore_cons, replaceAll_head matchAt hm, ih rest hrestQ]
          have h0 := hQ _ hl
          rw [noDouble_underscore_cons] at h0
          simp only [Bool.and_eq_true, decide_eq_true_eq] at h0
          simp [h0.1]
        · rw [noDouble_cons_of_ne _ _ hcu]
          exact ih rest hrestQ
      | some rs =>
        obtain ⟨rep, suffix⟩ := rs
        obtain ⟨mid, hrep, hrest, hmid, hclean⟩ := hm c rest rep suffix hmatch
        have hcu : c ≠ '_' := hc c rest rep suffix hl hmatch
        have hsufQ : Q suffix := by
          rw [hrest] at hrestQ
          exact hsuffix mid suffix hrestQ
        simp only [replaceAll, hmatch]
        rw [hrep, List.cons_append, List.cons_append, noDouble_cons_of_ne _ _ hcu,
          noDouble_underscore_cons, noDouble_append_clean _ _ hclean, ih suffix hsufQ]
        cases mid with
        | nil => exact absurd rfl hmid
        | cons m ms =>
          have hm0 : m ≠ '_' := hclean m (List.mem_cons_self _ _)
          simp [hm0]

theorem noDouble_map (f : Char → Char) (l : List Char) (hf : ∀ x ∈ l, f x = '_' → x = '_')
    (h : noDoubleUnderscore l = true) : noDoubleUnderscore (l.map f) = true := by
  match l with
  | [] => rfl
  | [a] => rfl
  | a :: b :: rest =>
    have ih := noDouble_map f (b :: rest) (fun x hx => hf x (List.mem_cons_of_mem _ hx))
      (noDouble_tail a _ h)
    simp only [noDoubleUnderscore, Bool.and_eq_true, Bool.not_eq_true', Bool.and_eq_false_imp,
      beq_iff_eq] at h
    simp only [List.map_cons, noDoubleUnderscore, Bool.and_eq_true, Bool.not_eq_true',
      Bool.and_eq_false_imp, beq_iff_eq]
    refine ⟨?_, ?_⟩
    · intro ha
      have ha2 := hf a (List.mem_cons_self _ _) ha
      have hb := h.1 ha2
      cases hfb : (f b == '_') with
      | false => rfl
      | true =>
        have := hf b (by simp) (by simpa using hfb)
        simp [this] at hb
    · simpa [List.map_cons] using ih

/-- Lower-casing an ASCII letter or digit: the result is no capital and no underscore. -/
theorem toLowerRune_alnum (env : Env) (c : Char) (h : isAlnum c = true) :
    isUpperAZ (toLowerRune env c) = false ∧ toLowerRune env c ≠ '_' := by
  simp only [isAlnum, Bool.or_eq_true] at h
  have h128 : c.toNat < 128 := by
    simp only [isUpperAZ, isLowerAZ, isDigit09, Bool.and_eq_true, decide_eq_true_eq] at h
    omega
  unfold toLowerRune
  rw [if_pos h128]
  by_cases hu : isUpperAZ c = true
  · rw [if_pos hu]
    have h2 := toNat_ofNat_add_32 c hu
    simp only [isUpperAZ, Bool.and_eq_true, decide_eq_true_eq] at hu
    refine ⟨?_, ?_⟩
    · simp only [isUpperAZ, h2, Bool.and_eq_false_imp, decide_eq_true_eq,
        decide_eq_false_iff_not]
      omega
    · intro e
      rw [e] at h2
      have : ('_' : Char).toNat = 95 := rfl
      omega
  · rw [if_neg hu]
    refine ⟨by simpa using hu, ?_⟩
    rcases h with (h | h) | h
    · exact absurd h hu
    · exact ne_underscore_of_lower c h
    · exact ne_underscore_of_digit c h

theorem toLowerRune_underscore (env : Env) : toLowerRune env '_' = '_' := rfl

/-- C19. Deleting the underscores from `toSnakeCase(s)` gives the lower-cased `s` with
its underscores deleted, for every string `s`. When `s` is made of ASCII letters and
digits, `toSnakeCase(s)` has no rune of `[A-Z]`, does not start with an underscore and
has no two underscores side by side. And `ListExample` becomes `list_example`. -/
theorem toSnakeCase_inserts_underscores (env : Env) :
    (∀ s : String, (toSnakeCase env s).data.filter (fun c => c != '_')
      = (toLower env s).data.filter (fun c => c != '_')) ∧
    (∀ s : String, (∀ c ∈ s.data, isAlnum c = true) →
      (∀ c ∈ (toSnakeCase env s).data, isUpperAZ c = false) ∧
      (toSnakeCase env s).data.head? ≠ some '_' ∧
      noDoubleUnderscore (toSnakeCase env s).data = true) ∧
    toSnakeCase env "ListExample" = "list_example" := by
  have hm1 := matchFirstCapAt_some
  have hm2 : ∀ c rest rep suffix, matchAllCapAt (c :: rest) = some (rep, suffix) →
      ∃ mid, rep = c :: '_' :: mid ∧ rest = mid ++ suffix ∧ mid ≠ [] ∧ ∀ x ∈ mid, x ≠ '_' :=
    fun c rest rep suffix h => (matchAllCapAt_some c rest rep suffix h).1
  have hdata : ∀ s : String, (toSnakeCase env s).data
      = (replaceAll matchAllCapAt (replaceAll matchFirstCapAt s.data.length s.data).length
          (replaceAll matchFirstCapAt s.data.length s.data)).map (toLowerRune env) := by
    intro s
    rfl
  refine ⟨?_, ?_, ?_⟩
  · intro s
    rw [hdata, replaceAll_filter matchAllCapAt hm2 _ (toLowerRune_underscore env),
      replaceAll_filter matchFirstCapAt hm1 _ (toLowerRune_underscore env)]
    rfl
  · intro s hs
    have hclean : ∀ x ∈ s.data, x ≠ '_' := fun x hx => (by
      intro e
      have := hs x hx
      rw [e] at this
      exact absurd this (by decide))
    have hchars : ∀ x ∈ replaceAll matchAllCapAt
        (replaceAll matchFirstCapAt s.data.length s.data).length
        (replaceAll matchFirstCapAt s.data.length s.data), x = '_' ∨ x ∈ s.data := by
      intro x hx
      by_cases hxu : x = '_'
      · exact Or.inl hxu
      · right
        have h1 := replaceAll_filter matchAllCapAt hm2 id rfl
          (replaceAll matchFirstCapAt s.data.length s.data).length
          (replaceAll matchFirstCapAt s.data.length s.data)
        have h2 := replaceAll_filter matchFirstCapAt hm1 id rfl s.data.length s.data
        simp only [List.map_id] at h1 h2
        have hmem : x ∈ List.filter (fun c => c != '_') (replaceAll matchAllCapAt
            (replaceAll matchFirstCapAt s.data.length s.data).length
            (replaceAll matchFirstCapAt s.data.length s.data)) :=
          List.mem_filter.mpr ⟨hx, by simpa using hxu⟩
        rw [h1, h2] at hmem
        exact (List.mem_filter.mp hmem).1
    have hnd1 : noDoubleUnderscore (replaceAll matchFirstCapAt s.data.length s.data) = true :=
      replaceAll_noDouble matchFirstCapAt hm1 (fun l => ∀ x ∈ l, x ≠ '_')
        (fun a b h x hx => h x (List.mem_append_right a hx))
        (fun l h => noDouble_of_clean l h)
        (fun c rest rep suffix h _ => h c (List.mem_cons_self _ _))
        _ _ hclean
    have hnd2 : noDoubleUnderscore (replaceAll matchAllCapAt
        (replaceAll matchFirstCapAt s.data.length s.data).length
        (replaceAll matchFirstCapAt s.data.length s.data)) = true :=
      replaceAll_noDouble matchAllCapAt hm2 (fun l => noDoubleUnderscore l = true)
        noDouble_suffix (fun l h => h)
        (fun c rest rep suffix _ h => (matchAllCapAt_some c rest rep suffix h).2)
        _ _ hnd1
    refine ⟨?_, ?_, ?_⟩
    · intro c hc
      rw [hdata, List.mem_map] at hc
      obtain ⟨x, hx, hxc⟩ := hc
      rw [← hxc]
      rcases hchars x hx with h | h
      · rw [h]
        rfl
      · exact (toLowerRune_alnum env x (hs x h)).1
    · rw [hdata, List.head?_map, replaceAll_head matchAllCapAt hm2,
        replaceAll_head matchFirstCapAt hm1]
      cases hd : s.data with
      | nil => simp
      | cons c rest =>
        simp only [List.head?_cons, Option.map_some', ne_eq, Option.some.injEq]
        exact (toLowerRune_alnum env c (hs c (by rw [hd]; exact List.mem_cons_self _ _))).2
    · rw [hdata]
      apply noDouble_map _ _ _ hnd2
      intro x hx hfx
      rcases hchars x hx with h | h
      · exact h
      · exact absurd hfx (toLowerRune_alnum env x (hs x h)).2
  · rfl

/-- The witness of C19: the string `ListExample`. -/
theorem toSnakeCase_inserts_underscores_witness :
    toSnakeCase asciiEnv "ListExample" = "list_example" ∧
    (∀ c ∈ (toSnakeCase asciiEnv "ListExample").data, isUpperAZ c = false) ∧
    (toSnakeCase asciiEnv "ListExample").data.head? ≠ some '_' ∧
    noDoubleUnderscore (toSnakeCase asciiEnv "ListExample").data = true :=
  ⟨(toSnakeCase_inserts_underscores asciiEnv).2.2,
   (toSnakeCase_inserts_underscores asciiEnv).2.1 "ListExample" (by decide)⟩

end Ottcli
